import Mathlib

/-! # Curation pool simulation: a shallow embedding

The JavaScript classes `Token`, `SecondaryPool` and `CurationPool` of
`curation_sim/modules` as Lean functions on explicit state.

Numbers.  A JavaScript number is an IEEE 754 binary64 value.  `JSNum` models
it by a rational (a finite value), one of the two infinities, or NaN.  The
operators `+`, `-`, `*`, `/` compute the exact rational result and round it to
the nearest double, ties going to the even significand; a result that rounds
to `2 ^ 1024` or beyond is an infinity, and the special values follow
IEEE 754.  The function `ofRat` is that rounding; a numeric literal of the
source is entered with it when it is not a double itself (`0.0001`,
`0.000001`).  The carrier admits rationals that are not doubles; `isDouble`
singles out those that are, and every operator returns one.  Negative zero is
identified with zero: the two differ only in the sign of the infinity that a
division by a zero of negative sign gives, and `||`, `<` and `Map` treat them
alike.  The operator `**` is left approximate by ECMAScript; it is modelled
by the correctly rounded power.  The closed evaluations below use it where
the exact power is a double or overflows (exponents 0 and 1, powers of `2`
and of `1.5`), which an implementation that errs by less than one unit in the
last place returns exactly, and otherwise only for the sign of a result.

Objects.  A JavaScript `Map` is an association list in insertion order.
Mutation is state passing; a `throw` is recorded in the `Outcome` next to the
state the object has at that moment, because whatever was written before the
throw stays written.
-/

namespace CurationSim

/-! ## Numbers -/

/-- A JavaScript number: a finite value, `Infinity`, `-Infinity` or `NaN`. -/
inductive JSNum where
  | fin (q : ℚ)
  | posInf
  | negInf
  | nan
  deriving DecidableEq

namespace JSNum

/-- The number of halvings that bring `n` below 2, counted on `fuel` steps. -/
def log2Aux : ℕ → ℕ → ℕ
  | 0, _ => 0
  | fuel + 1, n => if 2 ≤ n then log2Aux fuel (n / 2) + 1 else 0

/-- The binary logarithm of a positive natural number, rounded down. -/
def log2 (n : ℕ) : ℕ := log2Aux n n

/-- The binary exponent of a nonzero rational `q`: the `e` with
`2 ^ e ≤ |q| < 2 ^ (e + 1)`. -/
def binade (q : ℚ) : ℤ :=
  if (2 : ℚ) ^ ((log2 q.num.natAbs : ℤ) - (log2 q.den : ℤ)) ≤ |q| then
    (log2 q.num.natAbs : ℤ) - (log2 q.den : ℤ)
  else (log2 q.num.natAbs : ℤ) - (log2 q.den : ℤ) - 1

/-- The exponent of the spacing of the doubles around `q`: 52 below the binary
exponent of `q`, and `-1074` throughout the subnormal range. -/
def ulpExp (q : ℚ) : ℤ := max (binade q) (-1022) - 52

/-- The integer nearest to `m`, a tie going to the even one. -/
def roundHalfEven (m : ℚ) : ℤ :=
  if m - ⌊m⌋ < 1 / 2 then ⌊m⌋
  else if 1 / 2 < m - ⌊m⌋ then ⌊m⌋ + 1
  else if ⌊m⌋ % 2 = 0 then ⌊m⌋ else ⌊m⌋ + 1

/-- The multiple of the spacing around `q` that is nearest to `q`. -/
def nearest (q : ℚ) : ℚ := roundHalfEven (q / 2 ^ ulpExp q) * 2 ^ ulpExp q

/-- The double that a real result `q` is rounded to (round to nearest, ties to
even); a result that rounds to `2 ^ 1024` or beyond is an infinity. -/
def ofRat (q : ℚ) : JSNum :=
  if 2 ^ (1024 : ℤ) ≤ nearest q then posInf
  else if nearest q ≤ -2 ^ (1024 : ℤ) then negInf
  else fin (nearest q)

/-- True when the rational `q` is a double: rounding leaves it as it is. -/
def isDouble (q : ℚ) : Bool := decide (ofRat q = fin q)

/-- True for a number that a JavaScript program can hold: a double, an
infinity or NaN. -/
def isNumber : JSNum → Bool
  | fin q => isDouble q
  | _ => true

/-- Negation, `-x`. -/
def neg : JSNum → JSNum
  | fin a => fin (-a)
  | posInf => negInf
  | negInf => posInf
  | nan => nan

/-- Addition, `x + y`: the exact sum rounded; opposite infinities give NaN. -/
def add : JSNum → JSNum → JSNum
  | fin a, fin b => ofRat (a + b)
  | nan, _ => nan
  | _, nan => nan
  | posInf, negInf => nan
  | negInf, posInf => nan
  | posInf, _ => posInf
  | negInf, _ => negInf
  | fin _, posInf => posInf
  | fin _, negInf => negInf

/-- Subtraction, `x - y`. -/
def sub (x y : JSNum) : JSNum := add x (neg y)

/-- The infinity with the sign of `pos` (true for positive). -/
def infOfSign (pos : Bool) : JSNum := if pos then posInf else negInf

/-- Multiplication, `x * y`: the exact product rounded; zero times an infinity
is NaN. -/
def mul : JSNum → JSNum → JSNum
  | fin a, fin b => ofRat (a * b)
  | nan, _ => nan
  | _, nan => nan
  | posInf, posInf => posInf
  | posInf, negInf => negInf
  | negInf, posInf => negInf
  | negInf, negInf => posInf
  | posInf, fin b => if b = 0 then nan else infOfSign (decide (0 < b))
  | negInf, fin b => if b = 0 then nan else infOfSign (decide (b < 0))
  | fin a, posInf => if a = 0 then nan else infOfSign (decide (0 < a))
  | fin a, negInf => if a = 0 then nan else infOfSign (decide (a < 0))

/-- Division, `x / y`: the exact quotient rounded; a nonzero value over zero
is an infinity, `0 / 0` and a quotient of infinities are NaN, a finite value
over an infinity is zero. -/
def div : JSNum → JSNum → JSNum
  | fin a, fin b =>
      if b = 0 then (if a = 0 then nan else infOfSign (decide (0 < a))) else ofRat (a / b)
  | nan, _ => nan
  | _, nan => nan
  | fin _, posInf => fin 0
  | fin _, negInf => fin 0
  | posInf, fin b => infOfSign (decide (0 ≤ b))
  | negInf, fin b => infOfSign (decide (b < 0))
  | posInf, posInf => nan
  | posInf, negInf => nan
  | negInf, posInf => nan
  | negInf, negInf => nan

/-- The comparison `x < y`: false as soon as one side is NaN. -/
def lt : JSNum → JSNum → Bool
  | fin a, fin b => decide (a < b)
  | nan, _ => false
  | _, nan => false
  | negInf, negInf => false
  | negInf, _ => true
  | _, negInf => false
  | posInf, _ => false
  | fin _, posInf => true

/-- The comparison `x > y`, which is `y < x`. -/
def gt (x y : JSNum) : Bool := lt y x

/-- Strict equality `x === y` on numbers: NaN equals nothing. -/
def strictEq : JSNum → JSNum → Bool
  | nan, _ => false
  | _, nan => false
  | x, y => decide (x = y)

/-- The power `x ** n` for an integer exponent: the exact power rounded;
`x ** 0` is 1 for every `x`, NaN included, and a negative power of zero is
`Infinity`. -/
def pow : JSNum → ℤ → JSNum
  | _, 0 => fin 1
  | nan, _ => nan
  | fin b, n => if n < 0 ∧ b = 0 then posInf else ofRat (b ^ n)
  | posInf, n => if 0 < n then posInf else fin 0
  | negInf, n => if 0 < n then (if n % 2 = 0 then posInf else negInf) else fin 0

/-- Truthiness of a number: `0` and `NaN` are falsy. -/
def truthy : JSNum → Bool
  | fin a => decide (a ≠ 0)
  | nan => false
  | _ => true

/-- The idiom `x || 0` applied to the result of a `Map` lookup: an absent
entry, a stored zero and a stored NaN all read as `0`. -/
def orZero : Option JSNum → JSNum
  | some x => if truthy x then x else fin 0
  | none => fin 0

instance : Add JSNum := ⟨add⟩
instance : Sub JSNum := ⟨sub⟩
instance : Mul JSNum := ⟨mul⟩
instance : Div JSNum := ⟨div⟩
instance : Neg JSNum := ⟨neg⟩

end JSNum

/-! ## Map keys and maps -/

/-- A key of a `Map` that is indexed by accounts.  Accounts are strings; the
one call of the source that passes a number where an account is expected
(`burn(shares)`) makes a number a key as well. -/
inductive Account where
  | str (name : String)
  | num (x : JSNum)
  deriving DecidableEq

/-- A JavaScript `Map` with account keys: its entries in insertion order. -/
def JSMap (β : Type) := List (Account × β)

instance {β : Type} [DecidableEq β] : DecidableEq (JSMap β) :=
  inferInstanceAs (DecidableEq (List (Account × β)))

namespace JSMap

variable {β : Type}

/-- The empty map, `new Map()`. -/
def empty : JSMap β := ([] : List (Account × β))

/-- The lookup `m.get(k)`: `none` stands for `undefined`. -/
def get : JSMap β → Account → Option β
  | [], _ => none
  | (k', v) :: rest, k => if k' = k then some v else get rest k

/-- The update `m.set(k, v)`: an existing entry keeps its place, a new one is
appended. -/
def set : JSMap β → Account → β → JSMap β
  | [], k, v => [(k, v)]
  | (k', v') :: rest, k, v => if k' = k then (k, v) :: rest else (k', v') :: set rest k v

/-- The constructor `new Map(entries)`: the entries are set in order, so a
key listed twice keeps the last value. -/
def ofEntries (entries : List (Account × β)) : JSMap β :=
  entries.foldl (fun m e => set m e.1 e.2) empty

/-- The entries `m.entries()` in insertion order. -/
def entries (m : JSMap β) : List (Account × β) := m

/-- The values `m.values()` in insertion order. -/
def values (m : JSMap β) : List β := List.map Prod.snd m

end JSMap

/-! ## Outcomes -/

/-- What a call can throw. -/
inductive Err where
  /-- The `TypeError` of destructuring `undefined`. -/
  | typeError
  /-- The string `"Token_burn: Sender has insufficient funds"`. -/
  | burnInsufficientFunds
  /-- The string `"CurationPool_deposit: User has insufficient funds"`. -/
  | depositInsufficientFunds
  /-- The string `"CurationPool_withdraw: User cannot withdraw more than they have deposited"`. -/
  | withdrawExceedsDeposit
  /-- The string `"CurationPool_constructor: Deposit balances must sum to pools token balance"`. -/
  | depositsMismatch
  deriving DecidableEq

deriving instance DecidableEq for Except

/-- The result of a call: the state of the object when the call ends, and the
exception it ended with, if any. -/
structure Outcome (σ : Type) where
  state : σ
  thrown : Option Err

namespace Outcome

variable {σ : Type}

/-- A call that returns normally. -/
def ok (s : σ) : Outcome σ := ⟨s, none⟩

/-- A call that throws `e`, leaving the state `s`. -/
def throw (s : σ) (e : Err) : Outcome σ := ⟨s, some e⟩

/-- Sequencing of statements: the second runs only if the first returned. -/
def andThen (r : Outcome σ) (f : σ → Outcome σ) : Outcome σ :=
  match r.thrown with
  | none => f r.state
  | some e => ⟨r.state, some e⟩

end Outcome

/-! ## Token (`modules/token.js`) -/

/-- The tolerance `0.000001` of `_validateTransfer`: the double that the
literal denotes, which lies slightly below `1 / 1000000`. -/
def epsilon : JSNum := JSNum.ofRat (1 / 1000000)

/-- A missing argument is `undefined`; the comparison `<` and the arithmetic
operators convert it to NaN, which is how it enters every use below. -/
def undefinedNum : JSNum := JSNum.nan

/-- The class `Token`.  The six hook lists are left out: they are empty at
construction and `registerHooks` has no caller in the repository, so every
pre and post stage returns its context unchanged. -/
structure Token where
  balances : JSMap JSNum
  totalSupply : JSNum
  deriving DecidableEq

/-- The context object that `transfer` threads through its stages. -/
structure TransferContext where
  from_ : Account
  to_ : Account
  amount : JSNum
  senderInitialBalance : JSNum
  receiverInitialBalance : JSNum

namespace Token

/-- The method `_computeTotalSupply`: the balances summed from `0`. -/
def _computeTotalSupply (balances : JSMap JSNum) : JSNum :=
  (JSMap.values balances).foldl (fun acc value => acc + value) (JSNum.fin 0)

/-- The constructor `new Token({ initialBalances })`. -/
def new (initialBalances : List (Account × JSNum)) : Token :=
  let balances := JSMap.ofEntries initialBalances
  { balances := balances, totalSupply := _computeTotalSupply balances }

/-- The method `balanceOf`: `this.balances.get(account) || 0`. -/
def balanceOf (t : Token) (account : Account) : JSNum :=
  JSNum.orZero (t.balances.get account)

/-- The stage `_preTransfer`: no hook is registered. -/
def _preTransfer (context : TransferContext) : TransferContext := context

/-- The stage `_validateTransfer`: a shortfall below the tolerance lowers the
amount to the sender's balance, a larger one returns `undefined` (`none`). -/
def _validateTransfer (context : TransferContext) : Option TransferContext :=
  if JSNum.lt context.senderInitialBalance context.amount then
    if JSNum.lt (context.amount - context.senderInitialBalance) epsilon then
      some { context with amount := context.senderInitialBalance }
    else
      none
  else
    some context

/-- The stage `_executeTransfer`: destructuring an `undefined` context throws a
`TypeError`; otherwise the sender's entry is written first, the receiver's
second, both from the balances read before the call. -/
def _executeTransfer (t : Token) (context : Option TransferContext) : Outcome Token :=
  match context with
  | none => Outcome.throw t Err.typeError
  | some c =>
      let balances := t.balances.set c.from_ (c.senderInitialBalance - c.amount)
      let balances := balances.set c.to_ (c.receiverInitialBalance + c.amount)
      Outcome.ok { t with balances := balances }

/-- The method `transfer(from, to, amount)`; the post stage has no hook. -/
def transfer (t : Token) (from_ to_ : Account) (amount : JSNum) : Outcome Token :=
  let senderInitialBalance := t.balanceOf from_
  let receiverInitialBalance := t.balanceOf to_
  let ctx := _preTransfer
    { from_ := from_, to_ := to_, amount := amount,
      senderInitialBalance := senderInitialBalance,
      receiverInitialBalance := receiverInitialBalance }
  let ctx := _validateTransfer ctx
  _executeTransfer t ctx

/-- The stage `_executeMint`. -/
def _executeMint (t : Token) (to_ : Account) (amount receiverInitialBalance : JSNum) : Token :=
  { balances := t.balances.set to_ (receiverInitialBalance + amount),
    totalSupply := t.totalSupply + amount }

/-- The method `mint(to, amount)`: it has no validation stage and cannot throw. -/
def mint (t : Token) (to_ : Account) (amount : JSNum) : Token :=
  let receiverInitialBalance := t.balanceOf to_
  _executeMint t to_ amount receiverInitialBalance

/-- The stage `_validateBurn`: true when the burn is allowed to proceed. -/
def _validateBurn (senderInitialBalance amount : JSNum) : Bool :=
  !(JSNum.lt senderInitialBalance amount)

/-- The stage `_executeBurn`. -/
def _executeBurn (t : Token) (from_ : Account) (amount senderInitialBalance : JSNum) : Token :=
  { balances := t.balances.set from_ (senderInitialBalance - amount),
    totalSupply := t.totalSupply - amount }

/-- The method `burn(from, amount)`. -/
def burn (t : Token) (from_ : Account) (amount : JSNum) : Outcome Token :=
  let senderInitialBalance := t.balanceOf from_
  if _validateBurn senderInitialBalance amount then
    Outcome.ok (_executeBurn t from_ amount senderInitialBalance)
  else
    Outcome.throw t Err.burnInsufficientFunds

/-- The ledger invariant `totalSupply == sum(balances)`, read with `===`. -/
def conserved (t : Token) : Bool :=
  JSNum.strictEq (_computeTotalSupply t.balances) t.totalSupply

end Token

/-! ## Clock (`class Chain` of `modules/ohq_sim_1.js`) -/

/-- The class `Chain`; block heights are integers. -/
structure Chain where
  blockHeight : ℤ
  deriving DecidableEq

namespace Chain

/-- The method `sleep(blocks)`. -/
def sleep (c : Chain) (blocks : ℤ) : Chain := { blockHeight := c.blockHeight + blocks }

/-- The method `step()`. -/
def step (c : Chain) : Chain := { blockHeight := c.blockHeight + 1 }

end Chain

/-! ## Pools (`modules/secondary_pool.js`, `modules/curation_pool.js`) -/

/-- A snapshot of the secondary pool. -/
structure SecondarySnapshot where
  deposit : JSNum
  accSharesPerDeposit : JSNum
  accRoyaltiesPerDeposit : JSNum
  deriving DecidableEq

/-- A snapshot of the primary pool. -/
structure PrimarySnapshot where
  shares : JSNum
  accRoyaltiesPerShare : JSNum
  deriving DecidableEq

/-- The fields that the class `SecondaryPool` owns.  Its `shareToken`,
`reserveToken` and `primaryPool` are references to objects of the primary
pool, so its methods below act on the whole `CurationPool` state. -/
structure SecondaryPool where
  snapshots : JSMap SecondarySnapshot
  accSharesPerDeposit : JSNum
  accShares : JSNum
  accRoyaltiesPerDeposit : JSNum
  address : Account
  totalDeposits : JSNum
  deriving DecidableEq

/-- The class `CurationPool`, with the objects it refers to held by value. -/
structure CurationPool where
  snapshots : JSMap PrimarySnapshot
  issuanceRate : JSNum
  shareToken : Token
  deposits : JSMap JSNum
  chain : Chain
  address : Account
  reserveToken : Token
  accRoyaltiesPerShare : JSNum
  secondaryPool : SecondaryPool
  lastMintedBlock : ℤ
  valuationMultiple : JSNum
  deriving DecidableEq

namespace CurationPool

/-- The method `depositOf`: `this.deposits.get(account) || 0`. -/
def depositOf (p : CurationPool) (account : Account) : JSNum :=
  JSNum.orZero (p.deposits.get account)

/-- The getter `totalShares`. -/
def totalShares (p : CurationPool) : JSNum :=
  p.shareToken.totalSupply *
    JSNum.pow (JSNum.fin 1 + p.issuanceRate) (p.chain.blockHeight - p.lastMintedBlock)

end CurationPool

namespace SecondaryPool

/-- The constructor of `SecondaryPool`. -/
def new (address : Account) (totalDeposits : JSNum) : SecondaryPool :=
  { snapshots := JSMap.empty, accSharesPerDeposit := JSNum.fin 0, accShares := JSNum.fin 0,
    accRoyaltiesPerDeposit := JSNum.fin 0, address := address, totalDeposits := totalDeposits }

/-- The method `snapshotOf`: the stored snapshot, else the default, which has
zero baselines when the primary pool records a positive deposit and the
current accumulators otherwise. -/
def snapshotOf (p : CurationPool) (account : Account) : SecondarySnapshot :=
  match p.secondaryPool.snapshots.get account with
  | some s => s
  | none =>
      if JSNum.gt (p.depositOf account) (JSNum.fin 0) then
        { deposit := p.depositOf account,
          accSharesPerDeposit := JSNum.fin 0,
          accRoyaltiesPerDeposit := JSNum.fin 0 }
      else
        { deposit := JSNum.fin 0,
          accSharesPerDeposit := p.secondaryPool.accSharesPerDeposit,
          accRoyaltiesPerDeposit := p.secondaryPool.accRoyaltiesPerDeposit }

/-- The method `_updateDeposit(account, amount)`. -/
def _updateDeposit (p : CurationPool) (account : Account) (amount : JSNum) : CurationPool :=
  let prevDeposit := (snapshotOf p account).deposit
  let sp := p.secondaryPool
  { p with secondaryPool :=
      { sp with
        snapshots := sp.snapshots.set account
          { accSharesPerDeposit := sp.accSharesPerDeposit,
            accRoyaltiesPerDeposit := sp.accRoyaltiesPerDeposit,
            deposit := amount },
        totalDeposits := sp.totalDeposits + (amount - prevDeposit) } }

/-- The method `_distributeShares(shares)`.  Its else branch calls
`this.shareToken.burn(shares)` with one argument: `from` is the number
`shares` and `amount` is `undefined`. -/
def _distributeShares (p : CurationPool) (shares : JSNum) : Outcome CurationPool :=
  let sp := p.secondaryPool
  if JSNum.gt sp.totalDeposits (JSNum.fin 0) then
    Outcome.ok { p with secondaryPool :=
      { sp with accSharesPerDeposit := sp.accSharesPerDeposit + shares / sp.totalDeposits } }
  else
    let r := Token.burn p.shareToken (Account.num shares) undefinedNum
    { state := { p with shareToken := r.state }, thrown := r.thrown }

/-- The method `_distributeRoyalties(royalties)`. -/
def _distributeRoyalties (p : CurationPool) (royalties : JSNum) : CurationPool :=
  let sp := p.secondaryPool
  { p with secondaryPool :=
      { sp with accRoyaltiesPerDeposit := sp.accRoyaltiesPerDeposit + royalties / sp.totalDeposits } }

/-- The method `_claim(account)`: the settlement. -/
def _claim (p : CurationPool) (account : Account) : Outcome CurationPool :=
  let prevSnapshot := snapshotOf p account
  let prevDeposit := prevSnapshot.deposit
  let accShares :=
    (p.secondaryPool.accSharesPerDeposit - prevSnapshot.accSharesPerDeposit) * prevDeposit
  let r1 := Token.transfer p.shareToken p.secondaryPool.address account accShares
  Outcome.andThen { state := { p with shareToken := r1.state }, thrown := r1.thrown } fun p =>
  let accRoyalties :=
    (p.secondaryPool.accRoyaltiesPerDeposit - prevSnapshot.accRoyaltiesPerDeposit) * prevDeposit
  let r2 := Token.transfer p.reserveToken p.secondaryPool.address account accRoyalties
  Outcome.andThen { state := { p with reserveToken := r2.state }, thrown := r2.thrown } fun p =>
  let sp := p.secondaryPool
  Outcome.ok { p with secondaryPool :=
    { sp with
      snapshots := sp.snapshots.set account
        { deposit := prevSnapshot.deposit,
          accSharesPerDeposit := sp.accSharesPerDeposit,
          accRoyaltiesPerDeposit := sp.accRoyaltiesPerDeposit } } }

end SecondaryPool

namespace CurationPool

/-- The sum `_.sumBy(initialDeposits, 1)`. -/
def sumBy1 (initialDeposits : List (Account × JSNum)) : JSNum :=
  initialDeposits.foldl (fun acc e => acc + e.2) (JSNum.fin 0)

/-- The constructor of `CurationPool`; `valuationMultiple` defaults to `1` in
the source and is passed explicitly here. -/
def new (address : Account) (initialShareBalances initialDeposits : List (Account × JSNum))
    (chain : Chain) (reserveToken : Token) (issuanceRate valuationMultiple : JSNum) :
    Except Err CurationPool :=
  if !(JSNum.strictEq (sumBy1 initialDeposits) (reserveToken.balanceOf address)) then
    Except.error Err.depositsMismatch
  else
    Except.ok
      { snapshots := JSMap.empty,
        issuanceRate := issuanceRate,
        shareToken := Token.new initialShareBalances,
        deposits := JSMap.ofEntries initialDeposits,
        chain := chain,
        address := address,
        reserveToken := reserveToken,
        accRoyaltiesPerShare := JSNum.fin 0,
        secondaryPool :=
          SecondaryPool.new (Account.str "secondaryPool") (reserveToken.balanceOf address),
        lastMintedBlock := chain.blockHeight,
        valuationMultiple := valuationMultiple }

/-- The method `mintShares()`. -/
def mintShares (p : CurationPool) : Outcome CurationPool :=
  let sharesToMint :=
    p.shareToken.totalSupply *
      JSNum.pow (JSNum.fin 1 + p.issuanceRate) (p.chain.blockHeight - p.lastMintedBlock)
    - p.shareToken.totalSupply
  let p := { p with shareToken := p.shareToken.mint p.secondaryPool.address sharesToMint }
  Outcome.andThen (SecondaryPool._distributeShares p sharesToMint) fun p =>
  Outcome.ok { p with lastMintedBlock := p.chain.blockHeight }

/-- The method `claim(account)`. -/
def claim (p : CurationPool) (account : Account) : Outcome CurationPool :=
  Outcome.andThen (mintShares p) fun p =>
  SecondaryPool._claim p account

/-- The method `deposit(from, amount)`. -/
def deposit (p : CurationPool) (from_ : Account) (amount : JSNum) : Outcome CurationPool :=
  if JSNum.lt (p.reserveToken.balanceOf from_) amount then
    Outcome.throw p Err.depositInsufficientFunds
  else
    Outcome.andThen (claim p from_) fun p =>
    let r := Token.transfer p.reserveToken from_ p.address amount
    Outcome.andThen { state := { p with reserveToken := r.state }, thrown := r.thrown } fun p =>
    let p := { p with deposits := p.deposits.set from_ (p.depositOf from_ + amount) }
    Outcome.ok (SecondaryPool._updateDeposit p from_ (p.depositOf from_))

/-- The method `withdraw(to, amount)`. -/
def withdraw (p : CurationPool) (to_ : Account) (amount : JSNum) : Outcome CurationPool :=
  if JSNum.lt (p.depositOf to_) amount then
    Outcome.throw p Err.withdrawExceedsDeposit
  else
    let p := { p with deposits := p.deposits.set to_ (p.depositOf to_ - amount) }
    let r := Token.transfer p.reserveToken p.address to_ amount
    Outcome.andThen { state := { p with reserveToken := r.state }, thrown := r.thrown } fun p =>
    Outcome.andThen (claim p to_) fun p =>
    Outcome.ok (SecondaryPool._updateDeposit p to_ (p.depositOf to_))

/-- The method `buyShares(account, shares)`. -/
def buyShares (p : CurationPool) (account : Account) (shares : JSNum) : Outcome CurationPool :=
  let totalSelfAssessedValue := p.reserveToken.balanceOf p.address * p.valuationMultiple
  let dilutionPercentage := shares / (shares + p.totalShares)
  let purchaseCost := totalSelfAssessedValue * dilutionPercentage
  let r := Token.transfer p.reserveToken account p.secondaryPool.address purchaseCost
  Outcome.andThen { state := { p with reserveToken := r.state }, thrown := r.thrown } fun p =>
  let p := SecondaryPool._distributeRoyalties p purchaseCost
  Outcome.ok { p with shareToken := p.shareToken.mint account shares }

end CurationPool

/-! ## Driver (`simulate3` and `scenario_1_config` of `modules/ohq_sim_1.js`) -/

/-- An entry of `actions`: its `type` names the method, `args` are the
arguments.  `SLEEP` targets the chain, the others the curation pool. -/
inductive Action where
  | sleep (blocks : ℤ)
  | deposit (account : Account) (amount : JSNum)
  | withdraw (account : Account) (amount : JSNum)
  | claim (account : Account)
  | buyShares (account : Account) (shares : JSNum)

namespace CurationPool

/-- The call `chain.sleep(blocks)` seen from the pool, which holds the chain by
reference. -/
def sleep (p : CurationPool) (blocks : ℤ) : CurationPool :=
  { p with chain := p.chain.sleep blocks }

/-- The dispatch `state[action.target][method](...action.args)`. -/
def perform (p : CurationPool) : Action → Outcome CurationPool
  | Action.sleep blocks => Outcome.ok (p.sleep blocks)
  | Action.deposit account amount => p.deposit account amount
  | Action.withdraw account amount => p.withdraw account amount
  | Action.claim account => p.claim account
  | Action.buyShares account shares => p.buyShares account shares

end CurationPool

/-- The loop of `simulate3`: an action that throws is caught and logged, and
the next action runs on the state as the failed one left it.  The result is
the state after the last action. -/
def simulate3 (actions : List Action) (state : CurationPool) : CurationPool :=
  actions.foldl (fun p a => (p.perform a).state) state

/-- The reserve ledger `initialReserveTokenBalances` of `scenario_1_config`. -/
def scenario_1_reserveToken : Token :=
  Token.new
    [(Account.str "0x0", JSNum.fin 0),
     (Account.str "queryMarket", JSNum.fin 10000),
     (Account.str "curator1", JSNum.fin 0),
     (Account.str "curator2", JSNum.fin 1000),
     (Account.str "curationPool", JSNum.fin 500)]

/-- The pool that `ohq_sim_1.js` constructs from `scenario_1_config`, with
`issuanceRate: 0.0001` and a chain at block height 0. -/
def scenario_1 : Except Err CurationPool :=
  CurationPool.new (Account.str "curationPool")
    [(Account.str "curator1", JSNum.fin 1000), (Account.str "curator2", JSNum.fin 0)]
    [(Account.str "curator1", JSNum.fin 500), (Account.str "curator2", JSNum.fin 0)]
    { blockHeight := 0 } scenario_1_reserveToken (JSNum.ofRat (1 / 10000)) (JSNum.fin 1)

/-- The state that `scenario_1` returns, field by field. -/
def scenario_1_pool : CurationPool :=
  { snapshots := JSMap.empty,
    issuanceRate := JSNum.ofRat (1 / 10000),
    shareToken :=
      { balances :=
          [(Account.str "curator1", JSNum.fin 1000), (Account.str "curator2", JSNum.fin 0)],
        totalSupply := JSNum.fin 1000 },
    deposits := [(Account.str "curator1", JSNum.fin 500), (Account.str "curator2", JSNum.fin 0)],
    chain := { blockHeight := 0 },
    address := Account.str "curationPool",
    reserveToken :=
      { balances :=
          [(Account.str "0x0", JSNum.fin 0),
           (Account.str "queryMarket", JSNum.fin 10000),
           (Account.str "curator1", JSNum.fin 0),
           (Account.str "curator2", JSNum.fin 1000),
           (Account.str "curationPool", JSNum.fin 500)],
        totalSupply := JSNum.fin 11500 },
    accRoyaltiesPerShare := JSNum.fin 0,
    secondaryPool :=
      { snapshots := JSMap.empty,
        accSharesPerDeposit := JSNum.fin 0,
        accShares := JSNum.fin 0,
        accRoyaltiesPerDeposit := JSNum.fin 0,
        address := Account.str "secondaryPool",
        totalDeposits := JSNum.fin 500 },
    lastMintedBlock := 0,
    valuationMultiple := JSNum.fin 1 }

/-- A pool without depositors: `curator1` holds 1000 shares and 1000 reserve,
the pool's reserve balance is 0 and `initialDeposits` is empty. -/
def emptyPool : Except Err CurationPool :=
  CurationPool.new (Account.str "curationPool")
    [(Account.str "curator1", JSNum.fin 1000)]
    []
    { blockHeight := 0 }
    (Token.new [(Account.str "curator1", JSNum.fin 1000), (Account.str "curationPool", JSNum.fin 0)])
    (JSNum.ofRat (1 / 10000)) (JSNum.fin 1)

/-- The state that `emptyPool` returns, field by field. -/
def emptyPool_pool : CurationPool :=
  { snapshots := JSMap.empty,
    issuanceRate := JSNum.ofRat (1 / 10000),
    shareToken :=
      { balances := [(Account.str "curator1", JSNum.fin 1000)],
        totalSupply := JSNum.fin 1000 },
    deposits := JSMap.empty,
    chain := { blockHeight := 0 },
    address := Account.str "curationPool",
    reserveToken :=
      { balances :=
          [(Account.str "curator1", JSNum.fin 1000), (Account.str "curationPool", JSNum.fin 0)],
        totalSupply := JSNum.fin 1000 },
    accRoyaltiesPerShare := JSNum.fin 0,
    secondaryPool :=
      { snapshots := JSMap.empty,
        accSharesPerDeposit := JSNum.fin 0,
        accShares := JSNum.fin 0,
        accRoyaltiesPerDeposit := JSNum.fin 0,
        address := Account.str "secondaryPool",
        totalDeposits := JSNum.fin 0 },
    lastMintedBlock := 0,
    valuationMultiple := JSNum.fin 1 }

/-- A pool in which no share has been issued: the deposits and the reserve
ledger of scenario 1 with an empty `initialShareBalances`. -/
def sharelessPool : Except Err CurationPool :=
  CurationPool.new (Account.str "curationPool")
    []
    [(Account.str "curator1", JSNum.fin 500), (Account.str "curator2", JSNum.fin 0)]
    { blockHeight := 0 } scenario_1_reserveToken (JSNum.ofRat (1 / 10000)) (JSNum.fin 1)

/-- The state that `sharelessPool` returns, field by field. -/
def sharelessPool_pool : CurationPool :=
  { snapshots := JSMap.empty,
    issuanceRate := JSNum.ofRat (1 / 10000),
    shareToken := { balances := JSMap.empty, totalSupply := JSNum.fin 0 },
    deposits := [(Account.str "curator1", JSNum.fin 500), (Account.str "curator2", JSNum.fin 0)],
    chain := { blockHeight := 0 },
    address := Account.str "curationPool",
    reserveToken :=
      { balances :=
          [(Account.str "0x0", JSNum.fin 0),
           (Account.str "queryMarket", JSNum.fin 10000),
           (Account.str "curator1", JSNum.fin 0),
           (Account.str "curator2", JSNum.fin 1000),
           (Account.str "curationPool", JSNum.fin 500)],
        totalSupply := JSNum.fin 11500 },
    accRoyaltiesPerShare := JSNum.fin 0,
    secondaryPool :=
      { snapshots := JSMap.empty,
        accSharesPerDeposit := JSNum.fin 0,
        accShares := JSNum.fin 0,
        accRoyaltiesPerDeposit := JSNum.fin 0,
        address := Account.str "secondaryPool",
        totalDeposits := JSNum.fin 500 },
    lastMintedBlock := 0,
    valuationMultiple := JSNum.fin 1 }

/-! ## Observations on the deposit map -/

/-- The sum over the accounts of the deposit map of `depositOf(account)`. -/
def CurationPool.sumDeposits (p : CurationPool) : JSNum :=
  (p.deposits.entries.map (fun e => p.depositOf e.1)).foldl (fun acc value => acc + value)
    (JSNum.fin 0)

/-- A pool whose `initialDeposits` lists `curator1` twice, with 5 and with 10;
the pool's reserve balance is 15. -/
def duplicatePool : Except Err CurationPool :=
  CurationPool.new (Account.str "curationPool")
    [(Account.str "curator1", JSNum.fin 1000)]
    [(Account.str "curator1", JSNum.fin 5), (Account.str "curator1", JSNum.fin 10)]
    { blockHeight := 0 }
    (Token.new [(Account.str "curationPool", JSNum.fin 15)])
    (JSNum.ofRat (1 / 10000)) (JSNum.fin 1)

/-- The state that `duplicatePool` returns, field by field. -/
def duplicatePool_pool : CurationPool :=
  { snapshots := JSMap.empty,
    issuanceRate := JSNum.ofRat (1 / 10000),
    shareToken :=
      { balances := [(Account.str "curator1", JSNum.fin 1000)],
        totalSupply := JSNum.fin 1000 },
    deposits := [(Account.str "curator1", JSNum.fin 10)],
    chain := { blockHeight := 0 },
    address := Account.str "curationPool",
    reserveToken :=
      { balances := [(Account.str "curationPool", JSNum.fin 15)],
        totalSupply := JSNum.fin 15 },
    accRoyaltiesPerShare := JSNum.fin 0,
    secondaryPool :=
      { snapshots := JSMap.empty,
        accSharesPerDeposit := JSNum.fin 0,
        accShares := JSNum.fin 0,
        accRoyaltiesPerDeposit := JSNum.fin 0,
        address := Account.str "secondaryPool",
        totalDeposits := JSNum.fin 15 },
    lastMintedBlock := 0,
    valuationMultiple := JSNum.fin 1 }

/-! ## States whose numbers are doubles -/

/-- True when every balance of the ledger and its supply is a number that a
JavaScript program can hold: a double, an infinity or NaN. -/
def Token.isNumeric (t : Token) : Bool :=
  (JSMap.values t.balances).all JSNum.isNumber && JSNum.isNumber t.totalSupply

/-- True when every number of the pool's state is one that a JavaScript
program can hold.  The states that the source can reach are of this kind. -/
def CurationPool.isNumeric (p : CurationPool) : Bool :=
  p.reserveToken.isNumeric && p.shareToken.isNumeric
    && (JSMap.values p.deposits).all JSNum.isNumber
    && JSNum.isNumber p.issuanceRate && JSNum.isNumber p.valuationMultiple
    && JSNum.isNumber p.accRoyaltiesPerShare
    && JSNum.isNumber p.secondaryPool.accSharesPerDeposit
    && JSNum.isNumber p.secondaryPool.accShares
    && JSNum.isNumber p.secondaryPool.accRoyaltiesPerDeposit
    && JSNum.isNumber p.secondaryPool.totalDeposits
    && (JSMap.values p.secondaryPool.snapshots).all (fun s =>
        JSNum.isNumber s.deposit && JSNum.isNumber s.accSharesPerDeposit
          && JSNum.isNumber s.accRoyaltiesPerDeposit)

/-! ## Further pools -/

/-- Scenario 1 with `issuanceRate: 1`: the share supply doubles every block. -/
def doublingPool : Except Err CurationPool :=
  CurationPool.new (Account.str "curationPool")
    [(Account.str "curator1", JSNum.fin 1000), (Account.str "curator2", JSNum.fin 0)]
    [(Account.str "curator1", JSNum.fin 500), (Account.str "curator2", JSNum.fin 0)]
    { blockHeight := 0 } scenario_1_reserveToken (JSNum.fin 1) (JSNum.fin 1)

/-- The state that `doublingPool` returns. -/
def doublingPool_pool : CurationPool :=
  { scenario_1_pool with issuanceRate := JSNum.fin 1 }

/-- Scenario 1 with `issuanceRate: 0.5` and the initial share balances
`[[curator1, 0.7]]`. -/
def fractionalPool : Except Err CurationPool :=
  CurationPool.new (Account.str "curationPool")
    [(Account.str "curator1", JSNum.ofRat 0.7)]
    [(Account.str "curator1", JSNum.fin 500), (Account.str "curator2", JSNum.fin 0)]
    { blockHeight := 0 } scenario_1_reserveToken (JSNum.fin (1 / 2)) (JSNum.fin 1)

/-- The state that `fractionalPool` returns. -/
def fractionalPool_pool : CurationPool :=
  { scenario_1_pool with
    issuanceRate := JSNum.fin (1 / 2),
    shareToken :=
      { balances := [(Account.str "curator1", JSNum.ofRat 0.7)],
        totalSupply := JSNum.ofRat 0.7 } }

/-- A pool with one genesis depositor: `curator1` holds `1000.1` shares, 1000
reserve and a deposit of 7, the pool's reserve balance is 7, and
`issuanceRate` is 1. -/
def genesisPool : Except Err CurationPool :=
  CurationPool.new (Account.str "curationPool")
    [(Account.str "curator1", JSNum.ofRat 1000.1)]
    [(Account.str "curator1", JSNum.fin 7)]
    { blockHeight := 0 }
    (Token.new [(Account.str "curator1", JSNum.fin 1000), (Account.str "curationPool", JSNum.fin 7)])
    (JSNum.fin 1) (JSNum.fin 1)

/-- The state that `genesisPool` returns. -/
def genesisPool_pool : CurationPool :=
  { scenario_1_pool with
    issuanceRate := JSNum.fin 1,
    shareToken :=
      { balances := [(Account.str "curator1", JSNum.ofRat 1000.1)],
        totalSupply := JSNum.ofRat 1000.1 },
    deposits := [(Account.str "curator1", JSNum.fin 7)],
    reserveToken :=
      { balances :=
          [(Account.str "curator1", JSNum.fin 1000), (Account.str "curationPool", JSNum.fin 7)],
        totalSupply := JSNum.fin 1007 },
    secondaryPool := SecondaryPool.new (Account.str "secondaryPool") (JSNum.fin 7) }

/-- A pool in which `curator1` has a deposit of `0.3` and a reserve balance of
`0.1`; the pool's reserve balance is `0.3`. -/
def decimalPool : Except Err CurationPool :=
  CurationPool.new (Account.str "curationPool")
    [(Account.str "curator1", JSNum.fin 1000)]
    [(Account.str "curator1", JSNum.ofRat 0.3)]
    { blockHeight := 0 }
    (Token.new [(Account.str "curator1", JSNum.ofRat 0.1),
      (Account.str "curationPool", JSNum.ofRat 0.3)])
    (JSNum.ofRat (1 / 10000)) (JSNum.fin 1)

/-- The state that `decimalPool` returns. -/
def decimalPool_pool : CurationPool :=
  { scenario_1_pool with
    shareToken :=
      { balances := [(Account.str "curator1", JSNum.fin 1000)],
        totalSupply := JSNum.fin 1000 },
    deposits := [(Account.str "curator1", JSNum.ofRat 0.3)],
    reserveToken :=
      { balances :=
          [(Account.str "curator1", JSNum.ofRat 0.1),
           (Account.str "curationPool", JSNum.ofRat 0.3)],
        totalSupply := JSNum.ofRat 0.4 },
    secondaryPool := SecondaryPool.new (Account.str "secondaryPool") (JSNum.ofRat 0.3) }

/-- A pool whose deposits are `2 ^ 53` by `curator1` and 1 by `curator2`,
against a pool reserve balance of `2 ^ 53`. -/
def largePool : Except Err CurationPool :=
  CurationPool.new (Account.str "curationPool")
    [(Account.str "curator1", JSNum.fin 1000)]
    [(Account.str "curator1", JSNum.fin 9007199254740992), (Account.str "curator2", JSNum.fin 1)]
    { blockHeight := 0 }
    (Token.new [(Account.str "curationPool", JSNum.fin 9007199254740992)])
    (JSNum.ofRat (1 / 10000)) (JSNum.fin 1)

/-- The state that `largePool` returns. -/
def largePool_pool : CurationPool :=
  { scenario_1_pool with
    shareToken :=
      { balances := [(Account.str "curator1", JSNum.fin 1000)],
        totalSupply := JSNum.fin 1000 },
    deposits :=
      [(Account.str "curator1", JSNum.fin 9007199254740992), (Account.str "curator2", JSNum.fin 1)],
    reserveToken :=
      { balances := [(Account.str "curationPool", JSNum.fin 9007199254740992)],
        totalSupply := JSNum.fin 9007199254740992 },
    secondaryPool :=
      SecondaryPool.new (Account.str "secondaryPool") (JSNum.fin 9007199254740992) }

/-! ## Depositors' runs -/

namespace JSNum

/-- The comparison `x >= y`: false as soon as one side is NaN. -/
def ge (x y : JSNum) : Bool := lt y x || strictEq x y

/-- True for a finite number that is not negative. -/
def isNonneg : JSNum → Bool
  | fin a => decide (0 ≤ a)
  | _ => false

end JSNum

namespace SecondaryPool

/-- The shares pending for an account: the amount that `_claim(account)` asks
the share ledger to transfer,
`(accSharesPerDeposit - snapshot.accSharesPerDeposit) * snapshot.deposit`. -/
def pendingShares (p : CurationPool) (account : Account) : JSNum :=
  (p.secondaryPool.accSharesPerDeposit - (snapshotOf p account).accSharesPerDeposit)
    * (snapshotOf p account).deposit

end SecondaryPool

namespace CurationPool

/-- An action of a depositor: a non-negative clock advance, or a `deposit`,
`withdraw` or `claim` with a finite non-negative amount by an account other
than the two pool addresses, made while `totalDeposits > 0`. -/
def depositorAction (p : CurationPool) : Action → Bool
  | Action.sleep blocks => decide (0 ≤ blocks)
  | Action.deposit account amount =>
      JSNum.isNonneg amount && JSNum.gt p.secondaryPool.totalDeposits (JSNum.fin 0)
        && decide (account ≠ p.address) && decide (account ≠ p.secondaryPool.address)
  | Action.withdraw account amount =>
      JSNum.isNonneg amount && JSNum.gt p.secondaryPool.totalDeposits (JSNum.fin 0)
        && decide (account ≠ p.address) && decide (account ≠ p.secondaryPool.address)
  | Action.claim account =>
      JSNum.gt p.secondaryPool.totalDeposits (JSNum.fin 0)
        && decide (account ≠ p.address) && decide (account ≠ p.secondaryPool.address)
  | Action.buyShares _ _ => false

/-- Every action of the list is a depositor's action in the state it runs in. -/
def depositorRun (p : CurationPool) : List Action → Bool
  | [] => true
  | a :: rest => p.depositorAction a && depositorRun (p.perform a).state rest

end CurationPool

/-! ## Results without rounding -/

/-- True when adding the amounts to `acc` one by one, from left to right,
gives a double at every step, so that no addition rounds. -/
def CurationPool.sumsExactly : ℚ → List ℚ → Bool
  | _, [] => true
  | acc, x :: rest => JSNum.isDouble (acc + x) && sumsExactly (acc + x) rest


/-- True when every number of the list is a double: the exact results listed
are the results in doubles, so that none of the operations rounds. -/
def JSNum.allDoubles (l : List ℚ) : Bool := l.all JSNum.isDouble

/-! ## Well-formed states and admissible steps -/

namespace JSNum

/-- True for a finite double. -/
def isFinite : JSNum → Bool
  | fin q => isDouble q
  | _ => false

/-- True unless the number is negative: a finite number `>= 0`, `Infinity` or
NaN. -/
def notNegative : JSNum → Bool
  | fin a => decide (0 ≤ a)
  | negInf => false
  | _ => true

end JSNum

/-- Every balance of the ledger reads as a number that is not negative. -/
def Token.NotNegative (t : Token) : Prop :=
  ∀ c, JSNum.notNegative (t.balanceOf c) = true

namespace CurationPool

/-- The three accumulators of a state: `accRoyaltiesPerShare`,
`accSharesPerDeposit`, `accRoyaltiesPerDeposit`. -/
def accumulators (p : CurationPool) : JSNum × JSNum × JSNum :=
  (p.accRoyaltiesPerShare, p.secondaryPool.accSharesPerDeposit,
    p.secondaryPool.accRoyaltiesPerDeposit)

/-- Each of the three accumulators of `q` is `>=` its value in `p`. -/
def accumulatorsGe (q p : CurationPool) : Bool :=
  JSNum.ge q.accRoyaltiesPerShare p.accRoyaltiesPerShare
    && JSNum.ge q.secondaryPool.accSharesPerDeposit p.secondaryPool.accSharesPerDeposit
    && JSNum.ge q.secondaryPool.accRoyaltiesPerDeposit p.secondaryPool.accRoyaltiesPerDeposit

/-- A state of the data model: the issuance rate and the valuation multiple are
finite and not negative, the share supply, the reserve balances and the
deposits are not negative, the clock is not behind the last issuance, the two
royalty accumulators are finite, and a stored snapshot has a deposit that is
not negative and a royalty baseline that does not exceed the accumulator. -/
structure WellFormed (p : CurationPool) : Prop where
  rate : JSNum.isNonneg p.issuanceRate = true
  multiple : JSNum.isNonneg p.valuationMultiple = true
  supply : JSNum.notNegative p.shareToken.totalSupply = true
  supplyNumber : JSNum.isNumber p.shareToken.totalSupply = true
  blocks : p.lastMintedBlock ≤ p.chain.blockHeight
  perShare : JSNum.isFinite p.accRoyaltiesPerShare = true
  accRoyalties : JSNum.isFinite p.secondaryPool.accRoyaltiesPerDeposit = true
  accRoyaltiesSign : JSNum.isNonneg p.secondaryPool.accRoyaltiesPerDeposit = true
  reserve : p.reserveToken.NotNegative
  deposited : ∀ c, JSNum.notNegative (p.depositOf c) = true
  stored : ∀ c s, p.secondaryPool.snapshots.get c = some s →
    JSNum.notNegative s.deposit = true
      ∧ JSNum.ge p.secondaryPool.accRoyaltiesPerDeposit s.accRoyaltiesPerDeposit = true

/-- True for an argument list that is finite and not negative, on a call made
while `totalDeposits > 0`; a clock advance is not negative. -/
def nonnegCall (p : CurationPool) : Action → Bool
  | Action.sleep blocks => decide (0 ≤ blocks)
  | Action.deposit _ amount =>
      JSNum.isNonneg amount && JSNum.gt p.secondaryPool.totalDeposits (JSNum.fin 0)
  | Action.withdraw _ amount =>
      JSNum.isNonneg amount && JSNum.gt p.secondaryPool.totalDeposits (JSNum.fin 0)
  | Action.claim _ => JSNum.gt p.secondaryPool.totalDeposits (JSNum.fin 0)
  | Action.buyShares _ shares =>
      JSNum.isNonneg shares && JSNum.gt p.secondaryPool.totalDeposits (JSNum.fin 0)

/-- An admissible step: the action has finite arguments that are not negative
and, if it is a call on the pool, runs while `totalDeposits > 0`; and the two
secondary accumulators are finite after it. -/
def admissible (p : CurationPool) (a : Action) : Bool :=
  p.nonnegCall a
    && JSNum.isFinite (p.perform a).state.secondaryPool.accSharesPerDeposit
    && JSNum.isFinite (p.perform a).state.secondaryPool.accRoyaltiesPerDeposit

/-- Every action of the list is admissible in the state it runs in. -/
def admissibleRun (p : CurationPool) : List Action → Bool
  | [] => true
  | a :: rest => p.admissible a && admissibleRun (p.perform a).state rest

end CurationPool

/-! ## Lemmas: rounding -/

open JSNum

namespace JSNum

/-! ### The binary exponent -/

theorem log2Aux_spec : ∀ (fuel n : ℕ), n ≤ fuel → 0 < n →
    2 ^ log2Aux fuel n ≤ n ∧ n < 2 ^ (log2Aux fuel n + 1)
  | 0, n, h, hn => by omega
  | fuel + 1, n, h, hn => by
    unfold log2Aux
    split
    · rename_i h2
      have ih := log2Aux_spec fuel (n / 2) (by omega) (by omega)
      rw [pow_succ, pow_succ, pow_succ]
      constructor <;> omega
    · have : n = 1 := by omega
      subst this
      simp

theorem log2_spec (n : ℕ) (hn : 0 < n) : 2 ^ log2 n ≤ n ∧ n < 2 ^ (log2 n + 1) :=
  log2Aux_spec n n (le_refl n) hn

theorem two_zpow_pos (e : ℤ) : (0 : ℚ) < 2 ^ e := zpow_pos (by norm_num) e

theorem abs_eq_natAbs_div (q : ℚ) : |q| = (q.num.natAbs : ℚ) / (q.den : ℚ) := by
  have h := Rat.num_div_den q
  have hd : (0 : ℚ) < q.den := by exact_mod_cast q.den_pos
  conv_lhs => rw [← h]
  rw [abs_div, abs_of_pos hd, Nat.cast_natAbs, Int.cast_abs]

theorem binade_spec (q : ℚ) (hq : q ≠ 0) :
    (2 : ℚ) ^ binade q ≤ |q| ∧ |q| < 2 ^ (binade q + 1) := by
  have hnum : 0 < q.num.natAbs := Int.natAbs_pos.mpr (Rat.num_ne_zero.mpr hq)
  obtain ⟨ha₁, ha₂⟩ := log2_spec q.num.natAbs hnum
  obtain ⟨hb₁, hb₂⟩ := log2_spec q.den q.den_pos
  have hd : (0 : ℚ) < q.den := by exact_mod_cast q.den_pos
  have ha₁q : (2 : ℚ) ^ (log2 q.num.natAbs) ≤ (q.num.natAbs : ℚ) := by exact_mod_cast ha₁
  have ha₂q : (q.num.natAbs : ℚ) < 2 ^ (log2 q.num.natAbs + 1) := by exact_mod_cast ha₂
  have hb₁q : (2 : ℚ) ^ (log2 q.den) ≤ (q.den : ℚ) := by exact_mod_cast hb₁
  have hb₂q : (q.den : ℚ) < 2 ^ (log2 q.den + 1) := by exact_mod_cast hb₂
  have h2 : (2 : ℚ) ≠ 0 := by norm_num
  -- the quotient lies strictly between 2 ^ (a - b - 1) and 2 ^ (a - b + 1)
  have hup : |q| < 2 ^ ((log2 q.num.natAbs : ℤ) - (log2 q.den : ℤ) + 1) := by
    rw [abs_eq_natAbs_div, div_lt_iff₀ hd]
    have e : (2 : ℚ) ^ ((log2 q.num.natAbs : ℤ) - (log2 q.den : ℤ) + 1)
        = 2 ^ (log2 q.num.natAbs + 1) / 2 ^ (log2 q.den) := by
      rw [show ((log2 q.num.natAbs : ℤ) - (log2 q.den : ℤ) + 1)
        = ((log2 q.num.natAbs + 1 : ℕ) : ℤ) - ((log2 q.den : ℕ) : ℤ) by push_cast; ring,
        zpow_sub₀ h2, zpow_natCast, zpow_natCast]
    rw [e, div_mul_eq_mul_div, lt_div_iff₀ (by positivity)]
    calc (q.num.natAbs : ℚ) * 2 ^ log2 q.den
        ≤ (q.num.natAbs : ℚ) * q.den := by
          apply mul_le_mul_of_nonneg_left hb₁q (by positivity)
      _ < 2 ^ (log2 q.num.natAbs + 1) * q.den := by
          apply mul_lt_mul_of_pos_right ha₂q hd
  have hlo : (2 : ℚ) ^ ((log2 q.num.natAbs : ℤ) - (log2 q.den : ℤ) - 1) ≤ |q| := by
    rw [abs_eq_natAbs_div, le_div_iff₀ hd]
    have e : (2 : ℚ) ^ ((log2 q.num.natAbs : ℤ) - (log2 q.den : ℤ) - 1)
        = 2 ^ (log2 q.num.natAbs) / 2 ^ (log2 q.den + 1) := by
      rw [show ((log2 q.num.natAbs : ℤ) - (log2 q.den : ℤ) - 1)
        = ((log2 q.num.natAbs : ℕ) : ℤ) - ((log2 q.den + 1 : ℕ) : ℤ) by push_cast; ring,
        zpow_sub₀ h2, zpow_natCast, zpow_natCast]
    rw [e, div_mul_eq_mul_div, div_le_iff₀ (by positivity)]
    calc (2 : ℚ) ^ log2 q.num.natAbs * q.den
        ≤ (q.num.natAbs : ℚ) * q.den := by
          apply mul_le_mul_of_nonneg_right ha₁q (le_of_lt hd)
      _ ≤ (q.num.natAbs : ℚ) * 2 ^ (log2 q.den + 1) := by
          apply mul_le_mul_of_nonneg_left (le_of_lt hb₂q) (by positivity)
  unfold binade
  split
  · rename_i h
    exact ⟨h, hup⟩
  · rename_i h
    refine ⟨hlo, ?_⟩
    rw [sub_add_cancel]
    exact lt_of_not_le h

theorem binade_unique (q : ℚ) (e : ℤ) (h₁ : (2 : ℚ) ^ e ≤ |q|) (h₂ : |q| < 2 ^ (e + 1)) :
    binade q = e := by
  have hq : q ≠ 0 := by
    intro h
    rw [h, abs_zero] at h₁
    exact absurd h₁ (not_le.mpr (two_zpow_pos e))
  obtain ⟨s₁, s₂⟩ := binade_spec q hq
  have a : binade q < e + 1 :=
    (zpow_lt_zpow_iff_right₀ (by norm_num : (1 : ℚ) < 2)).mp (lt_of_le_of_lt s₁ h₂)
  have b : e < binade q + 1 :=
    (zpow_lt_zpow_iff_right₀ (by norm_num : (1 : ℚ) < 2)).mp (lt_of_le_of_lt h₁ s₂)
  omega

theorem binade_mono (q₁ q₂ : ℚ) (h₁ : q₁ ≠ 0) (h : |q₁| ≤ |q₂|) : binade q₁ ≤ binade q₂ := by
  have h₂ : q₂ ≠ 0 := by
    intro h0
    rw [h0, abs_zero] at h
    exact h₁ (abs_eq_zero.mp (le_antisymm h (abs_nonneg _)))
  obtain ⟨s₁, _⟩ := binade_spec q₁ h₁
  obtain ⟨_, t₂⟩ := binade_spec q₂ h₂
  have a : binade q₁ < binade q₂ + 1 :=
    (zpow_lt_zpow_iff_right₀ (by norm_num : (1 : ℚ) < 2)).mp
      (lt_of_le_of_lt s₁ (lt_of_le_of_lt h t₂))
  omega

/-! ### Rounding to an integer -/

theorem roundHalfEven_intCast (k : ℤ) : roundHalfEven (k : ℚ) = k := by
  unfold roundHalfEven
  simp [Int.floor_intCast]

theorem floor_le_roundHalfEven (m : ℚ) : ⌊m⌋ ≤ roundHalfEven m := by
  unfold roundHalfEven
  split_ifs <;> omega

theorem roundHalfEven_le_floor_add_one (m : ℚ) : roundHalfEven m ≤ ⌊m⌋ + 1 := by
  unfold roundHalfEven
  split_ifs <;> omega

theorem roundHalfEven_mono {m₁ m₂ : ℚ} (h : m₁ ≤ m₂) : roundHalfEven m₁ ≤ roundHalfEven m₂ := by
  have hf : ⌊m₁⌋ ≤ ⌊m₂⌋ := Int.floor_mono h
  rcases lt_or_eq_of_le hf with hlt | heq
  · calc roundHalfEven m₁ ≤ ⌊m₁⌋ + 1 := roundHalfEven_le_floor_add_one m₁
      _ ≤ ⌊m₂⌋ := hlt
      _ ≤ roundHalfEven m₂ := floor_le_roundHalfEven m₂
  · unfold roundHalfEven
    rw [heq]
    split_ifs <;> first | omega | linarith

theorem roundHalfEven_neg (m : ℚ) : roundHalfEven (-m) = -roundHalfEven m := by
  have f₁ := Int.floor_le m
  have f₂ := Int.lt_floor_add_one m
  have g₁ := Int.floor_le (-m)
  have g₂ := Int.lt_floor_add_one (-m)
  have hlo : -⌊m⌋ - 1 ≤ ⌊-m⌋ := by
    have : ((-⌊m⌋ - 2 : ℤ) : ℚ) < ((⌊-m⌋ : ℤ) : ℚ) := by push_cast; linarith
    have := Int.cast_lt.mp this
    omega
  have hhi : ⌊-m⌋ ≤ -⌊m⌋ := by
    have : ((⌊-m⌋ : ℤ) : ℚ) ≤ ((-⌊m⌋ : ℤ) : ℚ) := by push_cast; linarith
    exact Int.cast_le.mp this
  rcases eq_or_lt_of_le hhi with e | e
  · -- `m` is an integer
    have hm : m = (⌊m⌋ : ℚ) := by
      have : ((⌊-m⌋ : ℤ) : ℚ) = -(⌊m⌋ : ℚ) := by rw [e]; push_cast; ring
      linarith
    rw [hm, ← Int.cast_neg, roundHalfEven_intCast, roundHalfEven_intCast]
  · have e' : ⌊-m⌋ = -⌊m⌋ - 1 := by omega
    have hc : ((⌊-m⌋ : ℤ) : ℚ) = -(⌊m⌋ : ℚ) - 1 := by rw [e']; push_cast; ring
    unfold roundHalfEven
    rw [hc, e']
    split_ifs <;> first | omega | linarith

/-! ### The grid around a number -/

theorem binade_neg (q : ℚ) : binade (-q) = binade q := by
  by_cases hq : q = 0
  · rw [hq, neg_zero]
  · obtain ⟨s₁, s₂⟩ := binade_spec q hq
    exact binade_unique (-q) (binade q) (by rwa [abs_neg]) (by rwa [abs_neg])

theorem ulpExp_neg (q : ℚ) : ulpExp (-q) = ulpExp q := by
  unfold ulpExp
  rw [binade_neg]

theorem nearest_neg (q : ℚ) : nearest (-q) = -nearest q := by
  unfold nearest
  rw [ulpExp_neg, neg_div, roundHalfEven_neg, Int.cast_neg, neg_mul]

theorem nearest_zero : nearest 0 = 0 := by
  unfold nearest
  rw [zero_div]
  have : roundHalfEven 0 = 0 := by exact_mod_cast roundHalfEven_intCast 0
  rw [this, Int.cast_zero, zero_mul]

/-- A point `k * 2 ^ ulpExp q` of the grid around `q` that is below `q` is
below the nearest point. -/
theorem grid_le_nearest (q : ℚ) (k : ℤ) (h : (k : ℚ) * 2 ^ ulpExp q ≤ q) :
    (k : ℚ) * 2 ^ ulpExp q ≤ nearest q := by
  unfold nearest
  have hu := two_zpow_pos (ulpExp q)
  have : (k : ℚ) ≤ q / 2 ^ ulpExp q := (le_div_iff₀ hu).mpr h
  have := roundHalfEven_mono this
  rw [roundHalfEven_intCast] at this
  have hc : (k : ℚ) ≤ (roundHalfEven (q / 2 ^ ulpExp q) : ℚ) := by exact_mod_cast this
  exact mul_le_mul_of_nonneg_right hc (le_of_lt hu)

/-- A point of the grid around `q` that is above `q` is above the nearest
point. -/
theorem nearest_le_grid (q : ℚ) (k : ℤ) (h : q ≤ (k : ℚ) * 2 ^ ulpExp q) :
    nearest q ≤ (k : ℚ) * 2 ^ ulpExp q := by
  unfold nearest
  have hu := two_zpow_pos (ulpExp q)
  have : q / 2 ^ ulpExp q ≤ (k : ℚ) := (div_le_iff₀ hu).mpr h
  have := roundHalfEven_mono this
  rw [roundHalfEven_intCast] at this
  have hc : (roundHalfEven (q / 2 ^ ulpExp q) : ℚ) ≤ (k : ℚ) := by exact_mod_cast this
  exact mul_le_mul_of_nonneg_right hc (le_of_lt hu)

/-- A power of two `2 ^ e` with `ulpExp q ≤ e` is a point of the grid around `q`. -/
theorem pow_eq_grid (q : ℚ) (e : ℤ) (h : ulpExp q ≤ e) :
    (2 : ℚ) ^ e = (((2 : ℤ) ^ (e - ulpExp q).toNat : ℤ) : ℚ) * 2 ^ ulpExp q := by
  have h2 : (2 : ℚ) ≠ 0 := by norm_num
  have : e = ((e - ulpExp q).toNat : ℤ) + ulpExp q := by
    rw [Int.toNat_of_nonneg (by omega)]
    ring
  conv_lhs => rw [this]
  rw [zpow_add₀ h2, zpow_natCast]
  push_cast
  ring

theorem nearest_nonneg (q : ℚ) (h : 0 ≤ q) : 0 ≤ nearest q := by
  have := grid_le_nearest q 0 (by simpa using h)
  simpa using this

theorem pow_le_nearest (q : ℚ) (hq : 0 < q) (hb : -1074 ≤ binade q) :
    (2 : ℚ) ^ binade q ≤ nearest q := by
  have hu : ulpExp q ≤ binade q := by unfold ulpExp; omega
  rw [pow_eq_grid q (binade q) hu]
  apply grid_le_nearest
  rw [← pow_eq_grid q (binade q) hu]
  have := (binade_spec q (ne_of_gt hq)).1
  rwa [abs_of_pos hq] at this

theorem nearest_le_pow (q : ℚ) (hq : 0 < q) :
    nearest q ≤ (2 : ℚ) ^ max (binade q + 1) (-1022) := by
  have hu : ulpExp q ≤ max (binade q + 1) (-1022) := by unfold ulpExp; omega
  rw [pow_eq_grid q _ hu]
  apply nearest_le_grid
  rw [← pow_eq_grid q _ hu]
  have := (binade_spec q (ne_of_gt hq)).2
  rw [abs_of_pos hq] at this
  exact le_trans (le_of_lt this)
    (zpow_le_zpow_right₀ (by norm_num) (le_max_left _ _))

theorem nearest_mono_pos (q₁ q₂ : ℚ) (h₁ : 0 < q₁) (h : q₁ ≤ q₂) : nearest q₁ ≤ nearest q₂ := by
  have h₂ : 0 < q₂ := lt_of_lt_of_le h₁ h
  have hb : binade q₁ ≤ binade q₂ :=
    binade_mono q₁ q₂ (ne_of_gt h₁) (by rwa [abs_of_pos h₁, abs_of_pos h₂])
  by_cases hu : ulpExp q₁ = ulpExp q₂
  · unfold nearest
    rw [hu]
    have hu' := two_zpow_pos (ulpExp q₂)
    have : q₁ / 2 ^ ulpExp q₂ ≤ q₂ / 2 ^ ulpExp q₂ := div_le_div_of_nonneg_right h (le_of_lt hu')
    have := roundHalfEven_mono this
    have hc : (roundHalfEven (q₁ / 2 ^ ulpExp q₂) : ℚ) ≤ (roundHalfEven (q₂ / 2 ^ ulpExp q₂) : ℚ) := by
      exact_mod_cast this
    exact mul_le_mul_of_nonneg_right hc (le_of_lt hu')
  · have hlt : max (binade q₁ + 1) (-1022) ≤ binade q₂ := by
      unfold ulpExp at hu
      omega
    calc nearest q₁ ≤ (2 : ℚ) ^ max (binade q₁ + 1) (-1022) := nearest_le_pow q₁ h₁
      _ ≤ 2 ^ binade q₂ := zpow_le_zpow_right₀ (by norm_num) hlt
      _ ≤ nearest q₂ := pow_le_nearest q₂ h₂ (by omega)

/-- Rounding is monotone. -/
theorem nearest_mono (q₁ q₂ : ℚ) (h : q₁ ≤ q₂) : nearest q₁ ≤ nearest q₂ := by
  rcases lt_trichotomy 0 q₁ with h₁ | h₁ | h₁
  · exact nearest_mono_pos q₁ q₂ h₁ h
  · rw [← h₁, nearest_zero]
    exact nearest_nonneg q₂ (by rw [h₁]; exact h)
  · rcases le_or_lt 0 q₂ with h₂ | h₂
    · have a := nearest_nonneg (-q₁) (by linarith)
      rw [nearest_neg] at a
      have b := nearest_nonneg q₂ h₂
      linarith
    · have := nearest_mono_pos (-q₂) (-q₁) (by linarith) (by linarith)
      rw [nearest_neg, nearest_neg] at this
      linarith

theorem nearest_of_grid (v : ℚ) (k : ℤ) (h : v = (k : ℚ) * 2 ^ ulpExp v) : nearest v = v := by
  have hu := two_zpow_pos (ulpExp v)
  unfold nearest
  have : v / 2 ^ ulpExp v = (k : ℚ) := by
    rw [div_eq_iff (ne_of_gt hu)]
    exact h
  rw [this, roundHalfEven_intCast]
  exact h.symm

theorem nearest_idem_pos (q : ℚ) (hq : 0 < q) : nearest (nearest q) = nearest q := by
  have h2 : (2 : ℚ) ≠ 0 := by norm_num
  have hv0 : 0 ≤ nearest q := nearest_nonneg q (le_of_lt hq)
  rcases eq_or_lt_of_le hv0 with hz | hpos
  · rw [← hz, nearest_zero]
  · have hup := nearest_le_pow q hq
    by_cases hn : -1022 ≤ binade q
    · -- normal range
      have hlo := pow_le_nearest q hq (by omega)
      rw [max_eq_left (by omega)] at hup
      rcases eq_or_lt_of_le hup with htop | hlt
      · -- the result is the next power of two
        have hb : binade (nearest q) = binade q + 1 := by
          apply binade_unique
          · rw [abs_of_pos hpos, htop]
          · rw [abs_of_pos hpos, htop]
            exact zpow_lt_zpow_right₀ (by norm_num) (by omega)
        have hu : ulpExp (nearest q) ≤ binade q + 1 := by unfold ulpExp; rw [hb]; omega
        apply nearest_of_grid _ ((2 : ℤ) ^ (binade q + 1 - ulpExp (nearest q)).toNat)
        rw [← pow_eq_grid _ _ hu]
        exact htop
      · have hb : binade (nearest q) = binade q := by
          apply binade_unique
          · rwa [abs_of_pos hpos]
          · rwa [abs_of_pos hpos]
        have hu : ulpExp (nearest q) = ulpExp q := by unfold ulpExp; rw [hb]
        apply nearest_of_grid _ (roundHalfEven (q / 2 ^ ulpExp q))
        rw [hu]
        rfl
    · -- subnormal range
      rw [max_eq_right (by omega)] at hup
      have hb : binade (nearest q) ≤ -1022 := by
        have s := (binade_spec (nearest q) (ne_of_gt hpos)).1
        rw [abs_of_pos hpos] at s
        exact (zpow_le_zpow_iff_right₀ (by norm_num : (1 : ℚ) < 2)).mp (le_trans s hup)
      have hu : ulpExp (nearest q) = ulpExp q := by unfold ulpExp; omega
      apply nearest_of_grid _ (roundHalfEven (q / 2 ^ ulpExp q))
      rw [hu]
      rfl

/-- Rounding a rounded value leaves it as it is. -/
theorem nearest_idem (q : ℚ) : nearest (nearest q) = nearest q := by
  rcases lt_trichotomy 0 q with h | h | h
  · exact nearest_idem_pos q h
  · rw [← h, nearest_zero, nearest_zero]
  · have := nearest_idem_pos (-q) (by linarith)
    rw [nearest_neg, nearest_neg] at this
    linarith

end JSNum

/-! ## Lemmas: numbers -/

namespace JSNum

theorem ofRat_cases (q : ℚ) :
    (ofRat q = posInf ∧ 2 ^ (1024 : ℤ) ≤ nearest q)
    ∨ (ofRat q = negInf ∧ nearest q ≤ -2 ^ (1024 : ℤ))
    ∨ (ofRat q = fin (nearest q) ∧ nearest q < 2 ^ (1024 : ℤ) ∧ -2 ^ (1024 : ℤ) < nearest q) := by
  unfold ofRat
  split
  · rename_i h
    exact Or.inl ⟨rfl, h⟩
  · rename_i h
    split
    · rename_i h'
      exact Or.inr (Or.inl ⟨rfl, h'⟩)
    · rename_i h'
      exact Or.inr (Or.inr ⟨rfl, lt_of_not_le h, lt_of_not_le h'⟩)

theorem ofRat_ne_nan (q : ℚ) : ofRat q ≠ nan := by
  rcases ofRat_cases q with h | h | h <;> rw [h.1] <;> simp

theorem ofRat_eq_fin {q r : ℚ} (h : ofRat q = fin r) :
    r = nearest q ∧ nearest q < 2 ^ (1024 : ℤ) ∧ -2 ^ (1024 : ℤ) < nearest q := by
  rcases ofRat_cases q with h' | h' | h'
  · rw [h'.1] at h; cases h
  · rw [h'.1] at h; cases h
  · rw [h'.1] at h
    injection h with h
    exact ⟨h.symm, h'.2⟩

@[simp] theorem ofRat_zero : ofRat 0 = fin 0 := by
  unfold ofRat
  rw [nearest_zero]
  have : ¬ ((2 : ℚ) ^ (1024 : ℤ) ≤ 0) := not_le.mpr (two_zpow_pos 1024)
  have h' : ¬ ((0 : ℚ) ≤ -2 ^ (1024 : ℤ)) := by
    have := two_zpow_pos 1024
    intro h
    linarith
  simp [this, h']

/-- A rounded value is a double. -/
theorem ofRat_idem {q r : ℚ} (h : ofRat q = fin r) : ofRat r = fin r := by
  obtain ⟨e, h₁, h₂⟩ := ofRat_eq_fin h
  have hn : nearest r = r := by rw [e, nearest_idem]
  unfold ofRat
  rw [hn, e]
  simp [not_le.mpr h₁, not_le.mpr h₂]

theorem isDouble_iff (q : ℚ) : isDouble q = true ↔ ofRat q = fin q := by
  simp [isDouble]

theorem isDouble_of_ofRat {q r : ℚ} (h : ofRat q = fin r) : isDouble r = true :=
  (isDouble_iff r).mpr (ofRat_idem h)

@[simp] theorem isDouble_zero : isDouble 0 = true := (isDouble_iff 0).mpr ofRat_zero

theorem isNumber_ofRat (q : ℚ) : isNumber (ofRat q) = true := by
  rcases ofRat_cases q with h | h | h
  · rw [h.1]; rfl
  · rw [h.1]; rfl
  · have := isDouble_of_ofRat h.1
    rw [h.1]
    exact this

/-- Rounding is monotone: with `q₁ ≤ q₂`, a finite result for `q₂` is not
below a finite result for `q₁`. -/
theorem ofRat_mono {q₁ q₂ r₁ r₂ : ℚ} (h : q₁ ≤ q₂) (h₁ : ofRat q₁ = fin r₁)
    (h₂ : ofRat q₂ = fin r₂) : r₁ ≤ r₂ := by
  rw [(ofRat_eq_fin h₁).1, (ofRat_eq_fin h₂).1]
  exact nearest_mono q₁ q₂ h

/-- A double below `q` is below the rounding of `q`. -/
theorem le_ofRat {a q r : ℚ} (ha : isDouble a = true) (h : a ≤ q) (hr : ofRat q = fin r) :
    a ≤ r :=
  ofRat_mono h ((isDouble_iff a).mp ha) hr

/-- A double above `q` is above the rounding of `q`. -/
theorem ofRat_le {a q r : ℚ} (ha : isDouble a = true) (h : q ≤ a) (hr : ofRat q = fin r) :
    r ≤ a :=
  ofRat_mono h hr ((isDouble_iff a).mp ha)

theorem ofRat_nonneg {q r : ℚ} (h : 0 ≤ q) (hr : ofRat q = fin r) : 0 ≤ r :=
  le_ofRat isDouble_zero h hr

/-- A non-negative value does not round to `-Infinity`. -/
theorem ofRat_ne_negInf {q : ℚ} (h : 0 ≤ q) : ofRat q ≠ negInf := by
  intro e
  rcases ofRat_cases q with h' | h' | h'
  · rw [h'.1] at e; cases e
  · have := nearest_nonneg q h
    have := two_zpow_pos 1024
    linarith [h'.2]
  · rw [h'.1] at e; cases e

theorem fin_add_fin (a b : ℚ) : fin a + fin b = ofRat (a + b) := rfl

theorem fin_sub_fin (a b : ℚ) : fin a - fin b = ofRat (a - b) := by
  show ofRat (a + -b) = ofRat (a - b)
  rw [sub_eq_add_neg]

theorem fin_mul_fin (a b : ℚ) : fin a * fin b = ofRat (a * b) := rfl

theorem fin_div_fin (a : ℚ) {b : ℚ} (hb : b ≠ 0) : fin a / fin b = ofRat (a / b) := by
  show div (fin a) (fin b) = ofRat (a / b)
  simp [div, hb]

@[simp] theorem fin_div_posInf (a : ℚ) : fin a / posInf = fin 0 := rfl

@[simp] theorem lt_fin_fin (a b : ℚ) : lt (fin a) (fin b) = decide (a < b) := rfl

@[simp] theorem gt_fin_fin (a b : ℚ) : gt (fin a) (fin b) = decide (b < a) := rfl

@[simp] theorem lt_nan_right (x : JSNum) : lt x nan = false := by
  cases x <;> rfl

@[simp] theorem lt_nan_left (x : JSNum) : lt nan x = false := by
  cases x <;> rfl

@[simp] theorem add_nan (x : JSNum) : x + nan = nan := by
  cases x <;> rfl

@[simp] theorem nan_add (x : JSNum) : nan + x = nan := by
  cases x <;> rfl

@[simp] theorem sub_nan (x : JSNum) : x - nan = nan := by
  cases x <;> rfl

@[simp] theorem nan_sub (x : JSNum) : nan - x = nan := by
  cases x <;> rfl

@[simp] theorem orZero_none : orZero none = fin 0 := rfl

@[simp] theorem orZero_some_fin (a : ℚ) : orZero (some (fin a)) = fin a := by
  by_cases h : a = 0 <;> simp [orZero, truthy, h]

@[simp] theorem orZero_some_nan : orZero (some nan) = fin 0 := rfl

/-- The idiom `x || 0` returns every number but NaN as it is. -/
theorem orZero_some_of_ne_nan {x : JSNum} (h : x ≠ nan) : orZero (some x) = x := by
  cases x with
  | fin a => simp
  | posInf => rfl
  | negInf => rfl
  | nan => exact absurd rfl h

@[simp] theorem orZero_some_ofRat (q : ℚ) : orZero (some (ofRat q)) = ofRat q :=
  orZero_some_of_ne_nan (ofRat_ne_nan q)

@[simp] theorem orZero_orZero (o : Option JSNum) : orZero (some (orZero o)) = orZero o := by
  cases o with
  | none => simp
  | some x =>
    cases x with
    | fin a => simp
    | posInf => rfl
    | negInf => rfl
    | nan => simp

@[simp] theorem pow_zero (x : JSNum) : pow x 0 = fin 1 := by
  cases x <;> rfl

@[simp] theorem strictEq_fin_fin (a b : ℚ) : strictEq (fin a) (fin b) = decide (a = b) := by
  simp [strictEq]

/-- The sum of two numbers is a number a program can hold. -/
theorem isNumber_add (x y : JSNum) : isNumber (x + y) = true := by
  show isNumber (add x y) = true
  cases x <;> cases y <;> first | rfl | exact isNumber_ofRat _

theorem isNumber_sub (x y : JSNum) : isNumber (x - y) = true := by
  show isNumber (add x (neg y)) = true
  exact isNumber_add x (neg y)

theorem isNumber_mul (x y : JSNum) : isNumber (x * y) = true := by
  show isNumber (mul x y) = true
  cases x <;> cases y <;> simp only [mul] <;>
    first | rfl | exact isNumber_ofRat _ | (split <;> first | rfl | (unfold infOfSign; split <;> rfl))

/-- Adding zero to a number leaves it as it is. -/
theorem add_zero_of_isNumber {x : JSNum} (h : isNumber x = true) : x + fin 0 = x := by
  cases x with
  | fin a =>
    rw [fin_add_fin, add_zero]
    exact (isDouble_iff a).mp h
  | posInf => rfl
  | negInf => rfl
  | nan => rfl

/-- Subtracting zero from a number leaves it as it is. -/
theorem sub_zero_of_isNumber {x : JSNum} (h : isNumber x = true) : x - fin 0 = x := by
  cases x with
  | fin a =>
    rw [fin_sub_fin, sub_zero]
    exact (isDouble_iff a).mp h
  | posInf => rfl
  | negInf => rfl
  | nan => rfl

/-- Multiplying a number by one leaves it as it is. -/
theorem mul_one_of_isNumber {x : JSNum} (h : isNumber x = true) : x * fin 1 = x := by
  cases x with
  | fin a =>
    rw [fin_mul_fin, mul_one]
    exact (isDouble_iff a).mp h
  | posInf => show mul posInf (fin 1) = posInf; simp [mul, infOfSign]
  | negInf => show mul negInf (fin 1) = negInf; simp [mul, infOfSign]
  | nan => rfl

/-- A quotient by zero is not finite, and neither is a sum it enters. -/
theorem add_div_zero_ne_fin (x c : JSNum) (q : ℚ) : x + c / fin 0 ≠ fin q := by
  show add x (div c (fin 0)) ≠ fin q
  cases c with
  | fin a =>
    by_cases ha : a = 0
    · cases x <;> simp [div, add, ha]
    · by_cases hp : 0 < a <;> cases x <;> simp [div, add, ha, hp, infOfSign]
  | posInf => cases x <;> simp [div, add, infOfSign]
  | negInf => cases x <;> simp [div, add, infOfSign]
  | nan => cases x <;> simp [div, add]

end JSNum

/-! ## Lemmas: maps -/

namespace JSMap

variable {β : Type}

@[simp] theorem get_empty (k : Account) : get (empty : JSMap β) k = none := rfl

@[simp] theorem get_set_self (m : JSMap β) (k : Account) (v : β) : get (set m k v) k = some v := by
  induction m with
  | nil => simp [set, get]
  | cons e rest ih =>
    obtain ⟨k', v'⟩ := e
    by_cases h : k' = k <;> simp [set, get, h, ih]

theorem get_set_of_ne (m : JSMap β) {k k' : Account} (v : β) (h : k ≠ k') :
    get (set m k v) k' = get m k' := by
  induction m with
  | nil => simp [set, get, h]
  | cons e rest ih =>
    obtain ⟨k₀, v₀⟩ := e
    by_cases h₁ : k₀ = k
    · subst h₁
      simp [set, get, h]
    · by_cases h₂ : k₀ = k'
      · subst h₂
        simp [set, get, h₁]
      · simp [set, get, h₁, h₂, ih]

theorem get_set (m : JSMap β) (k k' : Account) (v : β) :
    get (set m k v) k' = if k = k' then some v else get m k' := by
  by_cases h : k = k'
  · subst h
    simp
  · simp [h, get_set_of_ne]

end JSMap

/-! ## Lemmas: outcomes -/

namespace Outcome

variable {σ : Type}

@[simp] theorem andThen_none (s : σ) (f : σ → Outcome σ) :
    andThen { state := s, thrown := none } f = f s := rfl

@[simp] theorem andThen_some (s : σ) (e : Err) (f : σ → Outcome σ) :
    andThen { state := s, thrown := some e } f = { state := s, thrown := some e } := rfl

@[simp] theorem andThen_ok (s : σ) (f : σ → Outcome σ) : andThen (ok s) f = f s := rfl

theorem andThen_thrown_none {r : Outcome σ} {f : σ → Outcome σ}
    (h : (andThen r f).thrown = none) : r.thrown = none ∧ andThen r f = f r.state := by
  unfold andThen at h ⊢
  cases hr : r.thrown with
  | none => simp
  | some e => rw [hr] at h; simp at h

/-- The exception of a sequence is that of the first call, or else that of
the second. -/
theorem andThen_thrown_cases (r : Outcome σ) (f : σ → Outcome σ) :
    (andThen r f).thrown = r.thrown ∨ (andThen r f).thrown = (f r.state).thrown := by
  unfold andThen
  cases hr : r.thrown with
  | none => exact Or.inr rfl
  | some e => exact Or.inl rfl

end Outcome

/-! ## Lemmas: token -/

namespace Token

theorem balanceOf_mint (t : Token) (to_ a : Account) (x : JSNum) :
    (t.mint to_ x).balanceOf a =
      if to_ = a then orZero (some (t.balanceOf to_ + x)) else t.balanceOf a := by
  simp only [mint, _executeMint, balanceOf, JSMap.get_set]
  split <;> rfl

@[simp] theorem totalSupply_mint (t : Token) (to_ : Account) (x : JSNum) :
    (t.mint to_ x).totalSupply = t.totalSupply + x := rfl

@[simp] theorem orZero_balanceOf (t : Token) (a : Account) :
    orZero (some (t.balanceOf a)) = t.balanceOf a := by
  simp [balanceOf]

/-- A balance is never read as NaN. -/
theorem balanceOf_ne_nan (t : Token) (a : Account) : t.balanceOf a ≠ nan := by
  unfold balanceOf
  cases h : t.balances.get a with
  | none => simp
  | some x =>
    cases x with
    | fin q => simp
    | posInf => simp [orZero, truthy]
    | negInf => simp [orZero, truthy]
    | nan => simp

/-- A transfer whose amount is not above the sender's balance is executed as
requested: the sender's entry is written from the balance read before the
call, then the receiver's. -/
theorem transfer_eq_of_not_lt (t : Token) (from_ to_ : Account) (x : JSNum)
    (h : JSNum.lt (t.balanceOf from_) x = false) :
    t.transfer from_ to_ x =
      Outcome.ok { t with balances :=
        (t.balances.set from_ (t.balanceOf from_ - x)).set to_ (t.balanceOf to_ + x) } := by
  simp [transfer, _preTransfer, _validateTransfer, _executeTransfer, h]

theorem transfer_thrown_of_not_lt (t : Token) (from_ to_ : Account) (x : JSNum)
    (h : JSNum.lt (t.balanceOf from_) x = false) :
    (t.transfer from_ to_ x).thrown = none := by
  rw [transfer_eq_of_not_lt t from_ to_ x h]
  rfl

theorem transfer_totalSupply (t : Token) (from_ to_ : Account) (x : JSNum) :
    (t.transfer from_ to_ x).state.totalSupply = t.totalSupply := by
  simp only [transfer, _preTransfer, _validateTransfer, _executeTransfer]
  split <;> rfl

theorem transfer_balanceOf_to (t : Token) (from_ to_ : Account) (x : JSNum)
    (h : JSNum.lt (t.balanceOf from_) x = false) :
    (t.transfer from_ to_ x).state.balanceOf to_ = orZero (some (t.balanceOf to_ + x)) := by
  rw [transfer_eq_of_not_lt t from_ to_ x h]
  simp [Outcome.ok, balanceOf]

theorem transfer_balanceOf_from (t : Token) {from_ to_ : Account} (x : JSNum)
    (h : JSNum.lt (t.balanceOf from_) x = false) (hne : from_ ≠ to_) :
    (t.transfer from_ to_ x).state.balanceOf from_ = orZero (some (t.balanceOf from_ - x)) := by
  rw [transfer_eq_of_not_lt t from_ to_ x h]
  simp [Outcome.ok, balanceOf, JSMap.get_set_of_ne _ _ (Ne.symm hne)]

theorem transfer_balanceOf_other (t : Token) {from_ to_ c : Account} (x : JSNum)
    (h₁ : from_ ≠ c) (h₂ : to_ ≠ c) :
    (t.transfer from_ to_ x).state.balanceOf c = t.balanceOf c := by
  simp only [transfer, _preTransfer, _validateTransfer, _executeTransfer]
  by_cases hlt : JSNum.lt (t.balanceOf from_) x = true
  · by_cases he : JSNum.lt (x - t.balanceOf from_) epsilon = true
    · simp only [hlt, he, if_true]
      simp [Outcome.ok, balanceOf, JSMap.get_set_of_ne _ _ h₁, JSMap.get_set_of_ne _ _ h₂]
    · simp only [hlt, he, if_true, if_false]
      rfl
  · simp only [hlt, if_false]
    simp [Outcome.ok, balanceOf, JSMap.get_set_of_ne _ _ h₁, JSMap.get_set_of_ne _ _ h₂]

/-- A transfer either returns or throws the `TypeError`. -/
theorem transfer_thrown (t : Token) (from_ to_ : Account) (x : JSNum) :
    (t.transfer from_ to_ x).thrown = none
    ∨ (t.transfer from_ to_ x).thrown = some Err.typeError := by
  simp only [transfer, _preTransfer, _validateTransfer, _executeTransfer]
  split
  · exact Or.inr rfl
  · exact Or.inl rfl

theorem burn_undefined (t : Token) (from_ : Account) :
    t.burn from_ undefinedNum =
      Outcome.ok { balances := t.balances.set from_ nan, totalSupply := nan } := by
  simp [burn, _validateBurn, _executeBurn, undefinedNum]

end Token

/-! ## Lemmas: pools -/

namespace CurationPool

theorem mintShares_thrown (p : CurationPool) : p.mintShares.thrown = none := by
  simp only [mintShares, SecondaryPool._distributeShares, Token.burn_undefined]
  split <;> rfl

theorem mintShares_reserveToken (p : CurationPool) :
    p.mintShares.state.reserveToken = p.reserveToken := by
  simp only [mintShares, SecondaryPool._distributeShares, Token.burn_undefined]
  split <;> rfl

theorem mintShares_deposits (p : CurationPool) :
    p.mintShares.state.deposits = p.deposits := by
  simp only [mintShares, SecondaryPool._distributeShares, Token.burn_undefined]
  split <;> rfl

theorem mintShares_snapshots (p : CurationPool) :
    p.mintShares.state.secondaryPool.snapshots = p.secondaryPool.snapshots := by
  simp only [mintShares, SecondaryPool._distributeShares, Token.burn_undefined]
  split <;> rfl

theorem mintShares_accRoyaltiesPerDeposit (p : CurationPool) :
    p.mintShares.state.secondaryPool.accRoyaltiesPerDeposit
      = p.secondaryPool.accRoyaltiesPerDeposit := by
  simp only [mintShares, SecondaryPool._distributeShares, Token.burn_undefined]
  split <;> rfl

theorem mintShares_accRoyaltiesPerShare (p : CurationPool) :
    p.mintShares.state.accRoyaltiesPerShare = p.accRoyaltiesPerShare := by
  simp only [mintShares, SecondaryPool._distributeShares, Token.burn_undefined]
  split <;> rfl

theorem mintShares_secondaryPool_address (p : CurationPool) :
    p.mintShares.state.secondaryPool.address = p.secondaryPool.address := by
  simp only [mintShares, SecondaryPool._distributeShares, Token.burn_undefined]
  split <;> rfl

theorem mintShares_address (p : CurationPool) : p.mintShares.state.address = p.address := by
  simp only [mintShares, SecondaryPool._distributeShares, Token.burn_undefined]
  split <;> rfl

theorem mintShares_totalDeposits (p : CurationPool) :
    p.mintShares.state.secondaryPool.totalDeposits = p.secondaryPool.totalDeposits := by
  simp only [mintShares, SecondaryPool._distributeShares, Token.burn_undefined]
  split <;> rfl

theorem mintShares_issuanceRate (p : CurationPool) :
    p.mintShares.state.issuanceRate = p.issuanceRate := by
  simp only [mintShares, SecondaryPool._distributeShares, Token.burn_undefined]
  split <;> rfl

theorem mintShares_chain (p : CurationPool) : p.mintShares.state.chain = p.chain := by
  simp only [mintShares, SecondaryPool._distributeShares, Token.burn_undefined]
  split <;> rfl

theorem mintShares_lastMintedBlock (p : CurationPool) :
    p.mintShares.state.lastMintedBlock = p.chain.blockHeight := by
  simp only [mintShares, SecondaryPool._distributeShares, Token.burn_undefined]
  split <;> rfl

theorem mintShares_depositOf (p : CurationPool) (a : Account) :
    p.mintShares.state.depositOf a = p.depositOf a := by
  simp [depositOf, mintShares_deposits]

theorem claim_eq_claim_mintShares (p : CurationPool) (account : Account) :
    p.claim account = SecondaryPool._claim p.mintShares.state account := by
  have h := mintShares_thrown p
  unfold claim Outcome.andThen
  rw [h]

/-- With `totalDeposits > 0`, `mintShares()` mints the difference between the
getter `totalShares` and the supply to the secondary pool and credits it, per
unit of deposit, to `accSharesPerDeposit`. -/
theorem mintShares_eq (p : CurationPool)
    (hT : JSNum.gt p.secondaryPool.totalDeposits (fin 0) = true) :
    mintShares p = Outcome.ok
      { p with
        shareToken := p.shareToken.mint p.secondaryPool.address
          (p.totalShares - p.shareToken.totalSupply),
        secondaryPool := { p.secondaryPool with
          accSharesPerDeposit := p.secondaryPool.accSharesPerDeposit +
            (p.totalShares - p.shareToken.totalSupply) / p.secondaryPool.totalDeposits },
        lastMintedBlock := p.chain.blockHeight } := by
  simp [mintShares, SecondaryPool._distributeShares, hT, totalShares]

end CurationPool

namespace SecondaryPool

/-- The settlement either returns or throws the `TypeError`. -/
theorem _claim_thrown (p : CurationPool) (c : Account) :
    (_claim p c).thrown = none ∨ (_claim p c).thrown = some Err.typeError := by
  unfold _claim
  dsimp only
  rcases Outcome.andThen_thrown_cases _ _ with h | h <;> rw [h]
  · exact Token.transfer_thrown _ _ _ _
  · dsimp only
    rcases Outcome.andThen_thrown_cases _ _ with h' | h' <;> rw [h']
    · exact Token.transfer_thrown _ _ _ _
    · exact Or.inl rfl

/-- A settlement moves shares and mints none: the share supply is untouched,
also when one of its transfers throws. -/
theorem _claim_totalSupply (p : CurationPool) (a : Account) :
    (_claim p a).state.shareToken.totalSupply = p.shareToken.totalSupply := by
  unfold _claim Outcome.andThen
  dsimp only
  split
  · split
    · exact Token.transfer_totalSupply _ _ _ _
    · exact Token.transfer_totalSupply _ _ _ _
  · exact Token.transfer_totalSupply _ _ _ _

/-- A settlement writes to no accumulator, also when one of its transfers
throws. -/
theorem _claim_accumulators (p : CurationPool) (a : Account) :
    (_claim p a).state.accRoyaltiesPerShare = p.accRoyaltiesPerShare
    ∧ (_claim p a).state.secondaryPool.accSharesPerDeposit = p.secondaryPool.accSharesPerDeposit
    ∧ (_claim p a).state.secondaryPool.accRoyaltiesPerDeposit
        = p.secondaryPool.accRoyaltiesPerDeposit := by
  unfold _claim Outcome.andThen
  dsimp only
  split
  · split
    · exact ⟨rfl, rfl, rfl⟩
    · exact ⟨rfl, rfl, rfl⟩
  · exact ⟨rfl, rfl, rfl⟩

end SecondaryPool

namespace CurationPool

/-- A claim either returns or throws the `TypeError`. -/
theorem claim_thrown (p : CurationPool) (c : Account) :
    (p.claim c).thrown = none ∨ (p.claim c).thrown = some Err.typeError := by
  rw [claim_eq_claim_mintShares]
  exact SecondaryPool._claim_thrown _ c

/-- Past its balance check, a deposit either returns or throws the `TypeError`. -/
theorem deposit_thrown_of_not_lt (p : CurationPool) (c : Account) (x : JSNum)
    (h : JSNum.lt (p.reserveToken.balanceOf c) x = false) :
    (p.deposit c x).thrown = none ∨ (p.deposit c x).thrown = some Err.typeError := by
  unfold deposit
  rw [h]
  simp only [Bool.false_eq_true, if_false]
  rcases Outcome.andThen_thrown_cases _ _ with h₁ | h₁ <;> rw [h₁]
  · exact claim_thrown p c
  · rcases Outcome.andThen_thrown_cases _ _ with h₂ | h₂ <;> rw [h₂]
    · exact Token.transfer_thrown _ _ _ _
    · exact Or.inl rfl

/-- Past its deposit check, a withdrawal either returns or throws the
`TypeError`. -/
theorem withdraw_thrown_of_not_lt (p : CurationPool) (c : Account) (x : JSNum)
    (h : JSNum.lt (p.depositOf c) x = false) :
    (p.withdraw c x).thrown = none ∨ (p.withdraw c x).thrown = some Err.typeError := by
  unfold withdraw
  rw [h]
  simp only [Bool.false_eq_true, if_false]
  rcases Outcome.andThen_thrown_cases _ _ with h₁ | h₁ <;> rw [h₁]
  · exact Token.transfer_thrown _ _ _ _
  · rcases Outcome.andThen_thrown_cases _ _ with h₂ | h₂ <;> rw [h₂]
    · exact claim_thrown _ c
    · exact Or.inl rfl

end CurationPool

/-! ## Lemmas: states whose numbers are doubles -/

namespace JSNum

theorem isNumber_orZero (o : Option JSNum) (h : ∀ x, o = some x → isNumber x = true) :
    isNumber (orZero o) = true := by
  cases o with
  | none => exact isDouble_zero
  | some x =>
    have hx := h x rfl
    show isNumber (if truthy x then x else fin 0) = true
    split
    · exact hx
    · exact isDouble_zero

end JSNum

namespace JSMap

theorem get_mem_values {β : Type} (m : JSMap β) (k : Account) (v : β) (h : get m k = some v) :
    v ∈ values m := by
  induction m with
  | nil => simp [get] at h
  | cons e rest ih =>
    obtain ⟨k', v'⟩ := e
    by_cases hk : k' = k
    · simp [get, hk] at h
      subst h
      simp [values]
    · simp [get, hk] at h
      have := ih h
      simp only [values, List.map_cons, List.mem_cons]
      right
      exact this

end JSMap

namespace Token

theorem isNumber_balanceOf (t : Token) (h : t.isNumeric = true) (c : Account) :
    JSNum.isNumber (t.balanceOf c) = true := by
  unfold isNumeric at h
  rw [Bool.and_eq_true, List.all_eq_true] at h
  unfold balanceOf
  apply JSNum.isNumber_orZero
  intro x hx
  exact h.1 x (JSMap.get_mem_values _ _ _ hx)

theorem isNumber_totalSupply (t : Token) (h : t.isNumeric = true) :
    JSNum.isNumber t.totalSupply = true := by
  unfold isNumeric at h
  rw [Bool.and_eq_true] at h
  exact h.2

end Token

namespace CurationPool

theorem isNumeric_reserveToken (p : CurationPool) (h : p.isNumeric = true) :
    p.reserveToken.isNumeric = true := by
  unfold isNumeric at h
  simp only [Bool.and_eq_true] at h
  exact h.1.1.1.1.1.1.1.1.1.1

theorem isNumeric_shareToken (p : CurationPool) (h : p.isNumeric = true) :
    p.shareToken.isNumeric = true := by
  unfold isNumeric at h
  simp only [Bool.and_eq_true] at h
  exact h.1.1.1.1.1.1.1.1.1.2

theorem isNumber_accSharesPerDeposit (p : CurationPool) (h : p.isNumeric = true) :
    JSNum.isNumber p.secondaryPool.accSharesPerDeposit = true := by
  unfold isNumeric at h
  simp only [Bool.and_eq_true] at h
  exact h.1.1.1.1.2

theorem isNumber_accRoyaltiesPerDeposit (p : CurationPool) (h : p.isNumeric = true) :
    JSNum.isNumber p.secondaryPool.accRoyaltiesPerDeposit = true := by
  unfold isNumeric at h
  simp only [Bool.and_eq_true] at h
  exact h.1.1.2

/-- The getter `totalShares` returns a product, which is a number a program
can hold. -/
theorem isNumber_totalShares (p : CurationPool) : JSNum.isNumber p.totalShares = true :=
  JSNum.isNumber_mul _ _

end CurationPool

/-! ## Lemmas: the constructor's sum -/

namespace JSNum

/-- On a number that is not NaN, `===` is equality. -/
theorem strictEq_eq_true_iff {x y : JSNum} (hy : y ≠ nan) : strictEq x y = true ↔ x = y := by
  cases x <;> cases y <;> simp [strictEq] at hy ⊢

end JSNum

namespace CurationPool

/-- When no addition rounds, `_.sumBy(initialDeposits, 1)` is the sum of the
amounts. -/
theorem sumBy1_of_sumsExactly (amounts : List (Account × ℚ))
    (h : sumsExactly 0 (amounts.map Prod.snd) = true) :
    sumBy1 (amounts.map fun e => (e.1, fin e.2)) = fin (amounts.map Prod.snd).sum := by
  have aux : ∀ (l : List (Account × ℚ)) (a : ℚ), sumsExactly a (l.map Prod.snd) = true →
      (l.map fun e => (e.1, fin e.2)).foldl (fun acc e => acc + e.2) (fin a)
        = fin (a + (l.map Prod.snd).sum) := by
    intro l
    induction l with
    | nil => intro a _; simp
    | cons x rest ih =>
      intro a ha
      simp only [List.map_cons, sumsExactly, Bool.and_eq_true] at ha
      simp only [List.map_cons, List.foldl_cons, List.sum_cons]
      rw [fin_add_fin, (isDouble_iff _).mp ha.1, ih _ ha.2, add_assoc]
  have := aux amounts 0 h
  rw [zero_add] at this
  exact this

end CurationPool

/-! ## Lemmas: issuance repeated at a block height -/

namespace JSMap

variable {β : Type}

/-- Writing the same value to the same key twice is writing it once. -/
theorem set_set_self (m : JSMap β) (k : Account) (v : β) : set (set m k v) k v = set m k v := by
  induction m with
  | nil => simp [set]
  | cons e rest ih =>
    obtain ⟨k', v'⟩ := e
    by_cases h : k' = k
    · simp [set, h]
    · simp [set, h, ih]

end JSMap

namespace JSNum

/-- A finite sum has finite terms. -/
theorem fin_of_add_eq_fin {x y : JSNum} {s : ℚ} (h : x + y = fin s) :
    (∃ a, x = fin a) ∧ (∃ b, y = fin b) := by
  change add x y = fin s at h
  cases x <;> cases y <;> simp [add] at h ⊢

/-- A difference of a finite number with itself is zero. -/
theorem sub_self_of_fin (a : ℚ) : fin a - fin a = fin 0 := by
  rw [fin_sub_fin, sub_self, ofRat_zero]

/-- Zero over a positive divisor is zero. -/
theorem zero_div_of_gt {t : JSNum} (h : JSNum.gt t (fin 0) = true) : fin 0 / t = fin 0 := by
  cases t with
  | fin q =>
    have hq : q ≠ 0 := by
      intro e
      rw [e] at h
      simp at h
    rw [fin_div_fin _ hq, zero_div, ofRat_zero]
  | posInf => rfl
  | negInf => simp [gt, lt] at h
  | nan => simp [gt] at h

end JSNum

namespace Token

/-- After a mint to an account whose new balance is not NaN, minting zero to
the same account changes nothing. -/
theorem mint_mint_zero (t : Token) (k : Account) (x : JSNum) (hx : t.balanceOf k + x ≠ nan) :
    (t.mint k x).mint k (fin 0) = t.mint k x := by
  have hbal : (t.mint k x).balanceOf k = t.balanceOf k + x := by
    rw [balanceOf_mint, if_pos rfl]
    exact orZero_some_of_ne_nan hx
  have h₁ : (t.mint k x).balanceOf k + fin 0 = t.balanceOf k + x := by
    rw [hbal]
    exact add_zero_of_isNumber (isNumber_add _ _)
  have h₂ : (t.mint k x).totalSupply + fin 0 = (t.mint k x).totalSupply :=
    add_zero_of_isNumber (by rw [totalSupply_mint]; exact isNumber_add _ _)
  unfold mint _executeMint at h₁ h₂ ⊢
  simp only [h₁, h₂, JSMap.set_set_self]

/-- A finite amount added to a balance does not give NaN. -/
theorem balanceOf_add_fin_ne_nan (t : Token) (k : Account) (m : ℚ) :
    t.balanceOf k + fin m ≠ nan := by
  have hb := balanceOf_ne_nan t k
  cases hc : t.balanceOf k with
  | fin b => rw [fin_add_fin]; exact ofRat_ne_nan _
  | posInf => intro h; cases h
  | negInf => intro h; cases h
  | nan => exact absurd hc hb

end Token

/-! ## Lemmas: signs through the rounded operations -/

namespace JSNum

theorem isDouble_one : isDouble 1 = true := by decide!

theorem notNegative_ofRat {q : ℚ} (h : 0 ≤ q) : notNegative (ofRat q) = true := by
  rcases ofRat_cases q with h' | h' | h'
  · rw [h'.1]; rfl
  · exact absurd h'.1 (ofRat_ne_negInf h)
  · have := ofRat_nonneg h h'.1
    rw [h'.1]
    simpa [notNegative] using this

theorem notNegative_cases {x : JSNum} (h : notNegative x = true) :
    (∃ a, x = fin a ∧ 0 ≤ a) ∨ x = posInf ∨ x = nan := by
  cases x with
  | fin a => exact Or.inl ⟨a, rfl, by simpa [notNegative] using h⟩
  | posInf => exact Or.inr (Or.inl rfl)
  | negInf => cases h
  | nan => exact Or.inr (Or.inr rfl)

theorem notNegative_of_isNonneg {x : JSNum} (h : isNonneg x = true) : notNegative x = true := by
  cases x with
  | fin a => simpa [notNegative, isNonneg] using h
  | posInf => rfl
  | negInf => cases h
  | nan => rfl

theorem notNegative_of_gt_zero {x : JSNum} (h : gt x (fin 0) = true) : notNegative x = true := by
  cases x with
  | fin a =>
    have : (0 : ℚ) < a := by simpa [gt, lt] using h
    simpa [notNegative] using this.le
  | posInf => rfl
  | negInf => cases h
  | nan => rfl

theorem notNegative_add {x y : JSNum} (hx : notNegative x = true) (hy : notNegative y = true) :
    notNegative (x + y) = true := by
  rcases notNegative_cases hx with ⟨a, rfl, ha⟩ | rfl | rfl <;>
    rcases notNegative_cases hy with ⟨b, rfl, hb⟩ | rfl | rfl <;>
    first
      | rfl
      | (rw [fin_add_fin]; exact notNegative_ofRat (add_nonneg ha hb))

theorem notNegative_mul {x y : JSNum} (hx : notNegative x = true) (hy : notNegative y = true) :
    notNegative (x * y) = true := by
  rcases notNegative_cases hx with ⟨a, rfl, ha⟩ | rfl | rfl <;>
    rcases notNegative_cases hy with ⟨b, rfl, hb⟩ | rfl | rfl
  · rw [fin_mul_fin]; exact notNegative_ofRat (mul_nonneg ha hb)
  · show notNegative (mul (fin a) posInf) = true
    by_cases h0 : a = 0
    · simp [mul, h0, notNegative]
    · have : 0 < a := lt_of_le_of_ne ha (Ne.symm h0)
      simp [mul, h0, infOfSign, this, notNegative]
  · rfl
  · show notNegative (mul posInf (fin b)) = true
    by_cases h0 : b = 0
    · simp [mul, h0, notNegative]
    · have : 0 < b := lt_of_le_of_ne hb (Ne.symm h0)
      simp [mul, h0, infOfSign, this, notNegative]
  · rfl
  · rfl
  · rfl
  · rfl
  · rfl

theorem notNegative_div {x y : JSNum} (hx : notNegative x = true) (hy : notNegative y = true) :
    notNegative (x / y) = true := by
  rcases notNegative_cases hx with ⟨a, rfl, ha⟩ | rfl | rfl <;>
    rcases notNegative_cases hy with ⟨b, rfl, hb⟩ | rfl | rfl
  · show notNegative (div (fin a) (fin b)) = true
    by_cases hb0 : b = 0
    · by_cases ha0 : a = 0
      · simp [div, hb0, ha0, notNegative]
      · have : 0 < a := lt_of_le_of_ne ha (Ne.symm ha0)
        simp [div, hb0, ha0, infOfSign, this, notNegative]
    · simp only [div, hb0, if_false]
      exact notNegative_ofRat (div_nonneg ha hb)
  · show notNegative (fin 0) = true
    simp [notNegative]
  · rfl
  · show notNegative (div posInf (fin b)) = true
    simp [div, infOfSign, hb, notNegative]
  · rfl
  · rfl
  · rfl
  · rfl
  · rfl

theorem pow_fin_of_pos (b : ℚ) {e : ℤ} (he : 0 < e) : pow (fin b) e = ofRat (b ^ e) := by
  unfold pow
  split
  · omega
  · rename_i h _; cases h
  · rename_i h _
    cases h
    rw [if_neg]
    intro h
    omega
  · rename_i h _; cases h
  · rename_i h _; cases h

theorem pow_posInf_of_pos {e : ℤ} (he : 0 < e) : pow posInf e = posInf := by
  unfold pow
  split
  · omega
  · rename_i h _; cases h
  · rename_i h _; cases h
  · simp [he]
  · rename_i h _; cases h

theorem notNegative_orZero {x : JSNum} (h : notNegative x = true) :
    notNegative (orZero (some x)) = true := by
  cases x with
  | fin a =>
    by_cases h0 : a = 0
    · simp [orZero, truthy, h0, notNegative]
    · simpa [orZero, truthy, h0] using h
  | posInf => rfl
  | negInf => cases h
  | nan => simp [notNegative]

/-- A difference `x - y` with `x >= y` and `x` finite is not negative. -/
theorem notNegative_sub_of_ge {x y : JSNum} (hx : isFinite x = true) (h : ge x y = true) :
    notNegative (x - y) = true := by
  cases x with
  | fin a =>
    cases y with
    | fin b =>
      rw [fin_sub_fin]
      apply notNegative_ofRat
      simp only [ge, lt, strictEq, Bool.or_eq_true, decide_eq_true_eq] at h
      rcases h with h | h
      · linarith
      · have : a = b := by simpa using h
        linarith
    | posInf => simp [ge, lt, strictEq] at h
    | negInf => rfl
    | nan => rfl
  | posInf => cases hx
  | negInf => cases hx
  | nan => cases hx

/-- A difference `b - x` of numbers that are not negative, with `b < x` false,
is not negative. -/
theorem notNegative_sub_of_not_lt {b x : JSNum} (hb : notNegative b = true)
    (hx : notNegative x = true) (h : lt b x = false) : notNegative (b - x) = true := by
  rcases notNegative_cases hb with ⟨β, rfl, hβ⟩ | rfl | rfl <;>
    rcases notNegative_cases hx with ⟨ξ, rfl, hξ⟩ | rfl | rfl
  · rw [fin_sub_fin]
    apply notNegative_ofRat
    have : ¬ β < ξ := by simpa [lt] using h
    linarith
  · simp [lt] at h
  · rfl
  · rfl
  · rfl
  · rfl
  · rfl
  · rfl
  · rfl

theorem lt_self (x : JSNum) : lt x x = false := by
  cases x <;> simp [lt]

/-- The growth factor `(1 + rate) ** elapsed` of a non-negative rate over a
non-negative number of blocks is `Infinity` or a finite number `>= 1`. -/
theorem one_le_growth {r : JSNum} (hr : isNonneg r = true) {e : ℤ} (he : 0 ≤ e) :
    pow (fin 1 + r) e = posInf ∨ ∃ w, pow (fin 1 + r) e = fin w ∧ 1 ≤ w := by
  cases r with
  | fin a =>
    have ha : (0 : ℚ) ≤ a := by simpa [isNonneg] using hr
    by_cases he0 : e = 0
    · subst he0
      exact Or.inr ⟨1, pow_zero _, le_refl _⟩
    · have hpos : 0 < e := lt_of_le_of_ne he (Ne.symm he0)
      rw [fin_add_fin]
      rcases ofRat_cases (1 + a) with h | h | h
      · rw [h.1]
        exact Or.inl (pow_posInf_of_pos hpos)
      · exact absurd h.1 (ofRat_ne_negInf (by linarith))
      · have hβ : 1 ≤ nearest (1 + a) := le_ofRat isDouble_one (by linarith) h.1
        rw [h.1, pow_fin_of_pos _ hpos]
        have h1 : (1 : ℚ) ≤ nearest (1 + a) ^ e := by
          lift e to ℕ using he
          rw [zpow_natCast]
          exact one_le_pow₀ hβ
        rcases ofRat_cases (nearest (1 + a) ^ e) with h' | h' | h'
        · exact Or.inl h'.1
        · exact absurd h'.1 (ofRat_ne_negInf (by linarith))
        · exact Or.inr ⟨_, h'.1, le_ofRat isDouble_one h1 h'.1⟩
  | posInf => cases hr
  | negInf => cases hr
  | nan => cases hr

/-- With a supply `S` that is a double and not negative, and a growth factor
`>= 1`, neither the projected supply `S * g` nor the issuance `S * g - S` is
negative. -/
theorem notNegative_issuance {S g : JSNum} (hS : notNegative S = true)
    (hd : isNumber S = true) (hg : g = posInf ∨ ∃ w, g = fin w ∧ 1 ≤ w) :
    notNegative (S * g) = true ∧ notNegative (S * g - S) = true := by
  cases S with
  | fin s =>
    have hs : (0 : ℚ) ≤ s := by simpa [notNegative] using hS
    have hds : isDouble s = true := hd
    rcases hg with rfl | ⟨w, rfl, hw⟩
    · have h1 : notNegative (fin s * posInf) = true := notNegative_mul hS rfl
      refine ⟨h1, ?_⟩
      rcases notNegative_cases h1 with ⟨a, e, _⟩ | e | e
      · exfalso
        have : mul (fin s) posInf = fin a := e
        by_cases h0 : s = 0
        · simp [mul, h0] at this
        · have hp : 0 < s := lt_of_le_of_ne hs (Ne.symm h0)
          simp [mul, h0, infOfSign, hp] at this
      · rw [e]; rfl
      · rw [e]; rfl
    · rw [fin_mul_fin]
      have hsw : s ≤ s * w := by nlinarith
      refine ⟨notNegative_ofRat (mul_nonneg hs (by linarith)), ?_⟩
      rcases ofRat_cases (s * w) with h | h | h
      · rw [h.1]; rfl
      · exact absurd h.1 (ofRat_ne_negInf (mul_nonneg hs (by linarith)))
      · rw [h.1, fin_sub_fin]
        have : s ≤ nearest (s * w) := le_ofRat hds hsw h.1
        exact notNegative_ofRat (by linarith)
  | posInf =>
    rcases hg with rfl | ⟨w, rfl, hw⟩
    · exact ⟨rfl, rfl⟩
    · have hw0 : w ≠ 0 := by intro h; rw [h] at hw; norm_num at hw
      have hwp : 0 < w := by linarith
      have e : posInf * fin w = posInf := by
        show mul posInf (fin w) = posInf
        simp [mul, hw0, infOfSign, hwp]
      rw [e]
      exact ⟨rfl, rfl⟩
  | negInf => cases hS
  | nan => rcases hg with rfl | ⟨w, rfl, _⟩ <;> exact ⟨rfl, rfl⟩

theorem ge_self_of_isFinite {x : JSNum} (h : isFinite x = true) : ge x x = true := by
  cases x with
  | fin a => simp [ge, lt, strictEq]
  | posInf => cases h
  | negInf => cases h
  | nan => cases h

/-- Adding a number that is not negative to a finite double does not lower
it, as long as the sum is finite. -/
theorem ge_add_of_notNegative {x y : JSNum} (hx : isFinite x = true)
    (hy : notNegative y = true) (h : isFinite (x + y) = true) : ge (x + y) x = true := by
  cases x with
  | fin a =>
    have ha : isDouble a = true := hx
    rcases notNegative_cases hy with ⟨b, rfl, hb⟩ | rfl | rfl
    · rw [fin_add_fin] at h ⊢
      rcases ofRat_cases (a + b) with h' | h' | h'
      · rw [h'.1] at h; cases h
      · rw [h'.1] at h; cases h
      · have hle : a ≤ nearest (a + b) := le_ofRat ha (by linarith) h'.1
        rw [h'.1]
        rcases lt_or_eq_of_le hle with hlt | heq
        · simp [ge, lt, hlt]
        · simp [ge, lt, strictEq, ← heq]
    · cases h
    · cases h
  | posInf => cases hx
  | negInf => cases hx
  | nan => cases hx

end JSNum

/-! ## Lemmas: the accumulators after a step -/

namespace Outcome

/-- The state left by a sequence is that of the first call, if it throws, or
else that of the second. -/
theorem andThen_state_cases {σ : Type} (r : Outcome σ) (f : σ → Outcome σ) :
    (andThen r f).state = r.state ∨ (andThen r f).state = (f r.state).state := by
  unfold andThen
  cases hr : r.thrown with
  | none => exact Or.inr rfl
  | some e => exact Or.inl rfl

end Outcome

namespace SecondaryPool

theorem _claim_accumulators_eq (p : CurationPool) (a : Account) :
    (_claim p a).state.accumulators = p.accumulators := by
  obtain ⟨h1, h2, h3⟩ := _claim_accumulators p a
  simp [CurationPool.accumulators, h1, h2, h3]

end SecondaryPool

namespace CurationPool

theorem mintShares_accumulators (p : CurationPool) :
    p.mintShares.state.accumulators =
      (p.accRoyaltiesPerShare,
       (if JSNum.gt p.secondaryPool.totalDeposits (fin 0) then
          p.secondaryPool.accSharesPerDeposit +
            (p.totalShares - p.shareToken.totalSupply) / p.secondaryPool.totalDeposits
        else p.secondaryPool.accSharesPerDeposit),
       p.secondaryPool.accRoyaltiesPerDeposit) := by
  by_cases hT : JSNum.gt p.secondaryPool.totalDeposits (fin 0) = true
  · rw [mintShares_eq p hT]
    simp [accumulators, Outcome.ok, hT]
  · simp only [hT]
    unfold mintShares SecondaryPool._distributeShares Outcome.andThen
    simp only [hT]
    split <;> rfl

theorem claim_accumulators (p : CurationPool) (c : Account) :
    (p.claim c).state.accumulators = p.mintShares.state.accumulators := by
  rw [claim_eq_claim_mintShares]
  exact SecondaryPool._claim_accumulators_eq _ c

theorem deposit_accumulators (p : CurationPool) (c : Account) (x : JSNum) :
    (p.deposit c x).state.accumulators = p.accumulators
    ∨ (p.deposit c x).state.accumulators = p.mintShares.state.accumulators := by
  unfold deposit
  split
  · exact Or.inl rfl
  · right
    rw [← claim_accumulators p c]
    rcases Outcome.andThen_state_cases (p.claim c) _ with h | h
    · rw [h]
    · rw [h]
      rcases Outcome.andThen_state_cases _ _ with h' | h' <;> rw [h'] <;> rfl

theorem withdraw_accumulators (p : CurationPool) (c : Account) (x : JSNum) :
    (p.withdraw c x).state.accumulators = p.accumulators
    ∨ (p.withdraw c x).state.accumulators = p.mintShares.state.accumulators := by
  unfold withdraw
  split
  · exact Or.inl rfl
  · dsimp only
    rcases Outcome.andThen_state_cases _ _ with h | h <;> rw [h]
    · exact Or.inl rfl
    · right
      rcases Outcome.andThen_state_cases _ _ with h' | h' <;> rw [h']
      · rw [claim_accumulators, mintShares_accumulators, mintShares_accumulators]
        rfl
      · show (claim _ c).state.accumulators = _
        rw [claim_accumulators, mintShares_accumulators, mintShares_accumulators]
        rfl

theorem buyShares_accumulators (p : CurationPool) (c : Account) (s : JSNum) :
    (p.buyShares c s).state.accumulators = p.accumulators
    ∨ (p.buyShares c s).state.accumulators =
        (p.accRoyaltiesPerShare, p.secondaryPool.accSharesPerDeposit,
          p.secondaryPool.accRoyaltiesPerDeposit +
            (p.reserveToken.balanceOf p.address * p.valuationMultiple
              * (s / (s + p.totalShares))) / p.secondaryPool.totalDeposits) := by
  unfold buyShares
  dsimp only
  unfold Outcome.andThen
  split
  · exact Or.inr rfl
  · exact Or.inl rfl

end CurationPool

/-! ## Lemmas: an admissible step lowers no accumulator -/

namespace JSNum

/-- The value of a finite non-negative accumulator stays non-negative, and
above every baseline below it, when a number that is not negative is added
and the sum is finite. -/
theorem ge_trans_of_isFinite {x y z : JSNum} (hx : isFinite x = true) (hy : isFinite y = true)
    (h₁ : ge y z = true) (h₂ : ge x y = true) : ge x z = true := by
  cases x with
  | fin a =>
    cases y with
    | fin b =>
      have hab : b ≤ a := by
        simp only [ge, lt, strictEq, Bool.or_eq_true, decide_eq_true_eq] at h₂
        rcases h₂ with h | h
        · exact h.le
        · have : a = b := by simpa using h
          exact this.ge
      cases z with
      | fin c =>
        have hbc : c ≤ b := by
          simp only [ge, lt, strictEq, Bool.or_eq_true, decide_eq_true_eq] at h₁
          rcases h₁ with h | h
          · exact h.le
          · have : b = c := by simpa using h
            exact this.ge
        have hac : c ≤ a := le_trans hbc hab
        rcases lt_or_eq_of_le hac with h | h
        · simp [ge, lt, h]
        · simp [ge, lt, strictEq, h]
      | posInf => simp [ge, lt, strictEq] at h₁
      | negInf => simp [ge, lt]
      | nan => simp [ge, lt, strictEq] at h₁
    | posInf => cases hy
    | negInf => cases hy
    | nan => cases hy
  | posInf => cases hx
  | negInf => cases hx
  | nan => cases hx

theorem isNonneg_of_ge {x y : JSNum} (hx : isFinite x = true) (hy : isNonneg y = true)
    (h : ge x y = true) : isNonneg x = true := by
  cases x with
  | fin a =>
    cases y with
    | fin b =>
      have hb : (0 : ℚ) ≤ b := by simpa [isNonneg] using hy
      simp only [ge, lt, strictEq, Bool.or_eq_true, decide_eq_true_eq] at h
      rcases h with h | h
      · simpa [isNonneg] using le_trans hb h.le
      · have : a = b := by simpa using h
        simpa [isNonneg, this] using hb
    | posInf => cases hy
    | negInf => cases hy
    | nan => cases hy
  | posInf => cases hx
  | negInf => cases hx
  | nan => cases hx

end JSNum

namespace CurationPool

theorem accumulatorsGe_of_eq {q p : CurationPool} (h : q.accumulators = p.accumulators)
    (h₁ : isFinite p.accRoyaltiesPerShare = true)
    (h₂ : isFinite p.secondaryPool.accSharesPerDeposit = true)
    (h₃ : isFinite p.secondaryPool.accRoyaltiesPerDeposit = true) :
    accumulatorsGe q p = true := by
  simp only [accumulators, Prod.mk.injEq] at h
  obtain ⟨e₁, e₂, e₃⟩ := h
  simp [accumulatorsGe, e₁, e₂, e₃, ge_self_of_isFinite h₁, ge_self_of_isFinite h₂,
    ge_self_of_isFinite h₃]

/-- In a well-formed state neither the projected supply nor the pending
issuance is negative. -/
theorem WellFormed.notNegative_totalShares {p : CurationPool} (h : p.WellFormed) :
    notNegative p.totalShares = true
    ∧ notNegative (p.totalShares - p.shareToken.totalSupply) = true :=
  notNegative_issuance h.supply h.supplyNumber
    (one_le_growth h.rate (sub_nonneg.mpr h.blocks))

/-- In a well-formed state the price of a non-negative number of shares is
not negative. -/
theorem WellFormed.notNegative_cost {p : CurationPool} (h : p.WellFormed) {s : JSNum}
    (hs : isNonneg s = true) :
    notNegative (p.reserveToken.balanceOf p.address * p.valuationMultiple
      * (s / (s + p.totalShares))) = true :=
  notNegative_mul
    (notNegative_mul (h.reserve p.address) (notNegative_of_isNonneg h.multiple))
    (notNegative_div (notNegative_of_isNonneg hs)
      (notNegative_add (notNegative_of_isNonneg hs) h.notNegative_totalShares.1))

/-- An admissible step from a well-formed state with a finite
`accSharesPerDeposit` lowers no accumulator. -/
theorem WellFormed.step_ge {p : CurationPool} (h : p.WellFormed)
    (h₂ : isFinite p.secondaryPool.accSharesPerDeposit = true) (a : Action)
    (ha : p.admissible a = true) : accumulatorsGe (p.perform a).state p = true := by
  simp only [admissible, Bool.and_eq_true] at ha
  obtain ⟨⟨hcall, hS'⟩, hR'⟩ := ha
  have hts := h.notNegative_totalShares
  have h₁ := h.perShare
  have h₃ := h.accRoyalties
  -- the step of an issuance
  have hmint : ∀ q : CurationPool, JSNum.gt p.secondaryPool.totalDeposits (fin 0) = true →
      q.accumulators = p.mintShares.state.accumulators →
      isFinite q.secondaryPool.accSharesPerDeposit = true → accumulatorsGe q p = true := by
    intro q hT hq hfin
    rw [mintShares_accumulators] at hq
    simp only [accumulators, Prod.mk.injEq, hT, if_true] at hq
    obtain ⟨e₁, e₂, e₃⟩ := hq
    rw [e₂] at hfin
    have := ge_add_of_notNegative h₂
      (notNegative_div hts.2 (notNegative_of_gt_zero hT)) hfin
    simp [accumulatorsGe, e₁, e₂, e₃, ge_self_of_isFinite h₁, ge_self_of_isFinite h₃, this]
  cases a with
  | sleep blocks => exact accumulatorsGe_of_eq rfl h₁ h₂ h₃
  | deposit c x =>
    have hT : JSNum.gt p.secondaryPool.totalDeposits (fin 0) = true := by
      simp only [nonnegCall, Bool.and_eq_true] at hcall
      exact hcall.2
    rcases deposit_accumulators p c x with e | e
    · exact accumulatorsGe_of_eq e h₁ h₂ h₃
    · exact hmint _ hT e hS'
  | withdraw c x =>
    have hT : JSNum.gt p.secondaryPool.totalDeposits (fin 0) = true := by
      simp only [nonnegCall, Bool.and_eq_true] at hcall
      exact hcall.2
    rcases withdraw_accumulators p c x with e | e
    · exact accumulatorsGe_of_eq e h₁ h₂ h₃
    · exact hmint _ hT e hS'
  | claim c =>
    exact hmint _ hcall (claim_accumulators p c) hS'
  | buyShares c s =>
    simp only [nonnegCall, Bool.and_eq_true] at hcall
    obtain ⟨hs, hT⟩ := hcall
    rcases buyShares_accumulators p c s with e | e
    · exact accumulatorsGe_of_eq e h₁ h₂ h₃
    · have hq : ∀ q : CurationPool, q = (p.perform (Action.buyShares c s)).state →
          accumulatorsGe q p = true := by
        intro q hqe
        have e' := e
        rw [show (p.buyShares c s).state = q from hqe.symm] at e'
        have hfin : isFinite q.secondaryPool.accRoyaltiesPerDeposit = true := by
          rw [hqe]; exact hR'
        simp only [accumulators, Prod.mk.injEq] at e'
        obtain ⟨e₁, e₂, e₃⟩ := e'
        rw [e₃] at hfin
        have := ge_add_of_notNegative h₃
          (notNegative_div (h.notNegative_cost hs) (notNegative_of_gt_zero hT)) hfin
        simp [accumulatorsGe, e₁, e₂, e₃, ge_self_of_isFinite h₁, ge_self_of_isFinite h₂, this]
      exact hq _ rfl

end CurationPool

theorem simulate3_append (p : CurationPool) (pre : List Action) (a : Action) :
    simulate3 (pre ++ [a]) p = ((simulate3 pre p).perform a).state := by
  simp [simulate3, List.foldl_append]

/-! ## Lemmas: well-formed states are preserved -/

namespace JSNum

theorem ge_zero_of_isNonneg {x : JSNum} (h : isNonneg x = true) : ge x (fin 0) = true := by
  cases x with
  | fin a =>
    have ha : (0 : ℚ) ≤ a := by simpa [isNonneg] using h
    rcases lt_or_eq_of_le ha with h' | h'
    · simp [ge, lt, h']
    · simp [ge, lt, strictEq, ← h']
  | posInf => cases h
  | negInf => cases h
  | nan => cases h

end JSNum

namespace Token

theorem NotNegative.set {t : Token} (h : t.NotNegative) (k : Account) {v : JSNum}
    (hv : notNegative v = true) :
    Token.NotNegative { t with balances := t.balances.set k v } := by
  intro c
  by_cases hk : k = c
  · subst hk
    simp only [balanceOf, JSMap.get_set_self]
    exact notNegative_orZero hv
  · simp only [balanceOf, JSMap.get_set_of_ne _ _ hk]
    exact h c

/-- A transfer of an amount that is not negative keeps every balance from
being negative, whether it is executed, lowered to the sender's balance or
skipped. -/
theorem NotNegative.transfer {t : Token} (h : t.NotNegative) (from_ to_ : Account) {x : JSNum}
    (hx : notNegative x = true) : (t.transfer from_ to_ x).state.NotNegative := by
  simp only [Token.transfer, _preTransfer, _validateTransfer, _executeTransfer]
  by_cases hlt : JSNum.lt (t.balanceOf from_) x = true
  · by_cases he : JSNum.lt (x - t.balanceOf from_) epsilon = true
    · simp only [hlt, he, if_true]
      exact NotNegative.set (NotNegative.set h from_
        (notNegative_sub_of_not_lt (h from_) (h from_) (lt_self _))) to_
        (notNegative_add (h to_) (h from_))
    · simp only [hlt, he, if_true, if_false]
      exact h
  · simp only [hlt, if_false]
    exact NotNegative.set (NotNegative.set h from_
      (notNegative_sub_of_not_lt (h from_) hx (by simpa using hlt))) to_
      (notNegative_add (h to_) hx)

end Token

namespace Outcome

variable {σ : Type}

/-- A property of the state after `andThen`: it holds when the first call
throws and when the second call has run. -/
theorem andThen_state {P : σ → Prop} {r : Outcome σ} {f : σ → Outcome σ}
    (h₁ : P r.state) (h₂ : r.thrown = none → P (f r.state).state) :
    P (andThen r f).state := by
  unfold andThen
  cases hr : r.thrown with
  | none => exact h₂ hr
  | some e => exact h₁

end Outcome

namespace SecondaryPool

theorem snapshotOf_cases (p : CurationPool) (c : Account) :
    (∃ s, p.secondaryPool.snapshots.get c = some s ∧ snapshotOf p c = s)
    ∨ (snapshotOf p c
        = { deposit := p.depositOf c, accSharesPerDeposit := fin 0,
            accRoyaltiesPerDeposit := fin 0 })
    ∨ (snapshotOf p c
        = { deposit := fin 0,
            accSharesPerDeposit := p.secondaryPool.accSharesPerDeposit,
            accRoyaltiesPerDeposit := p.secondaryPool.accRoyaltiesPerDeposit }) := by
  unfold snapshotOf
  cases h : p.secondaryPool.snapshots.get c with
  | some s => exact Or.inl ⟨s, rfl, rfl⟩
  | none =>
    right
    dsimp only
    split
    · exact Or.inl rfl
    · exact Or.inr rfl

end SecondaryPool

namespace CurationPool

theorem WellFormed.shareToken {p : CurationPool} (h : p.WellFormed) (t : Token)
    (hs : notNegative t.totalSupply = true) (hn : isNumber t.totalSupply = true) :
    WellFormed { p with shareToken := t } :=
  ⟨h.rate, h.multiple, hs, hn, h.blocks, h.perShare, h.accRoyalties, h.accRoyaltiesSign,
    h.reserve, h.deposited, h.stored⟩

theorem WellFormed.shareTransfer {p : CurationPool} (h : p.WellFormed) (from_ to_ : Account)
    (x : JSNum) :
    WellFormed { p with shareToken := (p.shareToken.transfer from_ to_ x).state } :=
  h.shareToken _ (by rw [Token.transfer_totalSupply]; exact h.supply)
    (by rw [Token.transfer_totalSupply]; exact h.supplyNumber)

theorem WellFormed.reserveToken {p : CurationPool} (h : p.WellFormed) (t : Token)
    (ht : t.NotNegative) : WellFormed { p with reserveToken := t } :=
  ⟨h.rate, h.multiple, h.supply, h.supplyNumber, h.blocks, h.perShare, h.accRoyalties,
    h.accRoyaltiesSign, ht, h.deposited, h.stored⟩

theorem WellFormed.setDeposit {p : CurationPool} (h : p.WellFormed) (c : Account) {x : JSNum}
    (hx : notNegative x = true) : WellFormed { p with deposits := p.deposits.set c x } := by
  refine ⟨h.rate, h.multiple, h.supply, h.supplyNumber, h.blocks, h.perShare, h.accRoyalties,
    h.accRoyaltiesSign, h.reserve, ?_, h.stored⟩
  intro c'
  by_cases hc : c = c'
  · subst hc
    simp only [depositOf, JSMap.get_set_self]
    exact notNegative_orZero hx
  · simp only [depositOf, JSMap.get_set_of_ne _ _ hc]
    exact h.deposited c'

/-- Storing a snapshot with a deposit that is not negative and the current
royalty accumulator, whatever happens to `totalDeposits`. -/
theorem WellFormed.setSnapshot {p : CurationPool} (h : p.WellFormed) (c : Account) {d : JSNum}
    (hd : notNegative d = true) (T : JSNum) :
    WellFormed { p with secondaryPool := { p.secondaryPool with
      snapshots := p.secondaryPool.snapshots.set c
        { deposit := d,
          accSharesPerDeposit := p.secondaryPool.accSharesPerDeposit,
          accRoyaltiesPerDeposit := p.secondaryPool.accRoyaltiesPerDeposit },
      totalDeposits := T } } := by
  refine ⟨h.rate, h.multiple, h.supply, h.supplyNumber, h.blocks, h.perShare, h.accRoyalties,
    h.accRoyaltiesSign, h.reserve, h.deposited, ?_⟩
  intro c' s hs
  by_cases hc : c = c'
  · subst hc
    simp only [JSMap.get_set_self, Option.some.injEq] at hs
    subst hs
    exact ⟨hd, ge_self_of_isFinite h.accRoyalties⟩
  · simp only [JSMap.get_set_of_ne _ _ hc] at hs
    exact h.stored c' s hs

theorem WellFormed.sleep {p : CurationPool} (h : p.WellFormed) {n : ℤ} (hn : 0 ≤ n) :
    (p.sleep n).WellFormed :=
  ⟨h.rate, h.multiple, h.supply, h.supplyNumber,
    le_trans h.blocks (by simp [CurationPool.sleep, Chain.sleep, hn]),
    h.perShare, h.accRoyalties, h.accRoyaltiesSign, h.reserve, h.deposited, h.stored⟩

/-- In a well-formed state the snapshot that a settlement reads has a deposit
that is not negative and a royalty baseline that does not exceed the
accumulator. -/
theorem WellFormed.snapshotOf {p : CurationPool} (h : p.WellFormed) (c : Account) :
    notNegative (SecondaryPool.snapshotOf p c).deposit = true
    ∧ JSNum.ge p.secondaryPool.accRoyaltiesPerDeposit
        (SecondaryPool.snapshotOf p c).accRoyaltiesPerDeposit = true := by
  rcases SecondaryPool.snapshotOf_cases p c with ⟨s, hs, e⟩ | e | e
  · rw [e]
    exact h.stored c s hs
  · rw [e]
    exact ⟨h.deposited c, ge_zero_of_isNonneg h.accRoyaltiesSign⟩
  · rw [e]
    exact ⟨by simp [notNegative], ge_self_of_isFinite h.accRoyalties⟩

/-- The settlement keeps a well-formed state well-formed, also when one of its
transfers throws. -/
theorem WellFormed._claim {p : CurationPool} (h : p.WellFormed) (c : Account) :
    (SecondaryPool._claim p c).state.WellFormed := by
  obtain ⟨hd, hge⟩ := h.snapshotOf c
  have hroy : notNegative ((p.secondaryPool.accRoyaltiesPerDeposit
      - (SecondaryPool.snapshotOf p c).accRoyaltiesPerDeposit)
      * (SecondaryPool.snapshotOf p c).deposit) = true :=
    notNegative_mul (notNegative_sub_of_ge h.accRoyalties hge) hd
  unfold SecondaryPool._claim
  dsimp only
  generalize (p.secondaryPool.accSharesPerDeposit
    - (SecondaryPool.snapshotOf p c).accSharesPerDeposit)
    * (SecondaryPool.snapshotOf p c).deposit = X
  have h₁ := h.shareTransfer p.secondaryPool.address c X
  apply Outcome.andThen_state (P := CurationPool.WellFormed)
  · exact h₁
  · intro _
    dsimp only
    have h₂ := h₁.reserveToken _ (h.reserve.transfer p.secondaryPool.address c hroy)
    apply Outcome.andThen_state (P := CurationPool.WellFormed)
    · exact h₂
    · intro _
      exact h₂.setSnapshot c hd p.secondaryPool.totalDeposits

/-- Issuance in a well-formed state with `totalDeposits > 0` keeps the state
well-formed. -/
theorem WellFormed.mintShares {p : CurationPool} (h : p.WellFormed)
    (hT : JSNum.gt p.secondaryPool.totalDeposits (fin 0) = true) :
    p.mintShares.state.WellFormed := by
  rw [mintShares_eq p hT]
  exact ⟨h.rate, h.multiple,
    by
      show notNegative (p.shareToken.mint p.secondaryPool.address
        (p.totalShares - p.shareToken.totalSupply)).totalSupply = true
      rw [Token.totalSupply_mint]
      exact notNegative_add h.supply h.notNegative_totalShares.2,
    by
      show isNumber (p.shareToken.mint p.secondaryPool.address
        (p.totalShares - p.shareToken.totalSupply)).totalSupply = true
      rw [Token.totalSupply_mint]
      exact isNumber_add _ _,
    le_refl _, h.perShare, h.accRoyalties, h.accRoyaltiesSign, h.reserve, h.deposited, h.stored⟩

theorem WellFormed.claim {p : CurationPool} (h : p.WellFormed)
    (hT : JSNum.gt p.secondaryPool.totalDeposits (fin 0) = true) (c : Account) :
    (p.claim c).state.WellFormed := by
  rw [claim_eq_claim_mintShares]
  exact (h.mintShares hT)._claim c

/-- Registering the account's deposit with the secondary pool. -/
theorem WellFormed._updateDeposit {p : CurationPool} (h : p.WellFormed) (c : Account) :
    (SecondaryPool._updateDeposit p c (p.depositOf c)).WellFormed :=
  h.setSnapshot c (h.deposited c) _

theorem WellFormed.deposit {p : CurationPool} (h : p.WellFormed)
    (hT : JSNum.gt p.secondaryPool.totalDeposits (fin 0) = true) (c : Account) {x : JSNum}
    (hx : notNegative x = true) : (p.deposit c x).state.WellFormed := by
  unfold CurationPool.deposit
  split
  · exact h
  · have h₁ := h.claim hT c
    apply Outcome.andThen_state (P := CurationPool.WellFormed)
    · exact h₁
    · intro _
      dsimp only
      have h₂ := h₁.reserveToken _ (h₁.reserve.transfer c (p.claim c).state.address hx)
      apply Outcome.andThen_state (P := CurationPool.WellFormed)
      · exact h₂
      · intro _
        dsimp only
        have h₃ := h₂.setDeposit c (notNegative_add (h₂.deposited c) hx)
        exact h₃._updateDeposit c

theorem WellFormed.withdraw {p : CurationPool} (h : p.WellFormed)
    (hT : JSNum.gt p.secondaryPool.totalDeposits (fin 0) = true) (c : Account) {x : JSNum}
    (hx : notNegative x = true) : (p.withdraw c x).state.WellFormed := by
  unfold CurationPool.withdraw
  split
  · exact h
  · rename_i hlt
    have h₁ := h.setDeposit c
      (notNegative_sub_of_not_lt (h.deposited c) hx (by simpa using hlt))
    have h₂ := h₁.reserveToken _ (h.reserve.transfer p.address c hx)
    dsimp only
    apply Outcome.andThen_state (P := CurationPool.WellFormed)
    · exact h₂
    · intro _
      dsimp only
      have h₃ := h₂.claim hT c
      apply Outcome.andThen_state (P := CurationPool.WellFormed)
      · exact h₃
      · intro _
        exact h₃._updateDeposit c

/-- Crediting royalties that are not negative while `totalDeposits > 0`, when
the accumulator stays finite. -/
theorem WellFormed._distributeRoyalties {p : CurationPool} (h : p.WellFormed)
    (hT : JSNum.gt p.secondaryPool.totalDeposits (fin 0) = true) {cost : JSNum}
    (hc : notNegative cost = true)
    (hfin : isFinite (p.secondaryPool.accRoyaltiesPerDeposit
      + cost / p.secondaryPool.totalDeposits) = true) :
    (SecondaryPool._distributeRoyalties p cost).WellFormed := by
  have hge := ge_add_of_notNegative h.accRoyalties
    (notNegative_div hc (notNegative_of_gt_zero hT)) hfin
  refine ⟨h.rate, h.multiple, h.supply, h.supplyNumber, h.blocks, h.perShare, hfin,
    isNonneg_of_ge hfin h.accRoyaltiesSign hge, h.reserve, h.deposited, ?_⟩
  intro c' s hs
  obtain ⟨hd, hb⟩ := h.stored c' s hs
  exact ⟨hd, ge_trans_of_isFinite hfin h.accRoyalties hb hge⟩

theorem WellFormed.buyShares {p : CurationPool} (h : p.WellFormed)
    (hT : JSNum.gt p.secondaryPool.totalDeposits (fin 0) = true) (c : Account) {s : JSNum}
    (hs : isNonneg s = true)
    (hfin : isFinite (p.buyShares c s).state.secondaryPool.accRoyaltiesPerDeposit = true) :
    (p.buyShares c s).state.WellFormed := by
  have hcost := h.notNegative_cost hs
  unfold CurationPool.buyShares Outcome.andThen at hfin ⊢
  dsimp only at hfin ⊢
  have h₁ := h.reserveToken _ (h.reserve.transfer c p.secondaryPool.address hcost)
  cases hr : (p.reserveToken.transfer c p.secondaryPool.address
      (p.reserveToken.balanceOf p.address * p.valuationMultiple
        * (s / (s + p.totalShares)))).thrown with
  | none =>
    simp only [hr] at hfin ⊢
    have h₂ := h₁._distributeRoyalties hT hcost hfin
    exact h₂.shareToken _
      (by rw [Token.totalSupply_mint]
          exact notNegative_add h.supply (notNegative_of_isNonneg hs))
      (by rw [Token.totalSupply_mint]; exact isNumber_add _ _)
  | some e =>
    simp only [hr]
    exact h₁

/-- One admissible action keeps the state well-formed. -/
theorem WellFormed.perform {p : CurationPool} (h : p.WellFormed) (a : Action)
    (ha : p.admissible a = true) : (p.perform a).state.WellFormed := by
  simp only [admissible, Bool.and_eq_true] at ha
  obtain ⟨⟨hcall, _⟩, hR'⟩ := ha
  cases a with
  | sleep n =>
    have hn : 0 ≤ n := by simpa [nonnegCall] using hcall
    exact h.sleep hn
  | deposit c amount =>
    simp only [nonnegCall, Bool.and_eq_true] at hcall
    exact h.deposit hcall.2 c (notNegative_of_isNonneg hcall.1)
  | withdraw c amount =>
    simp only [nonnegCall, Bool.and_eq_true] at hcall
    exact h.withdraw hcall.2 c (notNegative_of_isNonneg hcall.1)
  | claim c => exact h.claim hcall c
  | buyShares c shares =>
    simp only [nonnegCall, Bool.and_eq_true] at hcall
    exact h.buyShares hcall.2 c hcall.1 hR'

theorem admissibleRun_append (p : CurationPool) (pre : List Action) (a : Action)
    (hrun : p.admissibleRun (pre ++ [a]) = true) :
    p.admissibleRun pre = true ∧ (simulate3 pre p).admissible a = true := by
  induction pre generalizing p with
  | nil => simpa [admissibleRun, simulate3] using hrun
  | cons b rest ih =>
    simp only [List.cons_append, admissibleRun, Bool.and_eq_true] at hrun ⊢
    obtain ⟨h₁, h₂⟩ := ih _ hrun.2
    exact ⟨⟨hrun.1, h₁⟩, h₂⟩

/-- An admissible run keeps the state well-formed and `accSharesPerDeposit`
finite. -/
theorem WellFormed.simulate3 {p : CurationPool} (h : p.WellFormed)
    (h₂ : isFinite p.secondaryPool.accSharesPerDeposit = true)
    (actions : List Action) (hrun : p.admissibleRun actions = true) :
    (CurationSim.simulate3 actions p).WellFormed
    ∧ isFinite (CurationSim.simulate3 actions p).secondaryPool.accSharesPerDeposit = true := by
  induction actions generalizing p with
  | nil => exact ⟨h, h₂⟩
  | cons a rest ih =>
    simp only [admissibleRun, Bool.and_eq_true] at hrun
    have ha := hrun.1
    simp only [admissible, Bool.and_eq_true] at ha
    exact ih (h.perform a hrun.1) ha.1.2 hrun.2

end CurationPool

/-! ## Lemmas: a constructed pool is well-formed -/

namespace JSMap

theorem forall_set {β : Type} {P : β → Prop} (m : JSMap β) (k : Account) (v : β)
    (hm : ∀ e ∈ JSMap.entries m, P e.2) (hv : P v) :
    ∀ e ∈ JSMap.entries (set m k v), P e.2 := by
  induction m with
  | nil =>
    intro e he
    simp only [entries, set, List.mem_singleton] at he
    subst he
    exact hv
  | cons e₀ rest ih =>
    obtain ⟨k₀, v₀⟩ := e₀
    intro e he
    by_cases hk : k₀ = k
    · simp only [entries, set, hk, if_true, List.mem_cons] at he
      rcases he with rfl | he
      · exact hv
      · exact hm e (List.mem_cons_of_mem _ he)
    · simp only [entries, set, hk, if_false, List.mem_cons] at he
      rcases he with rfl | he
      · exact hm _ (List.mem_cons_self _ _)
      · exact ih (fun e' he' => hm e' (List.mem_cons_of_mem _ he')) e he

theorem forall_ofEntries {β : Type} {P : β → Prop} (entries : List (Account × β))
    (h : ∀ e ∈ entries, P e.2) :
    ∀ e ∈ JSMap.entries (ofEntries entries), P e.2 := by
  have aux : ∀ (l : List (Account × β)) (m : JSMap β),
      (∀ e ∈ l, P e.2) → (∀ e ∈ JSMap.entries m, P e.2) →
      ∀ e ∈ JSMap.entries (l.foldl (fun m e => set m e.1 e.2) m), P e.2 := by
    intro l
    induction l with
    | nil => intro m _ hm; exact hm
    | cons x rest ih =>
      intro m hl hm
      exact ih (set m x.1 x.2) (fun e he => hl e (List.mem_cons_of_mem _ he))
        (forall_set m x.1 x.2 hm (hl x (List.mem_cons_self _ _)))
  exact aux entries empty h (fun e he => by simp [JSMap.entries, empty] at he)

theorem notNegative_orZero_get (m : JSMap JSNum)
    (h : ∀ e ∈ JSMap.entries m, isNonneg e.2 = true) (c : Account) :
    notNegative (orZero (get m c)) = true := by
  induction m with
  | nil => simp [get, notNegative]
  | cons e₀ rest ih =>
    obtain ⟨k₀, v₀⟩ := e₀
    by_cases hk : k₀ = c
    · simp only [get, hk, if_true]
      exact notNegative_orZero
        (notNegative_of_isNonneg (h (k₀, v₀) (List.mem_cons_self _ _)))
    · simp only [get, hk, if_false]
      exact ih (fun e he => h e (List.mem_cons_of_mem _ he))

end JSMap

namespace Token

theorem _computeTotalSupply_notNegative (m : JSMap JSNum)
    (h : ∀ e ∈ JSMap.entries m, isNonneg e.2 = true) :
    notNegative (_computeTotalSupply m) = true ∧ isNumber (_computeTotalSupply m) = true := by
  have aux : ∀ (l : List (Account × JSNum)) (a : JSNum), notNegative a = true →
      isNumber a = true → (∀ e ∈ l, isNonneg e.2 = true) →
      notNegative ((List.map Prod.snd l).foldl (fun acc value => acc + value) a) = true
      ∧ isNumber ((List.map Prod.snd l).foldl (fun acc value => acc + value) a) = true := by
    intro l
    induction l with
    | nil => intro a ha hn _; exact ⟨ha, hn⟩
    | cons x rest ih =>
      intro a ha _ hl
      simp only [List.map_cons, List.foldl_cons]
      exact ih (a + x.2)
        (notNegative_add ha (notNegative_of_isNonneg (hl x (List.mem_cons_self _ _))))
        (isNumber_add _ _) (fun e he => hl e (List.mem_cons_of_mem _ he))
  exact aux m (fin 0) (by simp [notNegative]) (by simp [isNumber]) h

theorem notNegative_of_forall (t : Token)
    (h : ∀ e ∈ JSMap.entries t.balances, isNonneg e.2 = true) : t.NotNegative :=
  fun c => JSMap.notNegative_orZero_get t.balances h c

end Token

namespace CurationPool

/-- A pool constructed from finite non-negative data is well-formed, and its
`accSharesPerDeposit` is 0. -/
theorem new_wellFormed {address : Account}
    {initialShareBalances initialDeposits : List (Account × JSNum)} {chain : Chain}
    {reserveToken : Token} {issuanceRate valuationMultiple : JSNum} {p : CurationPool}
    (hnew : CurationPool.new address initialShareBalances initialDeposits chain reserveToken
      issuanceRate valuationMultiple = Except.ok p)
    (hr : isNonneg issuanceRate = true) (hv : isNonneg valuationMultiple = true)
    (hshares : ∀ e ∈ initialShareBalances, isNonneg e.2 = true)
    (hdeps : ∀ e ∈ initialDeposits, isNonneg e.2 = true)
    (hres : ∀ e ∈ JSMap.entries reserveToken.balances, isNonneg e.2 = true) :
    p.WellFormed ∧ isFinite p.secondaryPool.accSharesPerDeposit = true := by
  unfold CurationPool.new at hnew
  split at hnew
  · cases hnew
  · injection hnew with hp
    subst hp
    have hsup := Token._computeTotalSupply_notNegative (JSMap.ofEntries initialShareBalances)
      (JSMap.forall_ofEntries (P := fun x => isNonneg x = true) initialShareBalances hshares)
    exact ⟨
      { rate := hr
        multiple := hv
        supply := hsup.1
        supplyNumber := hsup.2
        blocks := le_refl _
        perShare := by simp [isFinite]
        accRoyalties := by simp [isFinite, SecondaryPool.new]
        accRoyaltiesSign := by simp [isNonneg, SecondaryPool.new]
        reserve := Token.notNegative_of_forall _ hres
        deposited := JSMap.notNegative_orZero_get (JSMap.ofEntries initialDeposits)
          (JSMap.forall_ofEntries (P := fun x => isNonneg x = true) initialDeposits hdeps)
        stored := fun c s hs => by simp [SecondaryPool.new, JSMap.empty, JSMap.get] at hs },
      by simp [isFinite, SecondaryPool.new]⟩

end CurationPool

/-! ## Lemmas: issuance without rounding -/

namespace JSNum

/-- The growth factor is the exact power when `1 + r` and the power are
doubles. -/
theorem growth_exact {r : ℚ} {e : ℤ} (he : 0 ≤ e) (h₁ : isDouble (1 + r) = true)
    (h₂ : isDouble ((1 + r) ^ e) = true) : pow (fin 1 + fin r) e = fin ((1 + r) ^ e) := by
  rw [fin_add_fin, (isDouble_iff _).mp h₁]
  rcases lt_or_eq_of_le he with h | h
  · rw [pow_fin_of_pos _ h, (isDouble_iff _).mp h₂]
  · rw [← h, pow_zero, zpow_zero]

theorem fin_pos_of_gt {T : JSNum} {t : ℚ} (hT : gt T (fin 0) = true) (h : T = fin t) : 0 < t := by
  rw [h] at hT
  simpa [gt, lt] using hT

end JSNum

namespace CurationPool

/-- The getter `totalShares` reads the exact product when no operation in it
rounds. -/
theorem totalShares_exact {p : CurationPool} {s r : ℚ}
    (hS : p.shareToken.totalSupply = fin s) (hr : p.issuanceRate = fin r)
    (he : p.lastMintedBlock ≤ p.chain.blockHeight)
    (h₁ : isDouble (1 + r) = true)
    (h₂ : isDouble ((1 + r) ^ (p.chain.blockHeight - p.lastMintedBlock)) = true)
    (h₃ : isDouble (s * (1 + r) ^ (p.chain.blockHeight - p.lastMintedBlock)) = true) :
    p.totalShares = fin (s * (1 + r) ^ (p.chain.blockHeight - p.lastMintedBlock)) := by
  unfold totalShares
  rw [hS, hr, growth_exact (sub_nonneg.mpr he) h₁ h₂, fin_mul_fin, (isDouble_iff _).mp h₃]

/-- Issuance when no operation of the supply computation rounds: the minted
amount is `s * g - s` and the new supply is `s * g`, with
`g = (1 + r) ^ elapsed`. -/
theorem mintShares_exact {p : CurationPool} {s r : ℚ}
    (hT : JSNum.gt p.secondaryPool.totalDeposits (fin 0) = true)
    (hS : p.shareToken.totalSupply = fin s) (hr : p.issuanceRate = fin r)
    (he : p.lastMintedBlock ≤ p.chain.blockHeight)
    (h₁ : isDouble (1 + r) = true)
    (h₂ : isDouble ((1 + r) ^ (p.chain.blockHeight - p.lastMintedBlock)) = true)
    (h₃ : isDouble (s * (1 + r) ^ (p.chain.blockHeight - p.lastMintedBlock)) = true)
    (h₄ : isDouble (s * (1 + r) ^ (p.chain.blockHeight - p.lastMintedBlock) - s) = true) :
    p.totalShares - p.shareToken.totalSupply
        = fin (s * (1 + r) ^ (p.chain.blockHeight - p.lastMintedBlock) - s)
    ∧ p.mintShares.state.shareToken.totalSupply
        = fin (s * (1 + r) ^ (p.chain.blockHeight - p.lastMintedBlock))
    ∧ p.mintShares.state.shareToken.balanceOf p.secondaryPool.address
        = orZero (some (p.shareToken.balanceOf p.secondaryPool.address
            + fin (s * (1 + r) ^ (p.chain.blockHeight - p.lastMintedBlock) - s)))
    ∧ p.mintShares.state.secondaryPool.accSharesPerDeposit
        = p.secondaryPool.accSharesPerDeposit
          + fin (s * (1 + r) ^ (p.chain.blockHeight - p.lastMintedBlock) - s)
            / p.secondaryPool.totalDeposits := by
  have hm : p.totalShares - p.shareToken.totalSupply
      = fin (s * (1 + r) ^ (p.chain.blockHeight - p.lastMintedBlock) - s) := by
    rw [totalShares_exact hS hr he h₁ h₂ h₃, hS, fin_sub_fin, (isDouble_iff _).mp h₄]
  refine ⟨hm, ?_, ?_, ?_⟩
  · rw [mintShares_eq p hT, hm]
    show p.shareToken.totalSupply + _ = _
    rw [hS, fin_add_fin]
    have : s + (s * (1 + r) ^ (p.chain.blockHeight - p.lastMintedBlock) - s)
        = s * (1 + r) ^ (p.chain.blockHeight - p.lastMintedBlock) := by ring
    rw [this, (isDouble_iff _).mp h₃]
  · rw [mintShares_eq p hT, hm]
    simp [Outcome.ok, Token.balanceOf_mint]
  · rw [mintShares_eq p hT, hm]
    rfl

/-- Issuance when neither the supply computation nor the quotient by
`totalDeposits` rounds: the three quantities that `mintShares()` writes. -/
theorem mintShares_exact_values {p : CurationPool} {s r t a b : ℚ}
    (hT : JSNum.gt p.secondaryPool.totalDeposits (fin 0) = true)
    (hS : p.shareToken.totalSupply = fin s) (hr : p.issuanceRate = fin r)
    (ht : p.secondaryPool.totalDeposits = fin t)
    (ha : p.secondaryPool.accSharesPerDeposit = fin a)
    (hb : p.shareToken.balanceOf p.secondaryPool.address = fin b)
    (he : p.lastMintedBlock ≤ p.chain.blockHeight)
    (h₁ : isDouble (1 + r) = true)
    (h₂ : isDouble ((1 + r) ^ (p.chain.blockHeight - p.lastMintedBlock)) = true)
    (h₃ : isDouble (s * (1 + r) ^ (p.chain.blockHeight - p.lastMintedBlock)) = true)
    (h₄ : isDouble (s * (1 + r) ^ (p.chain.blockHeight - p.lastMintedBlock) - s) = true)
    (h₅ : isDouble ((s * (1 + r) ^ (p.chain.blockHeight - p.lastMintedBlock) - s) / t) = true) :
    p.mintShares.state.shareToken.totalSupply
        = fin (s * (1 + r) ^ (p.chain.blockHeight - p.lastMintedBlock))
    ∧ p.mintShares.state.shareToken.balanceOf p.secondaryPool.address
        = ofRat (b + (s * (1 + r) ^ (p.chain.blockHeight - p.lastMintedBlock) - s))
    ∧ p.mintShares.state.secondaryPool.accSharesPerDeposit
        = ofRat (a + (s * (1 + r) ^ (p.chain.blockHeight - p.lastMintedBlock) - s) / t) := by
  obtain ⟨_, e₁, e₂, e₃⟩ := mintShares_exact hT hS hr he h₁ h₂ h₃ h₄
  have ht0 : t ≠ 0 := ne_of_gt (fin_pos_of_gt hT ht)
  refine ⟨e₁, ?_, ?_⟩
  · rw [e₂, hb, fin_add_fin, orZero_some_ofRat]
  · rw [e₃, ha, ht, fin_div_fin _ ht0, (isDouble_iff _).mp h₅, fin_add_fin]

end CurationPool

/-! ## The constructed scenarios -/

set_option maxRecDepth 100000

theorem scenario_1_eq : scenario_1 = Except.ok scenario_1_pool := by
  decide!

theorem emptyPool_eq : emptyPool = Except.ok emptyPool_pool := by
  decide!

theorem sharelessPool_eq : sharelessPool = Except.ok sharelessPool_pool := by
  decide!

theorem duplicatePool_eq : duplicatePool = Except.ok duplicatePool_pool := by
  decide!

theorem doublingPool_eq : doublingPool = Except.ok doublingPool_pool := by
  decide!

theorem fractionalPool_eq : fractionalPool = Except.ok fractionalPool_pool := by
  decide!

theorem genesisPool_eq : genesisPool = Except.ok genesisPool_pool := by
  decide!

theorem decimalPool_eq : decimalPool = Except.ok decimalPool_pool := by
  decide!

theorem largePool_eq : largePool = Except.ok largePool_pool := by
  decide!

/-- The tolerance is the double `2 ^ (-72) * 4722366482869645`, which is below
`1 / 1000000`. -/
theorem epsilon_eq : epsilon = fin (4722366482869645 / 4722366482869645213696) := by
  decide!

/-- A shortfall of `1 / 1000000` or more is not below the tolerance once it is
rounded. -/
theorem JSNum.not_lt_epsilon {q : ℚ} (h : 1 / 1000000 ≤ q) :
    JSNum.lt (ofRat q) epsilon = false := by
  have he : ofRat (1 / 1000000) = fin (4722366482869645 / 4722366482869645213696) := epsilon_eq
  rw [epsilon_eq]
  rcases ofRat_cases q with h' | h' | h'
  · rw [h'.1]; rfl
  · exact absurd h'.1 (ofRat_ne_negInf (le_trans (by norm_num) h))
  · have := ofRat_mono h he h'.1
    rw [h'.1, lt_fin_fin]
    exact decide_eq_false (not_lt.mpr this)

/-! ## Claims C1 to C10 -/

/-- C1 (ledger conservation fails for a transfer to oneself): the ledger built
from `[curator1: 5]` has `sum(balances) == totalSupply`; the call
`transfer(curator1, curator1, 3)` returns normally, leaves `totalSupply` at 5
and sets the balance of `curator1` to 8, so the sum of the balances no longer
equals `totalSupply`. -/
theorem transfer_to_self_breaks_conservation :
    (Token.new [(Account.str "curator1", fin 5)]).conserved = true
    ∧ ((Token.new [(Account.str "curator1", fin 5)]).transfer
        (Account.str "curator1") (Account.str "curator1") (fin 3)).thrown = none
    ∧ ((Token.new [(Account.str "curator1", fin 5)]).transfer
        (Account.str "curator1") (Account.str "curator1") (fin 3)).state.totalSupply = fin 5
    ∧ ((Token.new [(Account.str "curator1", fin 5)]).transfer
        (Account.str "curator1") (Account.str "curator1") (fin 3)).state.balanceOf
          (Account.str "curator1") = fin 8
    ∧ ((Token.new [(Account.str "curator1", fin 5)]).transfer
        (Account.str "curator1") (Account.str "curator1") (fin 3)).state.conserved = false := by
  decide!

/-- C2 (a shortfall beyond the tolerance is not a silent skip): whenever the
amount exceeds the sender's balance by at least `0.000001`, `transfer` ends
with the `TypeError` thrown by `_executeTransfer`; the ledger is the one it
started with. -/
theorem transfer_shortfall_throws (t : Token) (from_ to_ : Account) (a x : ℚ)
    (hfrom : t.balanceOf from_ = fin a) (hx : 1 / 1000000 ≤ x - a) :
    t.transfer from_ to_ (fin x) = Outcome.throw t Err.typeError := by
  have h₁ : a < x := by linarith
  have h₂ : JSNum.lt (fin x - fin a) epsilon = false := by
    rw [fin_sub_fin]
    exact JSNum.not_lt_epsilon hx
  simp [Token.transfer, Token._preTransfer, Token._validateTransfer, Token._executeTransfer,
    hfrom, h₁, h₂]

/-- C2, at a concrete ledger: `curator1` holds 5 and is asked to send 7. -/
theorem transfer_shortfall_throws_witness :
    (Token.new [(Account.str "curator1", fin 5)]).balanceOf (Account.str "curator1") = fin 5
    ∧ (1 : ℚ) / 1000000 ≤ 7 - 5
    ∧ (Token.new [(Account.str "curator1", fin 5)]).transfer
        (Account.str "curator1") (Account.str "curator2") (fin 7)
      = Outcome.throw (Token.new [(Account.str "curator1", fin 5)]) Err.typeError :=
  ⟨by decide!, by norm_num,
    transfer_shortfall_throws _ _ _ 5 7 (by decide!) (by norm_num)⟩

/-- C3 (the shares minted into a pool without deposits are not burned): in the
pool without depositors, one block after construction, `mintShares()` mints
`1000 * 1.0001 - 1000`, which is `0.10000000000002274` in doubles, to the
secondary pool and `_distributeShares` calls `burn(shares)`; the call returns
normally, `totalSupply` is NaN instead of the 1000 it was, the secondary pool
still holds the minted shares, and the entry that the burn wrote is keyed by
the number `0.10000000000002274`. -/
theorem mintShares_without_deposits_corrupts_supply :
    emptyPool_pool.shareToken.totalSupply = fin 1000
    ∧ emptyPool_pool.shareToken.balanceOf (Account.str "secondaryPool") = fin 0
    ∧ emptyPool_pool.secondaryPool.totalDeposits = fin 0
    ∧ (emptyPool_pool.sleep 1).mintShares.thrown = none
    ∧ (emptyPool_pool.sleep 1).mintShares.state.shareToken.totalSupply = nan
    ∧ (emptyPool_pool.sleep 1).mintShares.state.shareToken.balanceOf
        (Account.str "secondaryPool") = ofRat 0.10000000000002274
    ∧ (emptyPool_pool.sleep 1).mintShares.state.shareToken.balances.get
        (Account.num (ofRat 0.10000000000002274)) = some nan := by
  decide!

/-- C4 (a withdrawal by a depositor without a stored snapshot settles against
the reduced deposit): in scenario 1, one block after construction, `curator1`
has deposit 500 and no snapshot; `withdraw(curator1, 200)` returns normally
with `accSharesPerDeposit = 0.00020000000000004546` (the minted
`0.10000000000002274` over 500), and the settlement pays `curator1` that
accumulator times 300, which leaves it with `1000.0600000000001` shares, not
the accumulator times 500, which would leave it with `1000.1`. -/
theorem withdraw_settles_against_reduced_deposit :
    scenario_1_pool.depositOf (Account.str "curator1") = fin 500
    ∧ scenario_1_pool.secondaryPool.snapshots.get (Account.str "curator1") = none
    ∧ scenario_1_pool.shareToken.balanceOf (Account.str "curator1") = fin 1000
    ∧ ((scenario_1_pool.sleep 1).withdraw (Account.str "curator1") (fin 200)).thrown = none
    ∧ ((scenario_1_pool.sleep 1).withdraw (Account.str "curator1")
        (fin 200)).state.secondaryPool.accSharesPerDeposit = ofRat 0.00020000000000004546
    ∧ ((scenario_1_pool.sleep 1).withdraw (Account.str "curator1")
        (fin 200)).state.shareToken.balanceOf (Account.str "curator1")
        = fin 1000 + ofRat 0.00020000000000004546 * fin 300
    ∧ ((scenario_1_pool.sleep 1).withdraw (Account.str "curator1")
        (fin 200)).state.shareToken.balanceOf (Account.str "curator1")
        = ofRat 1000.0600000000001
    ∧ ((scenario_1_pool.sleep 1).withdraw (Account.str "curator1")
        (fin 200)).state.shareToken.balanceOf (Account.str "curator1")
        ≠ fin 1000 + ofRat 0.00020000000000004546 * fin 500 := by
  decide!

/-- C5 (`totalDeposits` stops mirroring the deposits): in scenario 1
`totalDeposits` is 500, the sum of the deposits; after `curator1`, who has no
stored snapshot, withdraws 200, its deposit is 300, the other deposit is 0, the
pool's reserve balance is 300, and `totalDeposits` is still 500. -/
theorem withdraw_leaves_totalDeposits_unchanged :
    scenario_1_pool.secondaryPool.totalDeposits = fin 500
    ∧ scenario_1_pool.depositOf (Account.str "curator1") = fin 500
    ∧ scenario_1_pool.depositOf (Account.str "curator2") = fin 0
    ∧ (scenario_1_pool.withdraw (Account.str "curator1") (fin 200)).thrown = none
    ∧ (scenario_1_pool.withdraw (Account.str "curator1") (fin 200)).state.depositOf
        (Account.str "curator1") = fin 300
    ∧ (scenario_1_pool.withdraw (Account.str "curator1") (fin 200)).state.depositOf
        (Account.str "curator2") = fin 0
    ∧ (scenario_1_pool.withdraw (Account.str "curator1") (fin 200)).state.deposits.length = 2
    ∧ (scenario_1_pool.withdraw (Account.str "curator1") (fin 200)).state.reserveToken.balanceOf
        (Account.str "curationPool") = fin 300
    ∧ (scenario_1_pool.withdraw (Account.str "curator1")
        (fin 200)).state.secondaryPool.totalDeposits = fin 500 := by
  decide!

/-- C6 (a deposit settles against the registered deposit, not the account's
deposit).  In scenario 1 let `curator1` claim, let the pool's own address buy
1000 shares for 250 reserve, and let `withdraw(curator1, 500)` fail: it
throws the `TypeError` after writing the deposit of `curator1` down to 0,
while the snapshot of `curator1` still registers 500.  Then
`deposit(curator1, 0)` returns normally: before the call the deposit of
`curator1` is 0, `accRoyaltiesPerDeposit` is `0.5` and the baseline of its
snapshot is 0, so `(0.5 - 0) * 0 = 0` royalties are due; the call pays
`curator1` 250 reserve, which is `(0.5 - 0) * 500`. -/
theorem deposit_settles_against_registered_deposit :
    ((simulate3 [Action.claim (Account.str "curator1"),
        Action.buyShares (Account.str "curationPool") (fin 1000)] scenario_1_pool).withdraw
        (Account.str "curator1") (fin 500)).thrown = some Err.typeError
    ∧ (simulate3 [Action.claim (Account.str "curator1"),
        Action.buyShares (Account.str "curationPool") (fin 1000),
        Action.withdraw (Account.str "curator1") (fin 500)] scenario_1_pool).depositOf
        (Account.str "curator1") = fin 0
    ∧ (SecondaryPool.snapshotOf (simulate3 [Action.claim (Account.str "curator1"),
        Action.buyShares (Account.str "curationPool") (fin 1000),
        Action.withdraw (Account.str "curator1") (fin 500)] scenario_1_pool)
        (Account.str "curator1")) = ⟨fin 500, fin 0, fin 0⟩
    ∧ (simulate3 [Action.claim (Account.str "curator1"),
        Action.buyShares (Account.str "curationPool") (fin 1000),
        Action.withdraw (Account.str "curator1") (fin 500)]
        scenario_1_pool).secondaryPool.accRoyaltiesPerDeposit = fin (1 / 2)
    ∧ (simulate3 [Action.claim (Account.str "curator1"),
        Action.buyShares (Account.str "curationPool") (fin 1000),
        Action.withdraw (Account.str "curator1") (fin 500)] scenario_1_pool).reserveToken.balanceOf
        (Account.str "curator1") = fin 0
    ∧ ((simulate3 [Action.claim (Account.str "curator1"),
        Action.buyShares (Account.str "curationPool") (fin 1000),
        Action.withdraw (Account.str "curator1") (fin 500)] scenario_1_pool).deposit
        (Account.str "curator1") (fin 0)).thrown = none
    ∧ ((simulate3 [Action.claim (Account.str "curator1"),
        Action.buyShares (Account.str "curationPool") (fin 1000),
        Action.withdraw (Account.str "curator1") (fin 500)] scenario_1_pool).deposit
        (Account.str "curator1") (fin 0)).state.reserveToken.balanceOf
        (Account.str "curator1") = fin 250 := by
  decide!

/-- C7 (the first claim of a genesis depositor can throw).  In the pool with
the single genesis depositor `curator1` (deposit 7, no stored snapshot,
`totalDeposits = 7`, `1000.1` shares, rate 1), 29 blocks after construction,
the issuance of `claim(curator1)` mints `536924598091.10004` shares to the
secondary pool and sets `accSharesPerDeposit` to `76703514013.0143`; the
payout `7 * 76703514013.0143` is `536924598091.1001` in doubles, which exceeds
what the secondary pool holds by more than the tolerance.  The claim throws
the `TypeError` of the skipped transfer and `curator1` receives nothing. -/
theorem genesis_first_claim_throws :
    genesisPool = Except.ok genesisPool_pool
    ∧ genesisPool_pool.depositOf (Account.str "curator1") = fin 7
    ∧ genesisPool_pool.secondaryPool.snapshots.get (Account.str "curator1") = none
    ∧ genesisPool_pool.secondaryPool.totalDeposits = fin 7
    ∧ (genesisPool_pool.sleep 29).mintShares.state.shareToken.balanceOf
        (Account.str "secondaryPool") = ofRat 536924598091.10004
    ∧ (genesisPool_pool.sleep 29).mintShares.state.secondaryPool.accSharesPerDeposit
        = ofRat 76703514013.0143
    ∧ fin 7 * ofRat 76703514013.0143 = ofRat 536924598091.1001
    ∧ JSNum.lt (ofRat 536924598091.10004) (ofRat 536924598091.1001) = true
    ∧ JSNum.lt (ofRat 536924598091.1001 - ofRat 536924598091.10004) epsilon = false
    ∧ ((genesisPool_pool.sleep 29).claim (Account.str "curator1")).thrown = some Err.typeError
    ∧ ((genesisPool_pool.sleep 29).claim (Account.str "curator1")).state.shareToken.balanceOf
        (Account.str "curator1") = genesisPool_pool.shareToken.balanceOf (Account.str "curator1") :=
  ⟨genesisPool_eq, by decide!⟩

/-- C8 (a claim by an account without deposit can wipe its reserve balance).
In the pool without depositors `buyShares(curator1, 10)` returns normally and
leaves `accRoyaltiesPerDeposit = NaN`.  Then `curator1`, which has deposit 0,
no stored snapshot and a reserve balance of 1000, calls `claim`: the call
returns normally, its royalty transfer has the amount `(NaN - NaN) * 0 = NaN`
and is executed, the stored reserve balance of `curator1` becomes NaN and its
reserve balance reads 0. -/
theorem newcomer_claim_wipes_reserve_balance :
    (emptyPool_pool.buyShares (Account.str "curator1") (fin 10)).thrown = none
    ∧ (emptyPool_pool.buyShares (Account.str "curator1")
        (fin 10)).state.secondaryPool.accRoyaltiesPerDeposit = nan
    ∧ (emptyPool_pool.buyShares (Account.str "curator1")
        (fin 10)).state.depositOf (Account.str "curator1") = fin 0
    ∧ (emptyPool_pool.buyShares (Account.str "curator1")
        (fin 10)).state.secondaryPool.snapshots.get (Account.str "curator1") = none
    ∧ (emptyPool_pool.buyShares (Account.str "curator1")
        (fin 10)).state.reserveToken.balanceOf (Account.str "curator1") = fin 1000
    ∧ ((emptyPool_pool.buyShares (Account.str "curator1")
        (fin 10)).state.claim (Account.str "curator1")).thrown = none
    ∧ ((emptyPool_pool.buyShares (Account.str "curator1")
        (fin 10)).state.claim (Account.str "curator1")).state.reserveToken.balances.get
        (Account.str "curator1") = some nan
    ∧ ((emptyPool_pool.buyShares (Account.str "curator1")
        (fin 10)).state.claim (Account.str "curator1")).state.reserveToken.balanceOf
        (Account.str "curator1") = fin 0 := by
  decide!

/-- C9 (a second claim is not a no-op in a pool without deposits): in the pool
without depositors, one block after construction, `claim(curator1)` returns
normally and leaves the `0.10000000000002274` shares it minted with the
secondary pool; a second `claim(curator1)` at the same block height returns
normally and the secondary pool's share balance reads 0. -/
theorem second_claim_changes_share_balance :
    ((emptyPool_pool.sleep 1).claim (Account.str "curator1")).thrown = none
    ∧ ((emptyPool_pool.sleep 1).claim (Account.str "curator1")).state.shareToken.balanceOf
        (Account.str "secondaryPool") = ofRat 0.10000000000002274
    ∧ (((emptyPool_pool.sleep 1).claim (Account.str "curator1")).state.claim
        (Account.str "curator1")).thrown = none
    ∧ (((emptyPool_pool.sleep 1).claim (Account.str "curator1")).state.claim
        (Account.str "curator1")).state.chain.blockHeight
        = ((emptyPool_pool.sleep 1).claim (Account.str "curator1")).state.chain.blockHeight
    ∧ (((emptyPool_pool.sleep 1).claim (Account.str "curator1")).state.claim
        (Account.str "curator1")).state.shareToken.balanceOf
        (Account.str "secondaryPool") = fin 0 := by
  decide!

/-- C10 as stated fails.  From the pool of scenario 1, the single step
`buyShares(curator2, -500)` returns normally and lowers
`accRoyaltiesPerDeposit` from 0 to -1; after `chain.sleep(-1)` the step
`claim(curator1)` returns normally and lowers `accSharesPerDeposit` from 0 to
a negative value.  It also fails with non-negative arguments: in scenario 1
with `issuanceRate: 1`, after `chain.sleep(1100)` the step `claim(curator1)`
raises `accSharesPerDeposit` to `Infinity`, and the next `claim(curator1)`
returns normally and leaves it NaN, which is not `>=` any number. -/
theorem accumulators_decrease :
    scenario_1 = Except.ok scenario_1_pool
    ∧ (scenario_1_pool.perform (Action.buyShares (Account.str "curator2") (fin (-500)))).thrown
        = none
    ∧ scenario_1_pool.secondaryPool.accRoyaltiesPerDeposit = fin 0
    ∧ (scenario_1_pool.perform (Action.buyShares (Account.str "curator2")
        (fin (-500)))).state.secondaryPool.accRoyaltiesPerDeposit = fin (-1)
    ∧ CurationPool.accumulatorsGe
        (simulate3 [Action.buyShares (Account.str "curator2") (fin (-500))] scenario_1_pool)
        scenario_1_pool = false
    ∧ ((simulate3 [Action.sleep (-1)] scenario_1_pool).perform
        (Action.claim (Account.str "curator1"))).thrown = none
    ∧ (simulate3 [Action.sleep (-1)] scenario_1_pool).secondaryPool.accSharesPerDeposit = fin 0
    ∧ JSNum.lt (simulate3 [Action.sleep (-1), Action.claim (Account.str "curator1")]
        scenario_1_pool).secondaryPool.accSharesPerDeposit (fin 0) = true
    ∧ CurationPool.accumulatorsGe
        (simulate3 [Action.sleep (-1), Action.claim (Account.str "curator1")] scenario_1_pool)
        (simulate3 [Action.sleep (-1)] scenario_1_pool) = false
    ∧ doublingPool = Except.ok doublingPool_pool
    ∧ (simulate3 [Action.sleep 1100, Action.claim (Account.str "curator1")]
        doublingPool_pool).secondaryPool.accSharesPerDeposit = posInf
    ∧ ((simulate3 [Action.sleep 1100, Action.claim (Account.str "curator1")]
        doublingPool_pool).perform (Action.claim (Account.str "curator1"))).thrown = none
    ∧ (simulate3 [Action.sleep 1100, Action.claim (Account.str "curator1"),
        Action.claim (Account.str "curator1")]
        doublingPool_pool).secondaryPool.accSharesPerDeposit = nan
    ∧ CurationPool.accumulatorsGe
        (simulate3 [Action.sleep 1100, Action.claim (Account.str "curator1"),
          Action.claim (Account.str "curator1")] doublingPool_pool)
        (simulate3 [Action.sleep 1100, Action.claim (Account.str "curator1")]
          doublingPool_pool) = false :=
  ⟨scenario_1_eq, by decide!, by decide!, by decide!, by decide!, by decide!, by decide!,
    by decide!, by decide!, doublingPool_eq, by decide!, by decide!, by decide!, by decide!⟩

/-- C10, amended: take a pool constructed from finite non-negative data
(issuance rate, valuation multiple, initial share balances, initial deposits,
balances of the reserve ledger) and a sequence of `deposit`, `withdraw`,
`buyShares`, `claim` calls and clock advances in which every amount and every
clock advance is finite and not negative, `totalDeposits > 0` before every
call on the pool, and `accSharesPerDeposit` and `accRoyaltiesPerDeposit` are
finite after every step.  Then at every step of the sequence each of
`accRoyaltiesPerShare`, `accSharesPerDeposit` and `accRoyaltiesPerDeposit` is
`>=` its value before the step, a step that throws included. -/
theorem accumulators_monotone (address : Account)
    (initialShareBalances initialDeposits : List (Account × JSNum)) (chain : Chain)
    (reserveToken : Token) (issuanceRate valuationMultiple : JSNum) (p : CurationPool)
    (pre : List Action) (a : Action)
    (hnew : CurationPool.new address initialShareBalances initialDeposits chain reserveToken
      issuanceRate valuationMultiple = Except.ok p)
    (hr : isNonneg issuanceRate = true) (hv : isNonneg valuationMultiple = true)
    (hshares : ∀ e ∈ initialShareBalances, isNonneg e.2 = true)
    (hdeps : ∀ e ∈ initialDeposits, isNonneg e.2 = true)
    (hres : ∀ e ∈ JSMap.entries reserveToken.balances, isNonneg e.2 = true)
    (hrun : p.admissibleRun (pre ++ [a]) = true) :
    CurationPool.accumulatorsGe (simulate3 (pre ++ [a]) p) (simulate3 pre p) = true := by
  obtain ⟨hp, hS⟩ := CurationPool.new_wellFormed hnew hr hv hshares hdeps hres
  obtain ⟨hpre, ha⟩ := CurationPool.admissibleRun_append p pre a hrun
  obtain ⟨hq, hqS⟩ := hp.simulate3 hS pre hpre
  rw [simulate3_append]
  exact hq.step_ge hqS a ha

/-- C10, amended, on a run of scenario 1: after one block a claim, a purchase
of 100 shares and a deposit of 50, and after one more block the withdrawal of
20 by `curator1`, whose issuance raises `accSharesPerDeposit`. -/
theorem accumulators_monotone_witness :
    scenario_1_pool.admissibleRun
        ([Action.sleep 1, Action.claim (Account.str "curator1"),
          Action.buyShares (Account.str "curator2") (fin 100),
          Action.deposit (Account.str "curator2") (fin 50), Action.sleep 1]
          ++ [Action.withdraw (Account.str "curator1") (fin 20)]) = true
    ∧ CurationPool.accumulatorsGe
        (simulate3
          ([Action.sleep 1, Action.claim (Account.str "curator1"),
            Action.buyShares (Account.str "curator2") (fin 100),
            Action.deposit (Account.str "curator2") (fin 50), Action.sleep 1]
            ++ [Action.withdraw (Account.str "curator1") (fin 20)]) scenario_1_pool)
        (simulate3
          [Action.sleep 1, Action.claim (Account.str "curator1"),
            Action.buyShares (Account.str "curator2") (fin 100),
            Action.deposit (Account.str "curator2") (fin 50), Action.sleep 1] scenario_1_pool)
        = true :=
  ⟨by decide!,
    accumulators_monotone (Account.str "curationPool")
      [(Account.str "curator1", fin 1000), (Account.str "curator2", fin 0)]
      [(Account.str "curator1", fin 500), (Account.str "curator2", fin 0)]
      { blockHeight := 0 } scenario_1_reserveToken (ofRat (1 / 10000)) (fin 1)
      scenario_1_pool _ _ scenario_1_eq (by decide!) (by decide!) (by decide!) (by decide!)
      (by decide!) (by decide!)⟩

/-! ## Claims C11 to C20 -/

/-- C11 (the construction invariant fails for a repeated account): with
`initialDeposits = [[curator1, 5], [curator1, 10]]` and a pool reserve balance
of 15 the constructor's check passes (5 + 10 = 15) and construction succeeds;
the deposit map keeps the last entry only, so the deposits sum to 10 while
`reserveToken.balanceOf(address)` and `totalDeposits` are 15. -/
theorem construction_with_repeated_account :
    duplicatePool = Except.ok duplicatePool_pool
    ∧ duplicatePool_pool.deposits.entries = [(Account.str "curator1", fin 10)]
    ∧ duplicatePool_pool.depositOf (Account.str "curator1") = fin 10
    ∧ duplicatePool_pool.sumDeposits = fin 10
    ∧ duplicatePool_pool.reserveToken.balanceOf duplicatePool_pool.address = fin 15
    ∧ duplicatePool_pool.secondaryPool.totalDeposits = fin 15 :=
  ⟨duplicatePool_eq, by decide!⟩

/-- C12 as stated fails: with the deposits `2 ^ 53` and 1, whose sum
`2 ^ 53 + 1` differs from the pool's reserve balance `2 ^ 53`, construction
succeeds: `_.sumBy` adds in doubles, and `2 ^ 53 + 1` rounds to `2 ^ 53`.
Likewise with the deposits `0.1` and `0.2` and the reserve balance
`0.30000000000000004`: the sum of the two doubles is not the third, and
construction does not throw. -/
theorem constructor_accepts_rounded_sum :
    CurationPool.new (Account.str "curationPool") [(Account.str "curator1", fin 1000)]
        ([(Account.str "curator1", (9007199254740992 : ℚ)), (Account.str "curator2", (1 : ℚ))].map
          fun e => (e.1, fin e.2))
        { blockHeight := 0 }
        (Token.new [(Account.str "curationPool", fin 9007199254740992)])
        (ofRat (1 / 10000)) (fin 1) = Except.ok largePool_pool
    ∧ (Token.new [(Account.str "curationPool", fin 9007199254740992)]).balanceOf
        (Account.str "curationPool") = fin 9007199254740992
    ∧ ([(Account.str "curator1", (9007199254740992 : ℚ)),
        (Account.str "curator2", (1 : ℚ))].map Prod.snd).sum = 9007199254740993
    ∧ (9007199254740993 : ℚ) ≠ 9007199254740992
    ∧ ofRat 0.1 = fin (3602879701896397 / 36028797018963968)
    ∧ ofRat 0.2 = fin (3602879701896397 / 18014398509481984)
    ∧ ofRat 0.30000000000000004 = fin (1351079888211149 / 4503599627370496)
    ∧ (3602879701896397 / 36028797018963968 + 3602879701896397 / 18014398509481984 : ℚ)
        ≠ 1351079888211149 / 4503599627370496
    ∧ (Token.new [(Account.str "curationPool", ofRat 0.30000000000000004)]).balanceOf
        (Account.str "curationPool") = ofRat 0.30000000000000004
    ∧ CurationPool.new (Account.str "curationPool") [(Account.str "curator1", fin 1000)]
        [(Account.str "curator1", ofRat 0.1), (Account.str "curator2", ofRat 0.2)]
        { blockHeight := 0 }
        (Token.new [(Account.str "curationPool", ofRat 0.30000000000000004)])
        (ofRat (1 / 10000)) (fin 1) ≠ Except.error Err.depositsMismatch := by
  refine ⟨by decide!, by decide!, by norm_num, by norm_num, by decide!, by decide!, by decide!,
    by norm_num, by decide!, by decide!⟩

/-- C12, amended: construction throws if and only if the sum that `_.sumBy`
computes, adding the amounts from left to right in doubles, is not
`reserveToken.balanceOf(address)`; when the two are equal it returns a pool
with `accRoyaltiesPerShare = 0`, `lastMintedBlock = chain.blockHeight` and
both secondary accumulators 0.  For finite amounts that add up without
rounding, construction throws if and only if their sum differs from the
pool's reserve balance. -/
theorem constructor_raises_iff (address : Account)
    (initialShareBalances initialDeposits : List (Account × JSNum))
    (chain : Chain) (reserveToken : Token) (issuanceRate valuationMultiple : JSNum) :
    (CurationPool.new address initialShareBalances initialDeposits chain reserveToken
        issuanceRate valuationMultiple = Except.error Err.depositsMismatch
      ↔ CurationPool.sumBy1 initialDeposits ≠ reserveToken.balanceOf address)
    ∧ (CurationPool.sumBy1 initialDeposits = reserveToken.balanceOf address →
        ∃ p, CurationPool.new address initialShareBalances initialDeposits chain reserveToken
            issuanceRate valuationMultiple = Except.ok p
          ∧ p.accRoyaltiesPerShare = fin 0
          ∧ p.lastMintedBlock = chain.blockHeight
          ∧ p.secondaryPool.accSharesPerDeposit = fin 0
          ∧ p.secondaryPool.accRoyaltiesPerDeposit = fin 0)
    ∧ ∀ (amounts : List (Account × ℚ)) (b : ℚ),
        initialDeposits = amounts.map (fun e => (e.1, fin e.2)) →
        reserveToken.balanceOf address = fin b →
        CurationPool.sumsExactly 0 (amounts.map Prod.snd) = true →
        (CurationPool.new address initialShareBalances initialDeposits chain reserveToken
            issuanceRate valuationMultiple = Except.error Err.depositsMismatch
          ↔ (amounts.map Prod.snd).sum ≠ b) := by
  have hiff := @JSNum.strictEq_eq_true_iff (CurationPool.sumBy1 initialDeposits) _
    (Token.balanceOf_ne_nan reserveToken address)
  have hgen : (CurationPool.new address initialShareBalances initialDeposits chain reserveToken
        issuanceRate valuationMultiple = Except.error Err.depositsMismatch
      ↔ CurationPool.sumBy1 initialDeposits ≠ reserveToken.balanceOf address)
    ∧ (CurationPool.sumBy1 initialDeposits = reserveToken.balanceOf address →
        ∃ p, CurationPool.new address initialShareBalances initialDeposits chain reserveToken
            issuanceRate valuationMultiple = Except.ok p
          ∧ p.accRoyaltiesPerShare = fin 0
          ∧ p.lastMintedBlock = chain.blockHeight
          ∧ p.secondaryPool.accSharesPerDeposit = fin 0
          ∧ p.secondaryPool.accRoyaltiesPerDeposit = fin 0) := by
    by_cases h : CurationPool.sumBy1 initialDeposits = reserveToken.balanceOf address
    · have hs := hiff.mpr h
      constructor
      · unfold CurationPool.new
        rw [hs]
        simp [h]
      · intro _
        unfold CurationPool.new
        rw [hs]
        simp [SecondaryPool.new]
    · have hs : JSNum.strictEq (CurationPool.sumBy1 initialDeposits)
          (reserveToken.balanceOf address) = false := by
        cases hc : JSNum.strictEq (CurationPool.sumBy1 initialDeposits)
            (reserveToken.balanceOf address) with
        | true => exact absurd (hiff.mp hc) h
        | false => rfl
      constructor
      · unfold CurationPool.new
        rw [hs]
        simp [h]
      · intro h'
        exact absurd h' h
  refine ⟨hgen.1, hgen.2, ?_⟩
  intro amounts b hds hbal hexact
  have hsum := CurationPool.sumBy1_of_sumsExactly amounts hexact
  rw [hgen.1, hds, hsum, hbal]
  simp

/-- C12 amended, at scenario 1: the deposits 500 and 0 add up without rounding
to the pool's balance 500, so construction does not throw and returns a pool
with zero accumulators. -/
theorem constructor_raises_iff_witness :
    (∃ p, CurationPool.new (Account.str "curationPool")
        [(Account.str "curator1", fin 1000), (Account.str "curator2", fin 0)]
        [(Account.str "curator1", fin 500), (Account.str "curator2", fin 0)]
        { blockHeight := 0 } scenario_1_reserveToken (ofRat (1 / 10000)) (fin 1) = Except.ok p
      ∧ p.accRoyaltiesPerShare = fin 0
      ∧ p.lastMintedBlock = 0
      ∧ p.secondaryPool.accSharesPerDeposit = fin 0
      ∧ p.secondaryPool.accRoyaltiesPerDeposit = fin 0)
    ∧ ¬ (CurationPool.new (Account.str "curationPool")
        [(Account.str "curator1", fin 1000), (Account.str "curator2", fin 0)]
        [(Account.str "curator1", fin 500), (Account.str "curator2", fin 0)]
        { blockHeight := 0 } scenario_1_reserveToken (ofRat (1 / 10000)) (fin 1)
          = Except.error Err.depositsMismatch) :=
  ⟨(constructor_raises_iff (Account.str "curationPool")
      [(Account.str "curator1", fin 1000), (Account.str "curator2", fin 0)]
      [(Account.str "curator1", fin 500), (Account.str "curator2", fin 0)]
      { blockHeight := 0 } scenario_1_reserveToken (ofRat (1 / 10000)) (fin 1)).2.1 (by decide!),
    fun h => ((constructor_raises_iff (Account.str "curationPool")
      [(Account.str "curator1", fin 1000), (Account.str "curator2", fin 0)]
      [(Account.str "curator1", fin 500), (Account.str "curator2", fin 0)]
      { blockHeight := 0 } scenario_1_reserveToken (ofRat (1 / 10000)) (fin 1)).2.2
      [(Account.str "curator1", 500), (Account.str "curator2", 0)] 500 rfl (by decide!)
      (by decide!)).mp h (by norm_num)⟩

/-- C13 (a failing call is not atomic): in scenario 1 the pool's own address
buys 1000 shares for 250 reserve, which leaves the pool with a reserve balance
of 250 against a deposit of 500 by `curator1`.  Then `withdraw(curator1, 500)`
passes its check, writes the deposit of `curator1` down to 0, and throws the
`TypeError` of the skipped transfer: the reserve balance of `curator1` is
still 0 but its deposit is gone. -/
theorem failed_withdraw_keeps_partial_writes :
    (scenario_1_pool.buyShares (Account.str "curationPool") (fin 1000)).thrown = none
    ∧ (scenario_1_pool.buyShares (Account.str "curationPool")
        (fin 1000)).state.reserveToken.balanceOf (Account.str "curationPool") = fin 250
    ∧ (scenario_1_pool.buyShares (Account.str "curationPool")
        (fin 1000)).state.depositOf (Account.str "curator1") = fin 500
    ∧ (scenario_1_pool.buyShares (Account.str "curationPool")
        (fin 1000)).state.reserveToken.balanceOf (Account.str "curator1") = fin 0
    ∧ ((scenario_1_pool.buyShares (Account.str "curationPool")
        (fin 1000)).state.withdraw (Account.str "curator1") (fin 500)).thrown
        = some Err.typeError
    ∧ ((scenario_1_pool.buyShares (Account.str "curationPool")
        (fin 1000)).state.withdraw (Account.str "curator1")
          (fin 500)).state.depositOf (Account.str "curator1") = fin 0
    ∧ ((scenario_1_pool.buyShares (Account.str "curationPool")
        (fin 1000)).state.withdraw (Account.str "curator1")
          (fin 500)).state.reserveToken.balanceOf (Account.str "curator1") = fin 0 := by
  decide!

/-- C14 (deposit raises-iff): `deposit(account, amount)` throws its
insufficient-funds error exactly when `balanceOf(account) < amount`; in that
case the whole state is the one before the call, the check coming before the
settlement and the mint.  Past the check the call returns or throws the
`TypeError` of a skipped transfer, never an insufficient-funds error. -/
theorem deposit_raises_iff (p : CurationPool) (account : Account) (amount : JSNum) :
    ((p.deposit account amount).thrown = some Err.depositInsufficientFunds
      ↔ JSNum.lt (p.reserveToken.balanceOf account) amount = true)
    ∧ (JSNum.lt (p.reserveToken.balanceOf account) amount = true →
        (p.deposit account amount).state = p)
    ∧ (JSNum.lt (p.reserveToken.balanceOf account) amount = false →
        (p.deposit account amount).thrown = none
        ∨ (p.deposit account amount).thrown = some Err.typeError) := by
  refine ⟨?_, ?_, CurationPool.deposit_thrown_of_not_lt p account amount⟩
  · cases h : JSNum.lt (p.reserveToken.balanceOf account) amount with
    | true => simp [CurationPool.deposit, h, Outcome.throw]
    | false =>
      rcases CurationPool.deposit_thrown_of_not_lt p account amount h with h' | h' <;>
        simp [h']
  · intro h
    simp [CurationPool.deposit, h, Outcome.throw]

/-- C14 at scenario 1: `curator1` holds no reserve, so `deposit(curator1, 1)`
throws the insufficient-funds error and leaves the state as it was. -/
theorem deposit_raises_iff_witness :
    (scenario_1_pool.deposit (Account.str "curator1") (fin 1)).thrown
      = some Err.depositInsufficientFunds
    ∧ (scenario_1_pool.deposit (Account.str "curator1") (fin 1)).state = scenario_1_pool :=
  ⟨(deposit_raises_iff scenario_1_pool (Account.str "curator1") (fin 1)).1.mpr (by decide!),
    (deposit_raises_iff scenario_1_pool (Account.str "curator1") (fin 1)).2.1 (by decide!)⟩

/-- C15 (withdraw raises-iff): `withdraw(account, amount)` throws its
insufficient-funds error exactly when `depositOf(account) < amount`, whatever
the account's reserve balance is; in that case the whole state is the one
before the call.  Past the check the call returns or throws the `TypeError` of
a skipped transfer, never an insufficient-funds error. -/
theorem withdraw_raises_iff (p : CurationPool) (account : Account) (amount : JSNum) :
    ((p.withdraw account amount).thrown = some Err.withdrawExceedsDeposit
      ↔ JSNum.lt (p.depositOf account) amount = true)
    ∧ (JSNum.lt (p.depositOf account) amount = true →
        (p.withdraw account amount).state = p)
    ∧ (JSNum.lt (p.depositOf account) amount = false →
        (p.withdraw account amount).thrown = none
        ∨ (p.withdraw account amount).thrown = some Err.typeError) := by
  refine ⟨?_, ?_, CurationPool.withdraw_thrown_of_not_lt p account amount⟩
  · cases h : JSNum.lt (p.depositOf account) amount with
    | true => simp [CurationPool.withdraw, h, Outcome.throw]
    | false =>
      rcases CurationPool.withdraw_thrown_of_not_lt p account amount h with h' | h' <;>
        simp [h']
  · intro h
    simp [CurationPool.withdraw, h, Outcome.throw]

/-- C15 at scenario 1: `curator2` holds 1000 reserve but has deposit 0, so
`withdraw(curator2, 1)` throws the insufficient-funds error and leaves the
state as it was. -/
theorem withdraw_raises_iff_witness :
    scenario_1_pool.reserveToken.balanceOf (Account.str "curator2") = fin 1000
    ∧ (scenario_1_pool.withdraw (Account.str "curator2") (fin 1)).thrown
      = some Err.withdrawExceedsDeposit
    ∧ (scenario_1_pool.withdraw (Account.str "curator2") (fin 1)).state = scenario_1_pool :=
  ⟨by decide!,
    (withdraw_raises_iff scenario_1_pool (Account.str "curator2") (fin 1)).1.mpr (by decide!),
    (withdraw_raises_iff scenario_1_pool (Account.str "curator2") (fin 1)).2.1 (by decide!)⟩

/-- C16 (a deposit within the account's balance can fail, or lower
`totalDeposits`).  In the pool with the single genesis depositor `curator1`
(deposit 7, reserve balance 1000, rate 1), 29 blocks after construction,
`deposit(curator1, 10)` passes its balance check and throws the `TypeError`
of the claim it starts with: the payout `536924598091.1001` exceeds the
`536924598091.10004` shares that the secondary pool holds.  The deposit of
`curator1`, the pool's reserve balance and `totalDeposits` stay at 7.  And in
scenario 1, after `claim(curator1)`, `buyShares(curationPool, 1000)` and the
failed `withdraw(curator1, 500)`, the call `deposit(curator1, 0)` returns
normally and lowers `totalDeposits` from 500 to 0. -/
theorem deposit_postcondition_fails :
    genesisPool_pool.reserveToken.balanceOf (Account.str "curator1") = fin 1000
    ∧ Account.str "curator1" ≠ genesisPool_pool.address
    ∧ Account.str "curator1" ≠ genesisPool_pool.secondaryPool.address
    ∧ ((genesisPool_pool.sleep 29).deposit (Account.str "curator1") (fin 10)).thrown
        = some Err.typeError
    ∧ ((genesisPool_pool.sleep 29).deposit (Account.str "curator1")
        (fin 10)).state.depositOf (Account.str "curator1") = fin 7
    ∧ ((genesisPool_pool.sleep 29).deposit (Account.str "curator1")
        (fin 10)).state.reserveToken.balanceOf (Account.str "curationPool") = fin 7
    ∧ ((genesisPool_pool.sleep 29).deposit (Account.str "curator1")
        (fin 10)).state.secondaryPool.totalDeposits = fin 7
    ∧ (simulate3 [Action.claim (Account.str "curator1"),
        Action.buyShares (Account.str "curationPool") (fin 1000),
        Action.withdraw (Account.str "curator1") (fin 500)]
        scenario_1_pool).secondaryPool.totalDeposits = fin 500
    ∧ ((simulate3 [Action.claim (Account.str "curator1"),
        Action.buyShares (Account.str "curationPool") (fin 1000),
        Action.withdraw (Account.str "curator1") (fin 500)] scenario_1_pool).perform
        (Action.deposit (Account.str "curator1") (fin 0))).thrown = none
    ∧ ((simulate3 [Action.claim (Account.str "curator1"),
        Action.buyShares (Account.str "curationPool") (fin 1000),
        Action.withdraw (Account.str "curator1") (fin 500)] scenario_1_pool).perform
        (Action.deposit (Account.str "curator1") (fin 0))).state.secondaryPool.totalDeposits
        = fin 0 := by
  decide!

/-- C17 as stated fails: on the ledger `[[curator1, 1], [curator2, 2 ^ 53]]`
the call `transfer(curator1, curator2, 1)` returns normally and lowers the
balance of `curator1` from 1 to 0, but the balance of `curator2` is `2 ^ 53`
before and after: `2 ^ 53 + 1` is not a double and rounds to `2 ^ 53`. -/
theorem transfer_amount_absorbed_by_rounding :
    (Token.new [(Account.str "curator1", fin 1),
        (Account.str "curator2", fin 9007199254740992)]).balanceOf (Account.str "curator1")
        = fin 1
    ∧ (Token.new [(Account.str "curator1", fin 1),
        (Account.str "curator2", fin 9007199254740992)]).balanceOf (Account.str "curator2")
        = fin 9007199254740992
    ∧ ((Token.new [(Account.str "curator1", fin 1),
        (Account.str "curator2", fin 9007199254740992)]).transfer (Account.str "curator1")
        (Account.str "curator2") (fin 1)).thrown = none
    ∧ ((Token.new [(Account.str "curator1", fin 1),
        (Account.str "curator2", fin 9007199254740992)]).transfer (Account.str "curator1")
        (Account.str "curator2") (fin 1)).state.balanceOf (Account.str "curator1") = fin 0
    ∧ ((Token.new [(Account.str "curator1", fin 1),
        (Account.str "curator2", fin 9007199254740992)]).transfer (Account.str "curator1")
        (Account.str "curator2") (fin 1)).state.balanceOf (Account.str "curator2")
        = fin 9007199254740992 := by
  decide!

/-- C17, amended: between two distinct accounts with finite balances `a` and
`b`, a transfer of an amount `x <= a` returns normally; the sender's balance
becomes the double nearest to `a - x`, the receiver's the double nearest to
`b + x` (the results of the operators `-` and `+`), and every other balance
and `totalSupply` are unchanged.  When `a - x` and `b + x` are doubles, the
balances have moved by exactly `x`. -/
theorem transfer_moves_rounded (t : Token) (from_ to_ : Account) (a b x : ℚ)
    (hne : from_ ≠ to_) (hfrom : t.balanceOf from_ = fin a) (hto : t.balanceOf to_ = fin b)
    (hx : x ≤ a) :
    (t.transfer from_ to_ (fin x)).thrown = none
    ∧ (t.transfer from_ to_ (fin x)).state.balanceOf from_ = fin a - fin x
    ∧ (t.transfer from_ to_ (fin x)).state.balanceOf to_ = fin b + fin x
    ∧ (∀ c, from_ ≠ c → to_ ≠ c →
        (t.transfer from_ to_ (fin x)).state.balanceOf c = t.balanceOf c)
    ∧ (t.transfer from_ to_ (fin x)).state.totalSupply = t.totalSupply
    ∧ (isDouble (a - x) = true →
        (t.transfer from_ to_ (fin x)).state.balanceOf from_ = fin (a - x))
    ∧ (isDouble (b + x) = true →
        (t.transfer from_ to_ (fin x)).state.balanceOf to_ = fin (b + x)) := by
  have hlt : JSNum.lt (t.balanceOf from_) (fin x) = false := by
    rw [hfrom, lt_fin_fin]
    exact decide_eq_false (not_lt.mpr hx)
  have h₁ : (t.transfer from_ to_ (fin x)).state.balanceOf from_ = fin a - fin x := by
    rw [Token.transfer_balanceOf_from t (fin x) hlt hne, hfrom, fin_sub_fin, orZero_some_ofRat]
  have h₂ : (t.transfer from_ to_ (fin x)).state.balanceOf to_ = fin b + fin x := by
    rw [Token.transfer_balanceOf_to t from_ to_ (fin x) hlt, hto, fin_add_fin, orZero_some_ofRat]
  refine ⟨Token.transfer_thrown_of_not_lt t from_ to_ (fin x) hlt, h₁, h₂,
    fun c hc₁ hc₂ => Token.transfer_balanceOf_other t (fin x) hc₁ hc₂,
    Token.transfer_totalSupply t from_ to_ (fin x), ?_, ?_⟩
  · intro hd
    rw [h₁, fin_sub_fin]
    exact (isDouble_iff _).mp hd
  · intro hd
    rw [h₂, fin_add_fin]
    exact (isDouble_iff _).mp hd

/-- C17 amended, at the reserve ledger of scenario 1: `curator2` (1000) sends
300 to `curator1` (0); 700 and 300 are doubles, so the balances move by
exactly 300. -/
theorem transfer_moves_rounded_witness :
    (scenario_1_reserveToken.transfer (Account.str "curator2") (Account.str "curator1")
      (fin 300)).thrown = none
    ∧ (scenario_1_reserveToken.transfer (Account.str "curator2") (Account.str "curator1")
      (fin 300)).state.balanceOf (Account.str "curator2") = fin (1000 - 300)
    ∧ (scenario_1_reserveToken.transfer (Account.str "curator2") (Account.str "curator1")
      (fin 300)).state.balanceOf (Account.str "curator1") = fin (0 + 300)
    ∧ (scenario_1_reserveToken.transfer (Account.str "curator2") (Account.str "curator1")
      (fin 300)).state.totalSupply = scenario_1_reserveToken.totalSupply :=
  ⟨(transfer_moves_rounded scenario_1_reserveToken (Account.str "curator2")
      (Account.str "curator1") 1000 0 300 (by decide) (by decide!) (by decide!) (by norm_num)).1,
    (transfer_moves_rounded scenario_1_reserveToken (Account.str "curator2")
      (Account.str "curator1") 1000 0 300 (by decide) (by decide!) (by decide!)
      (by norm_num)).2.2.2.2.2.1 (by decide!),
    (transfer_moves_rounded scenario_1_reserveToken (Account.str "curator2")
      (Account.str "curator1") 1000 0 300 (by decide) (by decide!) (by decide!)
      (by norm_num)).2.2.2.2.2.2 (by decide!),
    (transfer_moves_rounded scenario_1_reserveToken (Account.str "curator2")
      (Account.str "curator1") 1000 0 300 (by decide) (by decide!) (by decide!)
      (by norm_num)).2.2.2.2.1⟩

/-- C18 as stated fails: the tolerance that `_validateTransfer` compares with
is the double `0.000001`, and the shortfall it compares is a rounded
difference.  On the ledger where `curator1` holds `2 ^ (-80)`, the amount
`0.000001` exceeds the balance by less than `0.000001`, but the difference
rounds to `0.000001`, which is not below the tolerance: the call
`transfer(curator1, curator2, 0.000001)` throws the `TypeError`.  The same
happens for an account without balance: the shortfall is the double
`0.000001` itself, which is below `1 / 1000000`.  And where the clamp is
applied the receiver need not gain the sender's balance: on the ledger
`[[curator1, 1], [curator2, 2 ^ 53]]` the call
`transfer(curator1, curator2, 1.0000005)` returns normally, `curator1` is left
with 0 and `curator2` with `2 ^ 53`, as before. -/
theorem epsilon_clamp_missed :
    epsilon = fin (4722366482869645 / 4722366482869645213696)
    ∧ (0 : ℚ) < 4722366482869645 / 4722366482869645213696 - 1 / 2 ^ 80
    ∧ (4722366482869645 / 4722366482869645213696 - 1 / 2 ^ 80 : ℚ)
        < 4722366482869645 / 4722366482869645213696
    ∧ (4722366482869645 / 4722366482869645213696 : ℚ) < 1 / 1000000
    ∧ (Token.new [(Account.str "curator1", fin (1 / 2 ^ 80))]).balanceOf (Account.str "curator1")
        = fin (1 / 2 ^ 80)
    ∧ ((Token.new [(Account.str "curator1", fin (1 / 2 ^ 80))]).transfer (Account.str "curator1")
        (Account.str "curator2") epsilon).thrown = some Err.typeError
    ∧ (Token.new [(Account.str "curator1", fin 0)]).balanceOf (Account.str "curator1") = fin 0
    ∧ ((Token.new [(Account.str "curator1", fin 0)]).transfer (Account.str "curator1")
        (Account.str "curator2") epsilon).thrown = some Err.typeError
    ∧ JSNum.lt (fin 1) (ofRat 1.0000005) = true
    ∧ JSNum.lt (ofRat 1.0000005 - fin 1) epsilon = true
    ∧ ((Token.new [(Account.str "curator1", fin 1),
        (Account.str "curator2", fin 9007199254740992)]).transfer (Account.str "curator1")
        (Account.str "curator2") (ofRat 1.0000005)).thrown = none
    ∧ ((Token.new [(Account.str "curator1", fin 1),
        (Account.str "curator2", fin 9007199254740992)]).transfer (Account.str "curator1")
        (Account.str "curator2") (ofRat 1.0000005)).state.balanceOf (Account.str "curator1")
        = fin 0
    ∧ ((Token.new [(Account.str "curator1", fin 1),
        (Account.str "curator2", fin 9007199254740992)]).transfer (Account.str "curator1")
        (Account.str "curator2") (ofRat 1.0000005)).state.balanceOf (Account.str "curator2")
        = fin 9007199254740992 := by
  refine ⟨epsilon_eq, by norm_num, by norm_num, by norm_num, by decide!, by decide!, by decide!,
    by decide!, by decide!, by decide!, by decide!, by decide!, by decide!⟩

/-- C18, amended: between two distinct accounts with finite balances, a
transfer whose amount `x` exceeds the sender's balance `a`, and for which the
difference `x - a` as the operator `-` computes it is below the double
`0.000001`, returns normally and moves the sender's whole balance: the sender
is left with 0, the receiver's balance becomes the double nearest to `b + a`
(not to `b + x`), and every other balance and `totalSupply` are unchanged. -/
theorem transfer_epsilon_clamp (t : Token) (from_ to_ : Account) (a b x : ℚ)
    (hne : from_ ≠ to_) (hfrom : t.balanceOf from_ = fin a) (hto : t.balanceOf to_ = fin b)
    (hlo : a < x) (hhi : JSNum.lt (fin x - fin a) epsilon = true) :
    (t.transfer from_ to_ (fin x)).thrown = none
    ∧ (t.transfer from_ to_ (fin x)).state.balanceOf from_ = fin 0
    ∧ (t.transfer from_ to_ (fin x)).state.balanceOf to_ = fin b + fin a
    ∧ (∀ c, from_ ≠ c → to_ ≠ c →
        (t.transfer from_ to_ (fin x)).state.balanceOf c = t.balanceOf c)
    ∧ (t.transfer from_ to_ (fin x)).state.totalSupply = t.totalSupply
    ∧ (isDouble (b + a) = true →
        (t.transfer from_ to_ (fin x)).state.balanceOf to_ = fin (b + a)) := by
  have e : t.transfer from_ to_ (fin x) = Outcome.ok
      { t with balances := (t.balances.set from_ (fin a - fin a)).set to_ (fin b + fin a) } := by
    simp [Token.transfer, Token._preTransfer, Token._validateTransfer, Token._executeTransfer,
      hfrom, hto, hlo, hhi]
  have hz : fin a - fin a = fin 0 := by rw [fin_sub_fin, sub_self, ofRat_zero]
  have h₂ : (t.transfer from_ to_ (fin x)).state.balanceOf to_ = fin b + fin a := by
    rw [e]
    simp [Outcome.ok, Token.balanceOf, fin_add_fin]
  refine ⟨by rw [e]; rfl, ?_, h₂, fun c hc₁ hc₂ => Token.transfer_balanceOf_other t (fin x) hc₁ hc₂,
    Token.transfer_totalSupply t from_ to_ (fin x), ?_⟩
  · rw [e, hz]
    simp [Outcome.ok, Token.balanceOf, JSMap.get_set_of_ne _ _ (Ne.symm hne)]
  · intro hd
    rw [h₂, fin_add_fin]
    exact (isDouble_iff _).mp hd

/-- C18 amended, at the reserve ledger of scenario 1: `curator2` holds 1000
and is asked to send `1000 + 2 ^ (-21)` to `curator1`; the difference
`2 ^ (-21)` is below the tolerance, and `curator1` receives 1000. -/
theorem transfer_epsilon_clamp_witness :
    (scenario_1_reserveToken.transfer (Account.str "curator2") (Account.str "curator1")
      (fin (1000 + 1 / 2097152))).thrown = none
    ∧ (scenario_1_reserveToken.transfer (Account.str "curator2") (Account.str "curator1")
      (fin (1000 + 1 / 2097152))).state.balanceOf (Account.str "curator2") = fin 0
    ∧ (scenario_1_reserveToken.transfer (Account.str "curator2") (Account.str "curator1")
      (fin (1000 + 1 / 2097152))).state.balanceOf (Account.str "curator1") = fin (0 + 1000) :=
  ⟨(transfer_epsilon_clamp scenario_1_reserveToken (Account.str "curator2")
      (Account.str "curator1") 1000 0 (1000 + 1 / 2097152) (by decide) (by decide!) (by decide!)
      (by norm_num) (by decide!)).1,
    (transfer_epsilon_clamp scenario_1_reserveToken (Account.str "curator2")
      (Account.str "curator1") 1000 0 (1000 + 1 / 2097152) (by decide) (by decide!) (by decide!)
      (by norm_num) (by decide!)).2.1,
    (transfer_epsilon_clamp scenario_1_reserveToken (Account.str "curator2")
      (Account.str "curator1") 1000 0 (1000 + 1 / 2097152) (by decide) (by decide!) (by decide!)
      (by norm_num) (by decide!)).2.2.2.2.2 (by decide!)⟩

/-- C19 as stated fails: on the ledger `[[curator1, 2], [curator2, 2 ^ 53]]`,
whose supply is `2 ^ 53 + 2`, the call `burn(curator1, 1)` returns normally
and lowers the balance of `curator1` to 1, but `totalSupply` becomes `2 ^ 53`:
it has dropped by 2, because `2 ^ 53 + 1` is not a double. -/
theorem burn_lowers_supply_by_two :
    (Token.new [(Account.str "curator1", fin 2),
        (Account.str "curator2", fin 9007199254740992)]).totalSupply = fin 9007199254740994
    ∧ ((Token.new [(Account.str "curator1", fin 2),
        (Account.str "curator2", fin 9007199254740992)]).burn (Account.str "curator1")
        (fin 1)).thrown = none
    ∧ ((Token.new [(Account.str "curator1", fin 2),
        (Account.str "curator2", fin 9007199254740992)]).burn (Account.str "curator1")
        (fin 1)).state.balanceOf (Account.str "curator1") = fin 1
    ∧ ((Token.new [(Account.str "curator1", fin 2),
        (Account.str "curator2", fin 9007199254740992)]).burn (Account.str "curator1")
        (fin 1)).state.totalSupply = fin 9007199254740992 := by
  decide!

/-- C19, amended: on a ledger whose sender balance `a` and supply `s` are
finite, `burn(from, x)` throws its insufficient-funds error exactly when
`a < x`, and then the ledger is the one it started with; otherwise it returns
normally, the sender's balance becomes the double nearest to `a - x`,
`totalSupply` the double nearest to `s - x`, and no other balance changes.
When `a - x` and `s - x` are doubles, both have dropped by exactly `x`. -/
theorem burn_raises_iff (t : Token) (from_ : Account) (a s x : ℚ)
    (hfrom : t.balanceOf from_ = fin a) (hs : t.totalSupply = fin s) :
    ((t.burn from_ (fin x)).thrown = some Err.burnInsufficientFunds ↔ a < x)
    ∧ ((t.burn from_ (fin x)).thrown ≠ none ↔ a < x)
    ∧ (a < x → (t.burn from_ (fin x)).state = t)
    ∧ (¬ a < x →
        (t.burn from_ (fin x)).thrown = none
        ∧ (t.burn from_ (fin x)).state.balanceOf from_ = fin a - fin x
        ∧ (t.burn from_ (fin x)).state.totalSupply = fin s - fin x
        ∧ (∀ c, from_ ≠ c → (t.burn from_ (fin x)).state.balanceOf c = t.balanceOf c)
        ∧ (isDouble (a - x) = true →
            (t.burn from_ (fin x)).state.balanceOf from_ = fin (a - x))
        ∧ (isDouble (s - x) = true → (t.burn from_ (fin x)).state.totalSupply = fin (s - x))) := by
  by_cases h : a < x
  · have e : t.burn from_ (fin x) = Outcome.throw t Err.burnInsufficientFunds := by
      simp [Token.burn, Token._validateBurn, hfrom, h]
    rw [e]
    simp [Outcome.throw, h]
  · have e : t.burn from_ (fin x) = Outcome.ok
        { balances := t.balances.set from_ (fin a - fin x), totalSupply := fin s - fin x } := by
      simp [Token.burn, Token._validateBurn, Token._executeBurn, hfrom, hs, h]
    have h₁ : (t.burn from_ (fin x)).state.balanceOf from_ = fin a - fin x := by
      rw [e]
      simp [Outcome.ok, Token.balanceOf, fin_sub_fin]
    have h₂ : (t.burn from_ (fin x)).state.totalSupply = fin s - fin x := by
      rw [e]
      rfl
    refine ⟨by rw [e]; simp [Outcome.ok, h], by rw [e]; simp [Outcome.ok, h],
      fun h' => absurd h' h, fun _ => ⟨by rw [e]; rfl, h₁, h₂, ?_, ?_, ?_⟩⟩
    · intro c hc
      rw [e]
      simp [Outcome.ok, Token.balanceOf, JSMap.get_set_of_ne _ _ hc]
    · intro hd
      rw [h₁, fin_sub_fin]
      exact (isDouble_iff _).mp hd
    · intro hd
      rw [h₂, fin_sub_fin]
      exact (isDouble_iff _).mp hd

/-- C19 amended, at the reserve ledger of scenario 1 (supply 11500): `curator2`
holds 1000, so burning 1500 throws and burning 400 leaves 600. -/
theorem burn_raises_iff_witness :
    (scenario_1_reserveToken.burn (Account.str "curator2") (fin 1500)).thrown
      = some Err.burnInsufficientFunds
    ∧ (scenario_1_reserveToken.burn (Account.str "curator2") (fin 1500)).state
      = scenario_1_reserveToken
    ∧ (scenario_1_reserveToken.burn (Account.str "curator2") (fin 400)).thrown = none
    ∧ (scenario_1_reserveToken.burn (Account.str "curator2") (fin 400)).state.balanceOf
        (Account.str "curator2") = fin (1000 - 400)
    ∧ (scenario_1_reserveToken.burn (Account.str "curator2") (fin 400)).state.totalSupply
      = fin (11500 - 400) :=
  ⟨(burn_raises_iff scenario_1_reserveToken (Account.str "curator2") 1000 11500 1500
      (by decide!) (by decide!)).1.mpr (by norm_num),
    (burn_raises_iff scenario_1_reserveToken (Account.str "curator2") 1000 11500 1500
      (by decide!) (by decide!)).2.2.1 (by norm_num),
    ((burn_raises_iff scenario_1_reserveToken (Account.str "curator2") 1000 11500 400
      (by decide!) (by decide!)).2.2.2 (by norm_num)).1,
    ((burn_raises_iff scenario_1_reserveToken (Account.str "curator2") 1000 11500 400
      (by decide!) (by decide!)).2.2.2 (by norm_num)).2.2.2.2.1 (by decide!),
    ((burn_raises_iff scenario_1_reserveToken (Account.str "curator2") 1000 11500 400
      (by decide!) (by decide!)).2.2.2 (by norm_num)).2.2.2.2.2 (by decide!)⟩

/-- C20 as stated fails: on the ledger `[[curator1, 2 ^ 53]]` the call
`mint(curator1, 1)` leaves the balance of `curator1` and `totalSupply` at
`2 ^ 53`: neither has increased. -/
theorem mint_absorbed_by_rounding :
    (Token.new [(Account.str "curator1", fin 9007199254740992)]).balanceOf
        (Account.str "curator1") = fin 9007199254740992
    ∧ (Token.new [(Account.str "curator1", fin 9007199254740992)]).totalSupply
        = fin 9007199254740992
    ∧ ((Token.new [(Account.str "curator1", fin 9007199254740992)]).mint
        (Account.str "curator1") (fin 1)).balanceOf (Account.str "curator1")
        = fin 9007199254740992
    ∧ ((Token.new [(Account.str "curator1", fin 9007199254740992)]).mint
        (Account.str "curator1") (fin 1)).totalSupply = fin 9007199254740992 := by
  decide!

/-- C20, amended: on a ledger whose receiver balance `b` and supply `s` are
finite, `mint(to, x)` sets the receiver's balance to the double nearest to
`b + x` and `totalSupply` to the double nearest to `s + x`, whatever `x` is,
and changes no other balance; no tolerance rule applies.  The method has no
validation stage and no throw, so its result is always a ledger.  When `b + x`
and `s + x` are doubles, both have grown by exactly `x`. -/
theorem mint_rounded (t : Token) (to_ : Account) (b s x : ℚ)
    (hto : t.balanceOf to_ = fin b) (hs : t.totalSupply = fin s) :
    (t.mint to_ (fin x)).balanceOf to_ = fin b + fin x
    ∧ (t.mint to_ (fin x)).totalSupply = fin s + fin x
    ∧ (∀ c, to_ ≠ c → (t.mint to_ (fin x)).balanceOf c = t.balanceOf c)
    ∧ (isDouble (b + x) = true → (t.mint to_ (fin x)).balanceOf to_ = fin (b + x))
    ∧ (isDouble (s + x) = true → (t.mint to_ (fin x)).totalSupply = fin (s + x)) := by
  have h₁ : (t.mint to_ (fin x)).balanceOf to_ = fin b + fin x := by
    rw [Token.balanceOf_mint, if_pos rfl, hto, fin_add_fin, orZero_some_ofRat]
  have h₂ : (t.mint to_ (fin x)).totalSupply = fin s + fin x := by
    rw [Token.totalSupply_mint, hs]
  refine ⟨h₁, h₂, ?_, ?_, ?_⟩
  · intro c hc
    rw [Token.balanceOf_mint, if_neg hc]
  · intro hd
    rw [h₁, fin_add_fin]
    exact (isDouble_iff _).mp hd
  · intro hd
    rw [h₂, fin_add_fin]
    exact (isDouble_iff _).mp hd

/-- C20 amended, at the reserve ledger of scenario 1: minting `0.5` to
`curator2` adds exactly that much to its balance and to the supply. -/
theorem mint_rounded_witness :
    (scenario_1_reserveToken.mint (Account.str "curator2") (fin (1 / 2))).balanceOf
        (Account.str "curator2") = fin (1000 + 1 / 2)
    ∧ (scenario_1_reserveToken.mint (Account.str "curator2") (fin (1 / 2))).totalSupply
        = fin (11500 + 1 / 2) :=
  ⟨(mint_rounded scenario_1_reserveToken (Account.str "curator2") 1000 11500 (1 / 2)
      (by decide!) (by decide!)).2.2.2.1 (by decide!),
    (mint_rounded scenario_1_reserveToken (Account.str "curator2") 1000 11500 (1 / 2)
      (by decide!) (by decide!)).2.2.2.2 (by decide!)⟩

/-! ## Claims C21 to C30 -/

/-- C21 as stated fails: in scenario 1 (pool reserve 500, valuation multiple 1,
`totalShares = 1000`, `totalDeposits = 500`) `buyShares(curator2, 76)` returns
normally and leaves `curator2`, who held 1000 reserve, with
`964.6840148698884`.  The source computes the cost as
`(500 * 1) * (76 / (76 + 1000)) = 35.31598513011153`; the claim's
`500 * 1 * 76 / (76 + 1000)` is `35.31598513011152` when it is evaluated in
doubles, which would leave `964.6840148698885`, and its exact value `9500 / 269`
is not a double. -/
theorem buyShares_cost_rounded :
    scenario_1_pool.reserveToken.balanceOf scenario_1_pool.address = fin 500
    ∧ scenario_1_pool.valuationMultiple = fin 1
    ∧ scenario_1_pool.totalShares = fin 1000
    ∧ scenario_1_pool.reserveToken.balanceOf (Account.str "curator2") = fin 1000
    ∧ (scenario_1_pool.buyShares (Account.str "curator2") (fin 76)).thrown = none
    ∧ (scenario_1_pool.buyShares (Account.str "curator2")
        (fin 76)).state.reserveToken.balanceOf (Account.str "curator2")
        = ofRat 964.6840148698884
    ∧ fin 500 * fin 1 * (fin 76 / (fin 76 + fin 1000)) = ofRat 35.31598513011153
    ∧ fin 500 * fin 1 * fin 76 / (fin 76 + fin 1000) = ofRat 35.31598513011152
    ∧ fin 1000 - fin 500 * fin 1 * fin 76 / (fin 76 + fin 1000) = ofRat 964.6840148698885
    ∧ ofRat 964.6840148698884 ≠ ofRat 964.6840148698885
    ∧ ofRat 964.6840148698884 ≠ fin (1000 - 500 * 1 * 76 / (76 + 1000)) := by
  decide!

/-- C21, amended: let `cost` be the finite number that
`(balanceOf(pool) * valuationMultiple) * (s / (s + totalShares))` evaluates to
in doubles, in the order in which the source computes it, and let the buyer,
who is not the secondary pool's address, hold at least `cost`.  Then
`buyShares(buyer, s)` returns normally; the buyer's reserve balance becomes
the double nearest to its old value minus `cost`, the secondary pool's the
double nearest to its old value plus `cost`, `accRoyaltiesPerDeposit` has
`cost / totalDeposits` added to it, and the buyer's share balance and the
share supply have `s` added to them, each sum rounded to a double.  When the
product, the sum, the quotient and their product do not round, `cost` is
`balanceOf(pool) * valuationMultiple * s / (s + totalShares)`; when the
difference and the sum with `cost` are doubles, the two reserve balances have
moved by exactly `cost`. -/
theorem buyShares_pricing (p : CurationPool) (account : Account) (s cost b h bs : ℚ)
    (hacct : account ≠ p.secondaryPool.address)
    (hcost : p.reserveToken.balanceOf p.address * p.valuationMultiple
      * (fin s / (fin s + p.totalShares)) = fin cost)
    (hbal : p.reserveToken.balanceOf account = fin b) (hpay : cost ≤ b)
    (hsec : p.reserveToken.balanceOf p.secondaryPool.address = fin h)
    (hsh : p.shareToken.balanceOf account = fin bs) :
    (p.buyShares account (fin s)).thrown = none
    ∧ (p.buyShares account (fin s)).state.reserveToken.balanceOf account = fin b - fin cost
    ∧ (p.buyShares account (fin s)).state.reserveToken.balanceOf p.secondaryPool.address
        = fin h + fin cost
    ∧ (p.buyShares account (fin s)).state.secondaryPool.accRoyaltiesPerDeposit
        = p.secondaryPool.accRoyaltiesPerDeposit + fin cost / p.secondaryPool.totalDeposits
    ∧ (p.buyShares account (fin s)).state.shareToken.balanceOf account = fin bs + fin s
    ∧ (p.buyShares account (fin s)).state.shareToken.totalSupply
        = p.shareToken.totalSupply + fin s
    ∧ (∀ bp v ts : ℚ, p.reserveToken.balanceOf p.address = fin bp →
        p.valuationMultiple = fin v → p.totalShares = fin ts → s + ts ≠ 0 →
        JSNum.allDoubles [bp * v, s + ts, s / (s + ts), bp * v * (s / (s + ts))] = true →
        cost = bp * v * s / (s + ts))
    ∧ (isDouble (b - cost) = true →
        (p.buyShares account (fin s)).state.reserveToken.balanceOf account = fin (b - cost))
    ∧ (isDouble (h + cost) = true →
        (p.buyShares account (fin s)).state.reserveToken.balanceOf p.secondaryPool.address
          = fin (h + cost)) := by
  have hlt : JSNum.lt (p.reserveToken.balanceOf account) (fin cost) = false := by
    rw [hbal, lt_fin_fin]
    exact decide_eq_false (not_lt.mpr hpay)
  have htr := Token.transfer_eq_of_not_lt p.reserveToken account p.secondaryPool.address
    (fin cost) hlt
  have hfrom := Token.transfer_balanceOf_from p.reserveToken (fin cost) hlt hacct
  have hto := Token.transfer_balanceOf_to p.reserveToken account p.secondaryPool.address
    (fin cost) hlt
  rw [hbal, fin_sub_fin, orZero_some_ofRat, ← fin_sub_fin] at hfrom
  rw [hsec, fin_add_fin, orZero_some_ofRat, ← fin_add_fin] at hto
  have hexact : ∀ bp v ts : ℚ, p.reserveToken.balanceOf p.address = fin bp →
      p.valuationMultiple = fin v → p.totalShares = fin ts → s + ts ≠ 0 →
      JSNum.allDoubles [bp * v, s + ts, s / (s + ts), bp * v * (s / (s + ts))] = true →
      cost = bp * v * s / (s + ts) := by
    intro bp v ts hbp hv hts hne hd
    simp only [JSNum.allDoubles, List.all_cons, List.all_nil, Bool.and_true,
      Bool.and_eq_true] at hd
    obtain ⟨d₁, d₂, d₃, d₄⟩ := hd
    rw [hbp, hv, hts, fin_mul_fin, (isDouble_iff _).mp d₁, fin_add_fin, (isDouble_iff _).mp d₂,
      fin_div_fin _ hne, (isDouble_iff _).mp d₃, fin_mul_fin, (isDouble_iff _).mp d₄] at hcost
    have e : bp * v * (s / (s + ts)) = cost := by injection hcost
    rw [← e, mul_div_assoc]
  unfold CurationPool.buyShares
  simp only [hcost]
  rw [htr] at hfrom hto
  rw [htr]
  simp only [Outcome.ok, Outcome.andThen_none, SecondaryPool._distributeRoyalties]
  refine ⟨trivial, hfrom, hto, trivial, ?_, rfl, hexact, ?_, ?_⟩
  · rw [Token.balanceOf_mint, if_pos rfl, hsh, fin_add_fin, orZero_some_ofRat]
  · intro hd
    refine hfrom.trans ?_
    rw [fin_sub_fin]
    exact (isDouble_iff _).mp hd
  · intro hd
    refine hto.trans ?_
    rw [fin_add_fin]
    exact (isDouble_iff _).mp hd

/-- C21 amended, at scenario 1: `buyShares(curator2, 1000)` costs
`500 * 1 * 1000 / (1000 + 1000) = 250`, which `curator2` (reserve 1000) pays
to the secondary pool; `accRoyaltiesPerDeposit` becomes `250 / 500`. -/
theorem buyShares_pricing_witness :
    (scenario_1_pool.buyShares (Account.str "curator2") (fin 1000)).thrown = none
    ∧ (scenario_1_pool.buyShares (Account.str "curator2")
        (fin 1000)).state.reserveToken.balanceOf (Account.str "curator2") = fin (1000 - 250)
    ∧ (scenario_1_pool.buyShares (Account.str "curator2")
        (fin 1000)).state.reserveToken.balanceOf scenario_1_pool.secondaryPool.address
        = fin (0 + 250)
    ∧ (scenario_1_pool.buyShares (Account.str "curator2")
        (fin 1000)).state.secondaryPool.accRoyaltiesPerDeposit
        = scenario_1_pool.secondaryPool.accRoyaltiesPerDeposit
          + fin 250 / scenario_1_pool.secondaryPool.totalDeposits
    ∧ (scenario_1_pool.buyShares (Account.str "curator2")
        (fin 1000)).state.shareToken.balanceOf (Account.str "curator2") = fin 0 + fin 1000
    ∧ (scenario_1_pool.buyShares (Account.str "curator2")
        (fin 1000)).state.shareToken.totalSupply
        = scenario_1_pool.shareToken.totalSupply + fin 1000
    ∧ (250 : ℚ) = 500 * 1 * 1000 / (1000 + 1000) :=
  ⟨(buyShares_pricing scenario_1_pool (Account.str "curator2") 1000 250 1000 0 0
      (by decide!) (by decide!) (by decide!) (by norm_num) (by decide!) (by decide!)).1,
    (buyShares_pricing scenario_1_pool (Account.str "curator2") 1000 250 1000 0 0
      (by decide!) (by decide!) (by decide!) (by norm_num) (by decide!)
      (by decide!)).2.2.2.2.2.2.2.1 (by decide!),
    (buyShares_pricing scenario_1_pool (Account.str "curator2") 1000 250 1000 0 0
      (by decide!) (by decide!) (by decide!) (by norm_num) (by decide!)
      (by decide!)).2.2.2.2.2.2.2.2 (by decide!),
    (buyShares_pricing scenario_1_pool (Account.str "curator2") 1000 250 1000 0 0
      (by decide!) (by decide!) (by decide!) (by norm_num) (by decide!)
      (by decide!)).2.2.2.1,
    (buyShares_pricing scenario_1_pool (Account.str "curator2") 1000 250 1000 0 0
      (by decide!) (by decide!) (by decide!) (by norm_num) (by decide!)
      (by decide!)).2.2.2.2.1,
    (buyShares_pricing scenario_1_pool (Account.str "curator2") 1000 250 1000 0 0
      (by decide!) (by decide!) (by decide!) (by norm_num) (by decide!)
      (by decide!)).2.2.2.2.2.1,
    (buyShares_pricing scenario_1_pool (Account.str "curator2") 1000 250 1000 0 0
      (by decide!) (by decide!) (by decide!) (by norm_num) (by decide!)
      (by decide!)).2.2.2.2.2.2.1 500 1 1000 (by decide!) (by decide!) (by decide!)
      (by norm_num) (by decide!)⟩

/-- C22 (a purchase of zero shares is not always a no-op).  In the pool
without depositors (`totalDeposits = 0`, 1000 shares) `buyShares(curator1, 0)`
returns normally with cost 0 and turns `accRoyaltiesPerDeposit` from 0 into
NaN (`0 / 0`).  In the pool without shares (`totalShares = 0`,
`totalDeposits = 500`) `buyShares(curator2, 0)` returns normally with a NaN
cost: the stored reserve balances of `curator2` and of the secondary pool and
`accRoyaltiesPerDeposit` become NaN, so the reserve balance of `curator2`
reads 0 where it was 1000.  When `totalDeposits` and `totalShares` are finite
and not zero, the product of the pool's reserve balance and the valuation
multiple is finite, the buyer's reserve balance is finite and not negative,
and the numbers of the state are doubles, the call is a no-op: it returns
normally and every reserve balance, every share balance, the share supply and
the three accumulators are what they were. -/
theorem buyShares_zero :
    (emptyPool_pool.secondaryPool.totalDeposits = fin 0
      ∧ emptyPool_pool.secondaryPool.accRoyaltiesPerDeposit = fin 0
      ∧ (emptyPool_pool.buyShares (Account.str "curator1") (fin 0)).thrown = none
      ∧ (emptyPool_pool.buyShares (Account.str "curator1")
          (fin 0)).state.secondaryPool.accRoyaltiesPerDeposit = nan)
    ∧ (sharelessPool = Except.ok sharelessPool_pool
      ∧ sharelessPool_pool.totalShares = fin 0
      ∧ sharelessPool_pool.reserveToken.balanceOf (Account.str "curator2") = fin 1000
      ∧ (sharelessPool_pool.buyShares (Account.str "curator2") (fin 0)).thrown = none
      ∧ (sharelessPool_pool.buyShares (Account.str "curator2")
          (fin 0)).state.reserveToken.balances.get (Account.str "curator2") = some nan
      ∧ (sharelessPool_pool.buyShares (Account.str "curator2")
          (fin 0)).state.reserveToken.balanceOf (Account.str "curator2") = fin 0
      ∧ (sharelessPool_pool.buyShares (Account.str "curator2")
          (fin 0)).state.reserveToken.balances.get (Account.str "secondaryPool") = some nan
      ∧ (sharelessPool_pool.buyShares (Account.str "curator2")
          (fin 0)).state.secondaryPool.accRoyaltiesPerDeposit = nan)
    ∧ ∀ (p : CurationPool) (account : Account) (TS T w b : ℚ),
        p.isNumeric = true →
        p.totalShares = fin TS → TS ≠ 0 →
        p.secondaryPool.totalDeposits = fin T → T ≠ 0 →
        p.reserveToken.balanceOf p.address * p.valuationMultiple = fin w →
        p.reserveToken.balanceOf account = fin b → 0 ≤ b →
        (p.buyShares account (fin 0)).thrown = none
        ∧ (∀ c, (p.buyShares account (fin 0)).state.reserveToken.balanceOf c
            = p.reserveToken.balanceOf c)
        ∧ (∀ c, (p.buyShares account (fin 0)).state.shareToken.balanceOf c
            = p.shareToken.balanceOf c)
        ∧ (p.buyShares account (fin 0)).state.shareToken.totalSupply = p.shareToken.totalSupply
        ∧ (p.buyShares account (fin 0)).state.secondaryPool.accRoyaltiesPerDeposit
            = p.secondaryPool.accRoyaltiesPerDeposit
        ∧ (p.buyShares account (fin 0)).state.secondaryPool.accSharesPerDeposit
            = p.secondaryPool.accSharesPerDeposit
        ∧ (p.buyShares account (fin 0)).state.accRoyaltiesPerShare = p.accRoyaltiesPerShare := by
  refine ⟨by decide!, ⟨sharelessPool_eq, by decide!⟩, ?_⟩
  intro p account TS T w b hnum hTS hTS0 hT hT0 hw hbal hb
  have hres := Token.isNumber_balanceOf _ (p.isNumeric_reserveToken hnum)
  have hsh := Token.isNumber_balanceOf _ (p.isNumeric_shareToken hnum)
  have hsup := Token.isNumber_totalSupply _ (p.isNumeric_shareToken hnum)
  have hacc := p.isNumber_accRoyaltiesPerDeposit hnum
  -- the price is zero
  have hden : fin 0 + p.totalShares = fin TS := by
    have h := p.isNumber_totalShares
    rw [hTS] at h ⊢
    rw [fin_add_fin, zero_add]
    exact (isDouble_iff TS).mp h
  have hdil : fin 0 / (fin 0 + p.totalShares) = fin 0 := by
    rw [hden, fin_div_fin _ hTS0, zero_div, ofRat_zero]
  have hcost : p.reserveToken.balanceOf p.address * p.valuationMultiple
      * (fin 0 / (fin 0 + p.totalShares)) = fin 0 := by
    rw [hdil, hw, fin_mul_fin, mul_zero, ofRat_zero]
  have hlt : JSNum.lt (p.reserveToken.balanceOf account) (fin 0) = false := by
    rw [hbal, lt_fin_fin]
    exact decide_eq_false (not_lt.mpr hb)
  have htr := Token.transfer_eq_of_not_lt p.reserveToken account p.secondaryPool.address
    (fin 0) hlt
  rw [sub_zero_of_isNumber (hres account), add_zero_of_isNumber (hres _)] at htr
  have hroy : p.secondaryPool.accRoyaltiesPerDeposit + fin 0 / p.secondaryPool.totalDeposits
      = p.secondaryPool.accRoyaltiesPerDeposit := by
    rw [hT, fin_div_fin _ hT0, zero_div, ofRat_zero, add_zero_of_isNumber hacc]
  have hbalances : ∀ c, JSNum.orZero
      (((p.reserveToken.balances.set account (p.reserveToken.balanceOf account)).set
        p.secondaryPool.address (p.reserveToken.balanceOf p.secondaryPool.address)).get c)
      = p.reserveToken.balanceOf c := by
    intro c
    rw [JSMap.get_set]
    split
    · rename_i h
      subst h
      simp
    · rw [JSMap.get_set]
      split
      · rename_i h
        subst h
        simp
      · rfl
  unfold CurationPool.buyShares
  simp only [hcost, htr, Outcome.ok, Outcome.andThen_none, SecondaryPool._distributeRoyalties,
    hroy]
  refine ⟨trivial, ?_, ?_, ?_, trivial, trivial, trivial⟩
  · intro c
    exact hbalances c
  · intro c
    rw [Token.balanceOf_mint]
    split
    · rename_i h
      subst h
      rw [add_zero_of_isNumber (hsh _)]
      simp
    · rfl
  · rw [Token.totalSupply_mint, add_zero_of_isNumber hsup]

/-- C23 (royalty distribution has no guard against a zero divisor): when
`totalDeposits` is 0, `_distributeRoyalties(royalties)` does not fail.  The
method has no check and no `throw`, so it always returns, and the value it
writes to `accRoyaltiesPerDeposit` is not a finite number, whatever
`royalties` and the previous value are.  Likewise every `buyShares` call on
such a pool that returns normally leaves a non-finite `accRoyaltiesPerDeposit`. -/
theorem distributeRoyalties_unguarded (p : CurationPool)
    (hT : p.secondaryPool.totalDeposits = fin 0) (royalties : JSNum) :
    (∀ q : ℚ,
      (SecondaryPool._distributeRoyalties p royalties).secondaryPool.accRoyaltiesPerDeposit
        ≠ fin q)
    ∧ ∀ (account : Account) (shares : JSNum),
        (p.buyShares account shares).thrown = none →
        ∀ q : ℚ, (p.buyShares account shares).state.secondaryPool.accRoyaltiesPerDeposit
          ≠ fin q := by
  constructor
  · intro q
    simp only [SecondaryPool._distributeRoyalties, hT]
    exact add_div_zero_ne_fin _ _ q
  · intro account shares h q
    unfold CurationPool.buyShares at h ⊢
    obtain ⟨_, e⟩ := Outcome.andThen_thrown_none h
    rw [e]
    simp only [SecondaryPool._distributeRoyalties, Outcome.ok, hT]
    exact add_div_zero_ne_fin _ _ q

/-- C23 at the pool without depositors: `_distributeRoyalties(5)` returns with
`accRoyaltiesPerDeposit = Infinity`, and `buyShares(curator1, 10)` returns
normally with `accRoyaltiesPerDeposit = NaN`. -/
theorem distributeRoyalties_unguarded_witness :
    emptyPool_pool.secondaryPool.totalDeposits = fin 0
    ∧ (∀ q : ℚ, (SecondaryPool._distributeRoyalties emptyPool_pool
        (fin 5)).secondaryPool.accRoyaltiesPerDeposit ≠ fin q)
    ∧ (SecondaryPool._distributeRoyalties emptyPool_pool
        (fin 5)).secondaryPool.accRoyaltiesPerDeposit = posInf
    ∧ (emptyPool_pool.buyShares (Account.str "curator1") (fin 10)).thrown = none
    ∧ (emptyPool_pool.buyShares (Account.str "curator1")
        (fin 10)).state.secondaryPool.accRoyaltiesPerDeposit = nan :=
  ⟨by decide!, (distributeRoyalties_unguarded emptyPool_pool (by decide!) (fin 5)).1,
    by decide!, by decide!, by decide!⟩

/-- C24 as stated fails: in scenario 1 with the share balances
`[[curator1, 0.7]]` and rate `0.5`, four blocks after construction, the supply
is `0.7` and `0.7 * (1 + 0.5) ** 4` is `3.5437499999999997` in doubles, but
after `mintShares()` the supply is `3.54375`: it is the old supply plus the
minted difference, each operation rounded.  The exact product of the double
`0.7` and `1.5 ^ 4` is not the new supply either. -/
theorem mintShares_supply_differs_from_formula :
    fractionalPool = Except.ok fractionalPool_pool
    ∧ JSNum.gt fractionalPool_pool.secondaryPool.totalDeposits (fin 0) = true
    ∧ (fractionalPool_pool.sleep 4).shareToken.totalSupply
        = fin (3152519739159347 / 4503599627370496)
    ∧ (fractionalPool_pool.sleep 4).shareToken.totalSupply
        * JSNum.pow (fin 1 + (fractionalPool_pool.sleep 4).issuanceRate) 4
        = ofRat 3.5437499999999997
    ∧ (fractionalPool_pool.sleep 4).mintShares.thrown = none
    ∧ (fractionalPool_pool.sleep 4).mintShares.state.shareToken.totalSupply = ofRat 3.54375
    ∧ ofRat 3.54375 ≠ ofRat 3.5437499999999997
    ∧ ofRat 3.54375 ≠ fin (3152519739159347 / 4503599627370496 * (1 + 1 / 2) ^ (4 : ℤ)) :=
  ⟨fractionalPool_eq, by decide!⟩

/-- C24, amended: with `totalDeposits > 0`, let `m` be the finite number that
`totalShares - totalSupply` evaluates to in doubles, where the getter
`totalShares` is `totalSupply * (1 + issuanceRate) ** elapsed`.  Then
`mintShares()` returns normally; the supply becomes the double nearest to
`totalSupply + m`, the secondary pool's share balance the double nearest to
its old value plus `m`, `accSharesPerDeposit` has `m / totalDeposits` added
to it, `lastMintedBlock` is the block height, and no other share balance has
changed.  When none of `1 + issuanceRate`, the power, the product with the
supply `S` and the difference rounds, `m` is `S * (1 + issuanceRate) ^ elapsed
- S` and the new supply is `S * (1 + issuanceRate) ^ elapsed`. -/
theorem mintShares_compounds (p : CurationPool) (m b : ℚ)
    (hT : JSNum.gt p.secondaryPool.totalDeposits (fin 0) = true)
    (hm : p.totalShares - p.shareToken.totalSupply = fin m)
    (hb : p.shareToken.balanceOf p.secondaryPool.address = fin b) :
    p.totalShares = p.shareToken.totalSupply
        * JSNum.pow (fin 1 + p.issuanceRate) (p.chain.blockHeight - p.lastMintedBlock)
    ∧ p.mintShares.thrown = none
    ∧ p.mintShares.state.shareToken.totalSupply = p.shareToken.totalSupply + fin m
    ∧ p.mintShares.state.shareToken.balanceOf p.secondaryPool.address = fin b + fin m
    ∧ p.mintShares.state.secondaryPool.accSharesPerDeposit
        = p.secondaryPool.accSharesPerDeposit + fin m / p.secondaryPool.totalDeposits
    ∧ p.mintShares.state.lastMintedBlock = p.chain.blockHeight
    ∧ (∀ c, p.secondaryPool.address ≠ c →
        p.mintShares.state.shareToken.balanceOf c = p.shareToken.balanceOf c)
    ∧ ∀ s r : ℚ, p.shareToken.totalSupply = fin s → p.issuanceRate = fin r →
        p.lastMintedBlock ≤ p.chain.blockHeight →
        JSNum.allDoubles
          [1 + r, (1 + r) ^ (p.chain.blockHeight - p.lastMintedBlock),
           s * (1 + r) ^ (p.chain.blockHeight - p.lastMintedBlock),
           s * (1 + r) ^ (p.chain.blockHeight - p.lastMintedBlock) - s] = true →
        m = s * (1 + r) ^ (p.chain.blockHeight - p.lastMintedBlock) - s
        ∧ p.mintShares.state.shareToken.totalSupply
            = fin (s * (1 + r) ^ (p.chain.blockHeight - p.lastMintedBlock)) := by
  have hex : ∀ s r : ℚ, p.shareToken.totalSupply = fin s → p.issuanceRate = fin r →
      p.lastMintedBlock ≤ p.chain.blockHeight →
      JSNum.allDoubles
        [1 + r, (1 + r) ^ (p.chain.blockHeight - p.lastMintedBlock),
         s * (1 + r) ^ (p.chain.blockHeight - p.lastMintedBlock),
         s * (1 + r) ^ (p.chain.blockHeight - p.lastMintedBlock) - s] = true →
      m = s * (1 + r) ^ (p.chain.blockHeight - p.lastMintedBlock) - s
      ∧ p.mintShares.state.shareToken.totalSupply
          = fin (s * (1 + r) ^ (p.chain.blockHeight - p.lastMintedBlock)) := by
    intro s r hS hr he hd
    simp only [JSNum.allDoubles, List.all_cons, List.all_nil, Bool.and_true,
      Bool.and_eq_true] at hd
    obtain ⟨d₁, d₂, d₃, d₄⟩ := hd
    obtain ⟨e₁, e₂, _, _⟩ := CurationPool.mintShares_exact hT hS hr he d₁ d₂ d₃ d₄
    rw [hm] at e₁
    exact ⟨by injection e₁, e₂⟩
  rw [CurationPool.mintShares_eq p hT, hm] at hex ⊢
  refine ⟨rfl, rfl, rfl, ?_, rfl, rfl, ?_, hex⟩
  · simp [Outcome.ok, Token.balanceOf_mint, hb, fin_add_fin]
  · intro c hc
    simp [Outcome.ok, Token.balanceOf_mint, hc]

/-- C24 amended, at scenario 1 with rate 1, three blocks after construction:
`1000 * 2 ^ 3 - 1000 = 7000` shares are minted, the supply becomes 8000, the
secondary pool holds 7000 and `accSharesPerDeposit` becomes `7000 / 500`. -/
theorem mintShares_compounds_witness :
    (doublingPool_pool.sleep 3).mintShares.thrown = none
    ∧ (doublingPool_pool.sleep 3).mintShares.state.shareToken.totalSupply
        = fin (1000 * (1 + 1) ^ ((3 : ℤ) - 0))
    ∧ (doublingPool_pool.sleep 3).mintShares.state.shareToken.balanceOf
        (Account.str "secondaryPool") = fin 0 + fin 7000
    ∧ (doublingPool_pool.sleep 3).mintShares.state.secondaryPool.accSharesPerDeposit
        = fin 0 + fin 7000 / fin 500
    ∧ (doublingPool_pool.sleep 3).mintShares.state.lastMintedBlock = 3 :=
  ⟨(mintShares_compounds (doublingPool_pool.sleep 3) 7000 0 (by decide!) (by decide!)
      (by decide!)).2.1,
    ((mintShares_compounds (doublingPool_pool.sleep 3) 7000 0 (by decide!) (by decide!)
      (by decide!)).2.2.2.2.2.2.2 1000 1 rfl rfl (by decide) (by decide!)).2,
    (mintShares_compounds (doublingPool_pool.sleep 3) 7000 0 (by decide!) (by decide!)
      (by decide!)).2.2.2.1,
    (mintShares_compounds (doublingPool_pool.sleep 3) 7000 0 (by decide!) (by decide!)
      (by decide!)).2.2.2.2.1,
    (mintShares_compounds (doublingPool_pool.sleep 3) 7000 0 (by decide!) (by decide!)
      (by decide!)).2.2.2.2.2.1⟩

/-- C25 as stated fails: in scenario 1 with the share balances
`[[curator1, 0.7]]` and rate `0.5`, four blocks after construction, the getter
`totalShares` reads `3.5437499999999997`, while the supply after
`mintShares()`, and after `claim(curator1)`, is `3.54375`. -/
theorem totalShares_differs_from_minted_supply :
    fractionalPool = Except.ok fractionalPool_pool
    ∧ JSNum.gt fractionalPool_pool.secondaryPool.totalDeposits (fin 0) = true
    ∧ (fractionalPool_pool.sleep 4).totalShares = ofRat 3.5437499999999997
    ∧ (fractionalPool_pool.sleep 4).mintShares.state.shareToken.totalSupply = ofRat 3.54375
    ∧ ((fractionalPool_pool.sleep 4).claim (Account.str "curator1")).state.shareToken.totalSupply
        = ofRat 3.54375
    ∧ (fractionalPool_pool.sleep 4).totalShares
        ≠ (fractionalPool_pool.sleep 4).mintShares.state.shareToken.totalSupply :=
  ⟨fractionalPool_eq, by decide!⟩

/-- C25, amended: immediately after `mintShares()` the getter `totalShares`
reads the share supply, in every state.  With `totalDeposits > 0` the supply
after `mintShares()`, which is also the supply after `claim(account)`, is
`totalSupply + (totalShares - totalSupply)` as the operators compute it in
doubles from the values before the call; it can differ from the value that
`totalShares` read before the call in the last digits.  When none of
`1 + issuanceRate`, the power, the product with the supply and the difference
rounds, the value read before the call is the supply after it. -/
theorem totalShares_projection (p : CurationPool) (account : Account)
    (hT : JSNum.gt p.secondaryPool.totalDeposits (fin 0) = true) :
    p.mintShares.state.totalShares = p.mintShares.state.shareToken.totalSupply
    ∧ p.mintShares.state.shareToken.totalSupply
        = p.shareToken.totalSupply + (p.totalShares - p.shareToken.totalSupply)
    ∧ (p.claim account).state.shareToken.totalSupply
        = p.shareToken.totalSupply + (p.totalShares - p.shareToken.totalSupply)
    ∧ ∀ s r : ℚ, p.shareToken.totalSupply = fin s → p.issuanceRate = fin r →
        p.lastMintedBlock ≤ p.chain.blockHeight →
        JSNum.allDoubles
          [1 + r, (1 + r) ^ (p.chain.blockHeight - p.lastMintedBlock),
           s * (1 + r) ^ (p.chain.blockHeight - p.lastMintedBlock),
           s * (1 + r) ^ (p.chain.blockHeight - p.lastMintedBlock) - s] = true →
        p.totalShares = p.mintShares.state.shareToken.totalSupply
        ∧ p.totalShares = (p.claim account).state.shareToken.totalSupply := by
  have h₂ : p.mintShares.state.shareToken.totalSupply
      = p.shareToken.totalSupply + (p.totalShares - p.shareToken.totalSupply) := by
    rw [CurationPool.mintShares_eq p hT]
    rfl
  have h₃ : (p.claim account).state.shareToken.totalSupply
      = p.mintShares.state.shareToken.totalSupply := by
    rw [CurationPool.claim_eq_claim_mintShares, SecondaryPool._claim_totalSupply]
  refine ⟨?_, h₂, by rw [h₃, h₂], ?_⟩
  · unfold CurationPool.totalShares
    rw [CurationPool.mintShares_chain, CurationPool.mintShares_lastMintedBlock, sub_self,
      JSNum.pow_zero, h₂]
    exact mul_one_of_isNumber (isNumber_add _ _)
  · intro s r hS hr he hd
    simp only [JSNum.allDoubles, List.all_cons, List.all_nil, Bool.and_true,
      Bool.and_eq_true] at hd
    obtain ⟨d₁, d₂, d₃, d₄⟩ := hd
    obtain ⟨_, e₂, _, _⟩ := CurationPool.mintShares_exact hT hS hr he d₁ d₂ d₃ d₄
    rw [h₃, e₂]
    exact ⟨CurationPool.totalShares_exact hS hr he d₁ d₂ d₃,
      CurationPool.totalShares_exact hS hr he d₁ d₂ d₃⟩

/-- C25 amended, at scenario 1 with rate 1, three blocks after construction:
the getter reads 8000 before `mintShares()`, and the supply is 8000 after
it and after `claim(curator1)`. -/
theorem totalShares_projection_witness :
    (doublingPool_pool.sleep 3).totalShares = fin 8000
    ∧ (doublingPool_pool.sleep 3).totalShares
        = (doublingPool_pool.sleep 3).mintShares.state.shareToken.totalSupply
    ∧ (doublingPool_pool.sleep 3).totalShares
        = ((doublingPool_pool.sleep 3).claim (Account.str "curator1")).state.shareToken.totalSupply
    ∧ (doublingPool_pool.sleep 3).mintShares.state.totalShares
        = (doublingPool_pool.sleep 3).mintShares.state.shareToken.totalSupply :=
  ⟨by decide!,
    ((totalShares_projection (doublingPool_pool.sleep 3) (Account.str "curator1")
      (by decide!)).2.2.2 1000 1 rfl rfl (by decide) (by decide!)).1,
    ((totalShares_projection (doublingPool_pool.sleep 3) (Account.str "curator1")
      (by decide!)).2.2.2 1000 1 rfl rfl (by decide) (by decide!)).2,
    (totalShares_projection (doublingPool_pool.sleep 3) (Account.str "curator1")
      (by decide!)).1⟩

/-- C26 (a proportional claim can throw).  In scenario 1 with rate 1,
`curator2` deposits 1000 and `curator1` claims at block 0: the snapshots
register 500 for `curator1` and 1000 for `curator2` at the current
`accSharesPerDeposit = 0`, and `totalDeposits` is 1500.  After 25 blocks the
issuance mints `33554431000` shares.  `claim(curator1)` returns normally and
pays `curator1` `11184810333.333334` shares; `claim(curator2)` then throws the
`TypeError`: it asks for `22369620666.666668` shares, the secondary pool holds
`22369620666.666664`, and `curator2` receives nothing. -/
theorem proportional_claim_throws :
    doublingPool = Except.ok doublingPool_pool
    ∧ (simulate3 [Action.deposit (Account.str "curator2") (fin 1000),
        Action.claim (Account.str "curator1")] doublingPool_pool).secondaryPool.snapshots
        = [(Account.str "curator2", ⟨fin 1000, fin 0, fin 0⟩),
           (Account.str "curator1", ⟨fin 500, fin 0, fin 0⟩)]
    ∧ (simulate3 [Action.deposit (Account.str "curator2") (fin 1000),
        Action.claim (Account.str "curator1")] doublingPool_pool).secondaryPool.accSharesPerDeposit
        = fin 0
    ∧ (simulate3 [Action.deposit (Account.str "curator2") (fin 1000),
        Action.claim (Account.str "curator1")] doublingPool_pool).secondaryPool.totalDeposits
        = fin 1500
    ∧ (simulate3 [Action.deposit (Account.str "curator2") (fin 1000),
        Action.claim (Account.str "curator1"), Action.sleep 25]
        doublingPool_pool).totalShares
        - (simulate3 [Action.deposit (Account.str "curator2") (fin 1000),
        Action.claim (Account.str "curator1"), Action.sleep 25]
        doublingPool_pool).shareToken.totalSupply = fin 33554431000
    ∧ ((simulate3 [Action.deposit (Account.str "curator2") (fin 1000),
        Action.claim (Account.str "curator1"), Action.sleep 25] doublingPool_pool).perform
        (Action.claim (Account.str "curator1"))).thrown = none
    ∧ (simulate3 [Action.deposit (Account.str "curator2") (fin 1000),
        Action.claim (Account.str "curator1"), Action.sleep 25,
        Action.claim (Account.str "curator1")] doublingPool_pool).shareToken.balanceOf
        (Account.str "curator1") = fin 1000 + ofRat 11184810333.333334
    ∧ (simulate3 [Action.deposit (Account.str "curator2") (fin 1000),
        Action.claim (Account.str "curator1"), Action.sleep 25,
        Action.claim (Account.str "curator1")] doublingPool_pool).shareToken.balanceOf
        (Account.str "secondaryPool") = ofRat 22369620666.666664
    ∧ SecondaryPool.pendingShares (simulate3 [Action.deposit (Account.str "curator2") (fin 1000),
        Action.claim (Account.str "curator1"), Action.sleep 25,
        Action.claim (Account.str "curator1")] doublingPool_pool) (Account.str "curator2")
        = ofRat 22369620666.666668
    ∧ ((simulate3 [Action.deposit (Account.str "curator2") (fin 1000),
        Action.claim (Account.str "curator1"), Action.sleep 25,
        Action.claim (Account.str "curator1")] doublingPool_pool).perform
        (Action.claim (Account.str "curator2"))).thrown = some Err.typeError
    ∧ ((simulate3 [Action.deposit (Account.str "curator2") (fin 1000),
        Action.claim (Account.str "curator1"), Action.sleep 25,
        Action.claim (Account.str "curator1")] doublingPool_pool).perform
        (Action.claim (Account.str "curator2"))).state.shareToken.balanceOf
        (Account.str "curator2") = fin 0 :=
  ⟨doublingPool_eq, by decide!⟩

/-- C27 (a deposit followed by a withdrawal of the same amount does not
restore the state).  In the pool where `curator1` has deposit `0.3` and
reserve balance `0.1`, `deposit(curator1, 0.1)` and `withdraw(curator1, 0.1)`
both return normally with no block elapsed; afterwards the deposit of
`curator1`, the pool's reserve balance and `totalDeposits` are each
`0.30000000000000004`, not `0.3`.  And in scenario 1, after `claim(curator1)`,
`buyShares(curationPool, 1000)` and the failed `withdraw(curator1, 500)`,
`totalDeposits` is 500; `deposit(curator1, 0)` and `withdraw(curator1, 0)`
both return normally and leave `totalDeposits` at 0. -/
theorem deposit_withdraw_round_trip_fails :
    decimalPool = Except.ok decimalPool_pool
    ∧ decimalPool_pool.depositOf (Account.str "curator1") = ofRat 0.3
    ∧ decimalPool_pool.reserveToken.balanceOf (Account.str "curationPool") = ofRat 0.3
    ∧ decimalPool_pool.secondaryPool.totalDeposits = ofRat 0.3
    ∧ (decimalPool_pool.deposit (Account.str "curator1") (ofRat 0.1)).thrown = none
    ∧ ((decimalPool_pool.deposit (Account.str "curator1") (ofRat 0.1)).state.withdraw
        (Account.str "curator1") (ofRat 0.1)).thrown = none
    ∧ ((decimalPool_pool.deposit (Account.str "curator1") (ofRat 0.1)).state.withdraw
        (Account.str "curator1") (ofRat 0.1)).state.depositOf (Account.str "curator1")
        = ofRat 0.30000000000000004
    ∧ ((decimalPool_pool.deposit (Account.str "curator1") (ofRat 0.1)).state.withdraw
        (Account.str "curator1") (ofRat 0.1)).state.reserveToken.balanceOf
        (Account.str "curationPool") = ofRat 0.30000000000000004
    ∧ ((decimalPool_pool.deposit (Account.str "curator1") (ofRat 0.1)).state.withdraw
        (Account.str "curator1") (ofRat 0.1)).state.secondaryPool.totalDeposits
        = ofRat 0.30000000000000004
    ∧ ofRat 0.30000000000000004 ≠ ofRat 0.3
    ∧ (simulate3 [Action.claim (Account.str "curator1"),
        Action.buyShares (Account.str "curationPool") (fin 1000),
        Action.withdraw (Account.str "curator1") (fin 500)]
        scenario_1_pool).secondaryPool.totalDeposits = fin 500
    ∧ ((simulate3 [Action.claim (Account.str "curator1"),
        Action.buyShares (Account.str "curationPool") (fin 1000),
        Action.withdraw (Account.str "curator1") (fin 500)] scenario_1_pool).deposit
        (Account.str "curator1") (fin 0)).thrown = none
    ∧ (((simulate3 [Action.claim (Account.str "curator1"),
        Action.buyShares (Account.str "curationPool") (fin 1000),
        Action.withdraw (Account.str "curator1") (fin 500)] scenario_1_pool).deposit
        (Account.str "curator1") (fin 0)).state.withdraw
        (Account.str "curator1") (fin 0)).thrown = none
    ∧ (((simulate3 [Action.claim (Account.str "curator1"),
        Action.buyShares (Account.str "curationPool") (fin 1000),
        Action.withdraw (Account.str "curator1") (fin 500)] scenario_1_pool).deposit
        (Account.str "curator1") (fin 0)).state.withdraw
        (Account.str "curator1") (fin 0)).state.secondaryPool.totalDeposits = fin 0 :=
  ⟨decimalPool_eq, by decide!⟩

/-- C28 as stated fails: in the pool whose `totalDeposits` is `2 ^ 53`, the
account `curator3` has no snapshot and no deposit, so `snapshotOf` returns the
deposit 0 for it; `_updateDeposit(curator3, 1)` leaves `totalDeposits` at
`2 ^ 53`, although the new amount minus the previous deposit is 1. -/
theorem updateDeposit_change_absorbed :
    largePool = Except.ok largePool_pool
    ∧ largePool_pool.secondaryPool.totalDeposits = fin 9007199254740992
    ∧ (SecondaryPool.snapshotOf largePool_pool (Account.str "curator3")).deposit = fin 0
    ∧ (SecondaryPool._updateDeposit largePool_pool (Account.str "curator3")
        (fin 1)).secondaryPool.totalDeposits = fin 9007199254740992 :=
  ⟨largePool_eq, by decide!⟩

/-- C28, amended (`_updateDeposit` is a stake change, not a settlement): for
every state, account and amount, `_updateDeposit(account, newAmount)` leaves
the share ledger, the reserve ledger and the deposit map as they were, stores
for the account the snapshot `newAmount` with the current values of the two
accumulators, sets `totalDeposits` to `totalDeposits + (newAmount - d)` as the
operators `+` and `-` compute it in doubles, `d` being the deposit that
`snapshotOf(account)` returned before the call, and leaves both accumulators
and the snapshot of every other account unchanged.  When `newAmount - d` and
the sum are doubles, `totalDeposits` has changed by exactly `newAmount - d`. -/
theorem updateDeposit_is_a_stake_change (p : CurationPool) (account : Account)
    (newAmount : JSNum) :
    (SecondaryPool._updateDeposit p account newAmount).shareToken = p.shareToken
    ∧ (SecondaryPool._updateDeposit p account newAmount).reserveToken = p.reserveToken
    ∧ (SecondaryPool._updateDeposit p account newAmount).deposits = p.deposits
    ∧ (SecondaryPool._updateDeposit p account newAmount).secondaryPool.snapshots.get account
        = some { deposit := newAmount,
                 accSharesPerDeposit := p.secondaryPool.accSharesPerDeposit,
                 accRoyaltiesPerDeposit := p.secondaryPool.accRoyaltiesPerDeposit }
    ∧ SecondaryPool.snapshotOf (SecondaryPool._updateDeposit p account newAmount) account
        = { deposit := newAmount,
            accSharesPerDeposit := p.secondaryPool.accSharesPerDeposit,
            accRoyaltiesPerDeposit := p.secondaryPool.accRoyaltiesPerDeposit }
    ∧ (SecondaryPool._updateDeposit p account newAmount).secondaryPool.totalDeposits
        = p.secondaryPool.totalDeposits
          + (newAmount - (SecondaryPool.snapshotOf p account).deposit)
    ∧ (∀ T n d : ℚ, p.secondaryPool.totalDeposits = fin T → newAmount = fin n →
        (SecondaryPool.snapshotOf p account).deposit = fin d →
        isDouble (n - d) = true → isDouble (T + (n - d)) = true →
        (SecondaryPool._updateDeposit p account newAmount).secondaryPool.totalDeposits
          = fin (T + (n - d)))
    ∧ (SecondaryPool._updateDeposit p account newAmount).secondaryPool.accSharesPerDeposit
        = p.secondaryPool.accSharesPerDeposit
    ∧ (SecondaryPool._updateDeposit p account newAmount).secondaryPool.accRoyaltiesPerDeposit
        = p.secondaryPool.accRoyaltiesPerDeposit
    ∧ (SecondaryPool._updateDeposit p account newAmount).accRoyaltiesPerShare
        = p.accRoyaltiesPerShare
    ∧ ∀ c, account ≠ c →
        (SecondaryPool._updateDeposit p account newAmount).secondaryPool.snapshots.get c
          = p.secondaryPool.snapshots.get c
        ∧ SecondaryPool.snapshotOf (SecondaryPool._updateDeposit p account newAmount) c
          = SecondaryPool.snapshotOf p c := by
  refine ⟨rfl, rfl, rfl, ?_, ?_, rfl, ?_, rfl, rfl, rfl, ?_⟩
  · simp [SecondaryPool._updateDeposit]
  · simp [SecondaryPool._updateDeposit, SecondaryPool.snapshotOf]
  · intro T n d hT hn hd h₁ h₂
    show p.secondaryPool.totalDeposits + (newAmount - (SecondaryPool.snapshotOf p account).deposit)
      = fin (T + (n - d))
    rw [hT, hn, hd, fin_sub_fin, (isDouble_iff _).mp h₁, fin_add_fin, (isDouble_iff _).mp h₂]
  · intro c hc
    have hg : (SecondaryPool._updateDeposit p account newAmount).secondaryPool.snapshots.get c
        = p.secondaryPool.snapshots.get c := by
      simp [SecondaryPool._updateDeposit, JSMap.get_set_of_ne _ _ hc]
    refine ⟨hg, ?_⟩
    unfold SecondaryPool.snapshotOf
    rw [hg]
    rfl

/-- C28 amended, at scenario 1: `_updateDeposit(curator2, 1000)` raises
`totalDeposits` from 500 to 1500 and registers 1000 for `curator2`. -/
theorem updateDeposit_is_a_stake_change_witness :
    (SecondaryPool._updateDeposit scenario_1_pool (Account.str "curator2")
        (fin 1000)).secondaryPool.totalDeposits = fin (500 + (1000 - 0))
    ∧ SecondaryPool.snapshotOf (SecondaryPool._updateDeposit scenario_1_pool
        (Account.str "curator2") (fin 1000)) (Account.str "curator2")
        = { deposit := fin 1000, accSharesPerDeposit := fin 0, accRoyaltiesPerDeposit := fin 0 } :=
  ⟨(updateDeposit_is_a_stake_change scenario_1_pool (Account.str "curator2")
      (fin 1000)).2.2.2.2.2.2.1 500 1000 0 (by decide!) rfl (by decide!) (by decide!) (by decide!),
    (updateDeposit_is_a_stake_change scenario_1_pool (Account.str "curator2")
      (fin 1000)).2.2.2.2.1⟩

/-- C29 as stated fails: in scenario 1 with the share balances
`[[curator1, 0.7]]` and rate `0.5` (`lastMintedBlock = 0`,
`totalDeposits = 500` throughout), calling `mintShares()` at height 1 and
again at height 2 gives the supply `1.5749999999999997`, the secondary pool
`0.8749999999999998` shares and `accSharesPerDeposit = 0.0017499999999999994`;
calling it once at height 2 gives `1.575`, `0.875` and `0.00175`. -/
theorem issuance_depends_on_realization :
    fractionalPool = Except.ok fractionalPool_pool
    ∧ fractionalPool_pool.lastMintedBlock = 0
    ∧ JSNum.gt fractionalPool_pool.secondaryPool.totalDeposits (fin 0) = true
    ∧ (((fractionalPool_pool.sleep 1).mintShares.state.sleep 1).mintShares.state.chain.blockHeight
        = 2
      ∧ ((fractionalPool_pool.sleep 1).mintShares.state.sleep
          1).mintShares.state.secondaryPool.totalDeposits = fin 500
      ∧ ((fractionalPool_pool.sleep 1).mintShares.state.sleep
          1).mintShares.state.shareToken.totalSupply = ofRat 1.5749999999999997
      ∧ ((fractionalPool_pool.sleep 1).mintShares.state.sleep
          1).mintShares.state.shareToken.balanceOf (Account.str "secondaryPool")
          = ofRat 0.8749999999999998
      ∧ ((fractionalPool_pool.sleep 1).mintShares.state.sleep
          1).mintShares.state.secondaryPool.accSharesPerDeposit = ofRat 0.0017499999999999994)
    ∧ ((fractionalPool_pool.sleep 2).mintShares.state.chain.blockHeight = 2
      ∧ (fractionalPool_pool.sleep 2).mintShares.state.secondaryPool.totalDeposits = fin 500
      ∧ (fractionalPool_pool.sleep 2).mintShares.state.shareToken.totalSupply = ofRat 1.575
      ∧ (fractionalPool_pool.sleep 2).mintShares.state.shareToken.balanceOf
          (Account.str "secondaryPool") = ofRat 0.875
      ∧ (fractionalPool_pool.sleep 2).mintShares.state.secondaryPool.accSharesPerDeposit
          = ofRat 0.00175)
    ∧ ofRat 1.5749999999999997 ≠ ofRat 1.575
    ∧ ofRat 0.8749999999999998 ≠ ofRat 0.875
    ∧ ofRat 0.0017499999999999994 ≠ ofRat 0.00175 :=
  ⟨fractionalPool_eq, by decide!⟩

/-- C29, amended: issuance is independent of how often it is realized as long
as no operation rounds.  With `totalDeposits > 0`, supply `s`, rate `r`,
`totalDeposits = t`, accumulator `a` and secondary share balance `b`, let
`g₁ = (1 + r) ^ (h1 - lastMintedBlock)` and `g₂ = (1 + r) ^ (h2 - h1)` for the
heights `h1 = blockHeight + n₁` and `h2 = h1 + n₂`.  When `1 + r`, the powers,
the products with the supply, the minted differences, their quotients by `t`
and the intermediate balance and accumulator are all doubles, calling
`mintShares()` at `h1` and again at `h2` gives the same `totalSupply`, the
same secondary-pool share balance and the same `accSharesPerDeposit` as
calling it once at `h2`.  And whatever rounds, a second `mintShares()` at the
same height leaves the state as the first call left it, provided the supply
is finite. -/
theorem issuance_realized_twice (p : CurationPool)
    (hT : JSNum.gt p.secondaryPool.totalDeposits (fin 0) = true) :
    (∀ (n₁ n₂ : ℤ) (s r t a b g₁ g₂ : ℚ), 0 ≤ n₁ → 0 ≤ n₂ →
      p.lastMintedBlock ≤ p.chain.blockHeight →
      p.shareToken.totalSupply = fin s → p.issuanceRate = fin r →
      p.secondaryPool.totalDeposits = fin t →
      p.secondaryPool.accSharesPerDeposit = fin a →
      p.shareToken.balanceOf p.secondaryPool.address = fin b →
      g₁ = (1 + r) ^ (p.chain.blockHeight + n₁ - p.lastMintedBlock) →
      g₂ = (1 + r) ^ n₂ →
      JSNum.allDoubles
        [1 + r, g₁, g₂, g₁ * g₂, s * g₁, s * g₁ - s, s * g₁ * g₂, s * g₁ * g₂ - s * g₁,
         s * g₁ * g₂ - s, (s * g₁ - s) / t, (s * g₁ * g₂ - s * g₁) / t,
         (s * g₁ * g₂ - s) / t, a + (s * g₁ - s) / t, b + (s * g₁ - s)] = true →
      ((p.sleep n₁).mintShares.state.sleep n₂).mintShares.state.shareToken.totalSupply
          = (p.sleep (n₁ + n₂)).mintShares.state.shareToken.totalSupply
      ∧ ((p.sleep n₁).mintShares.state.sleep n₂).mintShares.state.shareToken.balanceOf
            p.secondaryPool.address
          = (p.sleep (n₁ + n₂)).mintShares.state.shareToken.balanceOf p.secondaryPool.address
      ∧ ((p.sleep n₁).mintShares.state.sleep
            n₂).mintShares.state.secondaryPool.accSharesPerDeposit
          = (p.sleep (n₁ + n₂)).mintShares.state.secondaryPool.accSharesPerDeposit)
    ∧ ∀ s : ℚ, p.mintShares.state.shareToken.totalSupply = fin s →
        p.mintShares.state.mintShares = Outcome.ok p.mintShares.state := by
  refine ⟨?_, ?_⟩
  · intro n₁ n₂ s r t a b g₁ g₂ hn₁ hn₂ hl hS hr ht ha hb hg₁ hg₂ hex
    simp only [JSNum.allDoubles, List.all_cons, List.all_nil, Bool.and_true,
      Bool.and_eq_true] at hex
    obtain ⟨d1, dg₁, dg₂, dg, dsg₁, dm₁, dsg, dm₂, dM, dq₁, dq₂, dQ, da₁, db₁⟩ := hex
    have ht0 : t ≠ 0 := ne_of_gt (fin_pos_of_gt hT ht)
    -- the first call of the two
    have he₁ : (p.sleep n₁).lastMintedBlock ≤ (p.sleep n₁).chain.blockHeight := by
      show p.lastMintedBlock ≤ p.chain.blockHeight + n₁
      omega
    have hel₁ : (p.sleep n₁).chain.blockHeight - (p.sleep n₁).lastMintedBlock
        = p.chain.blockHeight + n₁ - p.lastMintedBlock := rfl
    obtain ⟨x₁, x₂, x₃⟩ := CurationPool.mintShares_exact_values (p := p.sleep n₁)
      (s := s) (r := r) (t := t) (a := a) (b := b) hT hS hr ht ha hb he₁ d1
      (by rw [hel₁, ← hg₁]; exact dg₁) (by rw [hel₁, ← hg₁]; exact dsg₁)
      (by rw [hel₁, ← hg₁]; exact dm₁) (by rw [hel₁, ← hg₁]; exact dq₁)
    rw [hel₁, ← hg₁] at x₁ x₂ x₃
    rw [(isDouble_iff _).mp db₁] at x₂
    rw [(isDouble_iff _).mp da₁] at x₃
    -- the second call of the two
    have hT₂ : JSNum.gt ((p.sleep n₁).mintShares.state.sleep n₂).secondaryPool.totalDeposits
        (fin 0) = true := by
      show JSNum.gt (p.sleep n₁).mintShares.state.secondaryPool.totalDeposits (fin 0) = true
      rw [CurationPool.mintShares_totalDeposits]
      exact hT
    have ht₂ : ((p.sleep n₁).mintShares.state.sleep n₂).secondaryPool.totalDeposits = fin t := by
      show (p.sleep n₁).mintShares.state.secondaryPool.totalDeposits = fin t
      rw [CurationPool.mintShares_totalDeposits]
      exact ht
    have hr₂ : ((p.sleep n₁).mintShares.state.sleep n₂).issuanceRate = fin r := by
      show (p.sleep n₁).mintShares.state.issuanceRate = fin r
      rw [CurationPool.mintShares_issuanceRate]
      exact hr
    have hadr : ((p.sleep n₁).mintShares.state.sleep n₂).secondaryPool.address
        = p.secondaryPool.address := by
      show (p.sleep n₁).mintShares.state.secondaryPool.address = p.secondaryPool.address
      rw [CurationPool.mintShares_secondaryPool_address]
      rfl
    have hel₂ : ((p.sleep n₁).mintShares.state.sleep n₂).chain.blockHeight
        - ((p.sleep n₁).mintShares.state.sleep n₂).lastMintedBlock = n₂ := by
      show (p.sleep n₁).mintShares.state.chain.blockHeight + n₂
        - (p.sleep n₁).mintShares.state.lastMintedBlock = n₂
      rw [CurationPool.mintShares_chain, CurationPool.mintShares_lastMintedBlock]
      omega
    have he₂ : ((p.sleep n₁).mintShares.state.sleep n₂).lastMintedBlock
        ≤ ((p.sleep n₁).mintShares.state.sleep n₂).chain.blockHeight := by
      have := hel₂
      omega
    obtain ⟨y₁, y₂, y₃⟩ := CurationPool.mintShares_exact_values
      (p := (p.sleep n₁).mintShares.state.sleep n₂)
      (s := s * g₁) (r := r) (t := t) (a := a + (s * g₁ - s) / t) (b := b + (s * g₁ - s))
      hT₂ x₁ hr₂ ht₂ x₃ (by rw [hadr]; exact x₂) he₂ d1
      (by rw [hel₂, ← hg₂]; exact dg₂) (by rw [hel₂, ← hg₂]; exact dsg)
      (by rw [hel₂, ← hg₂]; exact dm₂) (by rw [hel₂, ← hg₂]; exact dq₂)
    rw [hel₂, ← hg₂] at y₁ y₂ y₃
    rw [hadr] at y₂
    -- the single call
    have he' : (p.sleep (n₁ + n₂)).lastMintedBlock ≤ (p.sleep (n₁ + n₂)).chain.blockHeight := by
      show p.lastMintedBlock ≤ p.chain.blockHeight + (n₁ + n₂)
      omega
    have hg : (1 + r) ^ ((p.sleep (n₁ + n₂)).chain.blockHeight
        - (p.sleep (n₁ + n₂)).lastMintedBlock) = g₁ * g₂ := by
      show (1 + r) ^ (p.chain.blockHeight + (n₁ + n₂) - p.lastMintedBlock) = g₁ * g₂
      rw [hg₁, hg₂, ← zpow_add' (by
        by_cases h0 : p.chain.blockHeight + n₁ - p.lastMintedBlock + n₂ = 0
        · right; right
          constructor <;> omega
        · right; left
          exact h0)]
      congr 1
      ring
    have hsg : s * (g₁ * g₂) = s * g₁ * g₂ := by ring
    obtain ⟨z₁, z₂, z₃⟩ := CurationPool.mintShares_exact_values (p := p.sleep (n₁ + n₂))
      (s := s) (r := r) (t := t) (a := a) (b := b) hT hS hr ht ha hb he' d1
      (by rw [hg]; exact dg) (by rw [hg, hsg]; exact dsg)
      (by rw [hg, hsg]; exact dM) (by rw [hg, hsg]; exact dQ)
    rw [hg, hsg] at z₁ z₂ z₃
    refine ⟨by rw [y₁, z₁], ?_, ?_⟩
    · have e : p.secondaryPool.address = (p.sleep (n₁ + n₂)).secondaryPool.address := rfl
      rw [y₂]
      rw [e, z₂]
      congr 1
      ring
    · rw [y₃, z₃]
      congr 1
      field_simp
      ring
  · intro s hS
    have hT' : JSNum.gt p.mintShares.state.secondaryPool.totalDeposits (fin 0) = true := by
      rw [CurationPool.mintShares_totalDeposits]
      exact hT
    have hS₀ : p.shareToken.totalSupply + (p.totalShares - p.shareToken.totalSupply)
        = fin s := by
      rw [← hS, CurationPool.mintShares_eq p hT]
      rfl
    obtain ⟨⟨S, hSfin⟩, ⟨m, hm⟩⟩ := fin_of_add_eq_fin hS₀
    -- the second call mints zero
    have hts : p.mintShares.state.totalShares = fin s := by
      unfold CurationPool.totalShares
      rw [CurationPool.mintShares_chain, CurationPool.mintShares_lastMintedBlock, sub_self,
        JSNum.pow_zero, hS]
      have := mul_one_of_isNumber (x := fin s) (by rw [← hS₀]; exact isNumber_add _ _)
      exact this
    have hzero : p.mintShares.state.totalShares - p.mintShares.state.shareToken.totalSupply
        = fin 0 := by
      rw [hts, hS, sub_self_of_fin]
    rw [CurationPool.mintShares_eq p.mintShares.state hT', hzero, zero_div_of_gt hT']
    -- what the first call wrote
    have hq := CurationPool.mintShares_eq p hT
    rw [hm] at hq
    rw [hq]
    simp only [Outcome.ok]
    have htok : (p.shareToken.mint p.secondaryPool.address (fin m)).mint p.secondaryPool.address
        (fin 0) = p.shareToken.mint p.secondaryPool.address (fin m) :=
      Token.mint_mint_zero _ _ _ (Token.balanceOf_add_fin_ne_nan _ _ _)
    have hacc : p.secondaryPool.accSharesPerDeposit + fin m / p.secondaryPool.totalDeposits
        + fin 0
        = p.secondaryPool.accSharesPerDeposit + fin m / p.secondaryPool.totalDeposits :=
      add_zero_of_isNumber (isNumber_add _ _)
    simp only [htok, hacc]

/-- C29 amended, at scenario 1 with rate 1 (supply 1000, `totalDeposits` 500):
`mintShares()` after one block and again two blocks later gives the supply
8000, the secondary pool 7000 shares and `accSharesPerDeposit = 14`, as does a
single `mintShares()` after three blocks; and repeating the call at that
height changes nothing. -/
theorem issuance_realized_twice_witness :
    (((doublingPool_pool.sleep 1).mintShares.state.sleep 2).mintShares.state.shareToken.totalSupply
        = (doublingPool_pool.sleep (1 + 2)).mintShares.state.shareToken.totalSupply
      ∧ ((doublingPool_pool.sleep 1).mintShares.state.sleep
            2).mintShares.state.shareToken.balanceOf doublingPool_pool.secondaryPool.address
        = (doublingPool_pool.sleep (1 + 2)).mintShares.state.shareToken.balanceOf
            doublingPool_pool.secondaryPool.address
      ∧ ((doublingPool_pool.sleep 1).mintShares.state.sleep
            2).mintShares.state.secondaryPool.accSharesPerDeposit
        = (doublingPool_pool.sleep (1 + 2)).mintShares.state.secondaryPool.accSharesPerDeposit)
    ∧ (doublingPool_pool.sleep (1 + 2)).mintShares.state.shareToken.totalSupply = fin 8000
    ∧ (doublingPool_pool.sleep (1 + 2)).mintShares.state.shareToken.balanceOf
        (Account.str "secondaryPool") = fin 7000
    ∧ (doublingPool_pool.sleep (1 + 2)).mintShares.state.secondaryPool.accSharesPerDeposit
        = fin 14
    ∧ (doublingPool_pool.sleep 3).mintShares.state.mintShares
        = Outcome.ok (doublingPool_pool.sleep 3).mintShares.state :=
  ⟨(issuance_realized_twice doublingPool_pool (by decide!)).1 1 2 1000 1 500 0 0 2 4
      (by decide) (by decide) (by decide) rfl rfl rfl rfl (by decide!)
      (by show (2 : ℚ) = (1 + 1) ^ ((0 : ℤ) + 1 - 0); norm_num) (by norm_num) (by decide!),
    by decide!, by decide!, by decide!,
    (issuance_realized_twice (doublingPool_pool.sleep 3) (by decide!)).2 8000 (by decide!)⟩

/-- C30 (the secondary pool can owe more shares than it holds).  In scenario 1
with rate 1 the run `sleep(1)`, `deposit(curator2, 1000)`, `sleep(25)`,
`claim(curator2)` consists of depositors' actions made while
`totalDeposits > 0`, and each call returns normally.  In the state it reaches
the secondary pool holds `22369621666.666664` shares while the shares pending
for `curator1` are `22369621666.666668`; the difference is not below the
tolerance, and `claim(curator1)` throws the `TypeError` of the skipped
transfer. -/
theorem secondary_pool_owes_more_than_it_holds :
    doublingPool = Except.ok doublingPool_pool
    ∧ doublingPool_pool.depositorRun [Action.sleep 1,
        Action.deposit (Account.str "curator2") (fin 1000), Action.sleep 25,
        Action.claim (Account.str "curator2")] = true
    ∧ ((simulate3 [Action.sleep 1] doublingPool_pool).perform
        (Action.deposit (Account.str "curator2") (fin 1000))).thrown = none
    ∧ ((simulate3 [Action.sleep 1, Action.deposit (Account.str "curator2") (fin 1000),
        Action.sleep 25] doublingPool_pool).perform
        (Action.claim (Account.str "curator2"))).thrown = none
    ∧ (simulate3 [Action.sleep 1, Action.deposit (Account.str "curator2") (fin 1000),
        Action.sleep 25, Action.claim (Account.str "curator2")]
        doublingPool_pool).shareToken.balanceOf (Account.str "secondaryPool")
        = ofRat 22369621666.666664
    ∧ SecondaryPool.pendingShares (simulate3 [Action.sleep 1,
        Action.deposit (Account.str "curator2") (fin 1000), Action.sleep 25,
        Action.claim (Account.str "curator2")] doublingPool_pool) (Account.str "curator1")
        = ofRat 22369621666.666668
    ∧ JSNum.lt (ofRat 22369621666.666664) (ofRat 22369621666.666668) = true
    ∧ (simulate3 [Action.sleep 1, Action.deposit (Account.str "curator2") (fin 1000),
        Action.sleep 25, Action.claim (Account.str "curator2")]
        doublingPool_pool).depositorAction (Action.claim (Account.str "curator1")) = true
    ∧ ((simulate3 [Action.sleep 1, Action.deposit (Account.str "curator2") (fin 1000),
        Action.sleep 25, Action.claim (Account.str "curator2")] doublingPool_pool).perform
        (Action.claim (Account.str "curator1"))).thrown = some Err.typeError :=
  ⟨doublingPool_eq, by decide!⟩

end CurationSim
